import Mathlib

/-!
# Genesys Cloud provider: the architect-flow resource

A shallow embedding of `resource_genesyscloud_architect_flow.go`: the job
registration, the upload of the flow file to the presigned URL, the polling
closure handed to the retry helper, and the final read.

Effects are explicit.  A `World` carries the clock (seconds), the number of
job-status requests issued so far, the resource data and the trace of
effects; a `Remote` fixes what the outside answers.  The clock is advanced by
`time.Sleep` only.  A Go runtime panic (failed type assertion, nil
dereference) is the `panic` outcome of `Run`.
-/

namespace Genesyscloud

/-! ## Values -/

/-- A float64, by its 64-bit pattern.  JSON numbers decode to this type. -/
structure Float64 where
  bits : Nat

/-- A value held by an `interface{}` after `json.Unmarshal`. -/
inductive JSONValue where
  | null
  | bool (b : Bool)
  | number (x : Float64)
  | string (s : String)
  | array (xs : List JSONValue)
  | object (fields : List (String × JSONValue))

/-- A `map[string]interface{}`; `m.lookup k` is `m[k]`, with `none` the nil interface. -/
abbrev JSONObject := List (String × JSONValue)

/-- The comparison `v == "lit"` of an interface value with a string constant. -/
def ifaceEqString : Option JSONValue → String → Bool
  | some (.string s), lit => s == lit
  | _, _ => false

/-- The type assertion `v.(string)`; `none` is the runtime panic. -/
def assertString : Option JSONValue → Option String
  | some (.string s) => some s
  | _ => none

/-- The type assertion `v.(float64)`; `none` is the runtime panic. -/
def assertFloat64 : Option JSONValue → Option Float64
  | some (.number x) => some x
  | _ => none

/-- The type assertion `v.(map[string]interface{})`; `none` is the runtime panic. -/
def assertMap : Option JSONValue → Option JSONObject
  | some (.object fields) => some fields
  | _ => none

/-- The assignment `m[k] = v` on a Go map kept as an association list. -/
def mapSet {α : Type} (m : List (String × α)) (k : String) (v : α) : List (String × α) :=
  (k, v) :: m.filter (fun e => e.1 != k)

/-- The verb `%s` applied to an `error`; a nil error prints as Go prints it. -/
def fmtS : Option String → String
  | none => "%!s(<nil>)"
  | some e => e

/-- Library functions the resource calls, taken as given. -/
structure Lib where
  /-- Go's `json.Unmarshal` into a fresh `map[string]interface{}`: the error text, or the decoded map. -/
  jsonUnmarshal : String → Except String JSONObject
  /-- The verb `%f` on a float64. -/
  fmtFloat : Float64 → String
  /-- Go's `fmt.Sprintf(format)` without operands, as in `diag.Errorf(err.Error())`. -/
  sprintf : String → String
  /-- The key canonicalisation done by `http.Header.Set`. -/
  canonicalHeaderKey : String → String
  /-- Whether `http.NewRequest` accepts the URL (otherwise the request is nil). -/
  newRequestOk : String → Bool

/-! ## Diagnostics and retry errors -/

/-- An error diagnostic.  `Timeout` marks the report of an elapsed deadline,
the class Timeout of the error taxonomy; `diag.Errorf` never sets it. -/
structure Diagnostic where
  Summary : String
  Timeout : Bool

/-- The type `diag.Diagnostics`; the empty list is nil (no error). -/
abbrev Diagnostics := List Diagnostic

/-- The diagnostics `diag.Errorf` builds, given the formatted text. -/
def diagErrorf (summary : String) : Diagnostics :=
  [{ Summary := summary, Timeout := false }]

/-- The type `resource.RetryError`. -/
structure RetryError where
  Err : String
  Retryable : Bool

/-- The constructor `resource.NonRetryableError`. -/
def NonRetryableError (err : String) : RetryError :=
  { Err := err, Retryable := false }

/-- The constructor `resource.RetryableError`. -/
def RetryableError (err : String) : RetryError :=
  { Err := err, Retryable := true }

/-! ## The outside world -/

/-- The fields of the SDK's `APIResponse` that the resource reads. -/
structure APIResponse where
  /-- The pointer `response.Error`: `none` is nil. -/
  Error : Option String
  ErrorMessage : String
  RawBody : String
  CorrelationID : String

/-- What `apiClient.CallAPI` returns: `(nil, err)` or `(response, nil)`. -/
inductive CallResult where
  | failed (err : String)
  | answered (response : APIResponse)

/-- Bytes of a file or of a response body. -/
abbrev Bytes := List Nat

/-- The `http.Response` of the PUT: its status code and what `ioutil.ReadAll` makes of its body. -/
structure HTTPResponse where
  StatusCode : Nat
  Body : Except String Bytes

/-- What `client.Do` returns: the response pointer and the error, each possibly nil. -/
structure DoResult where
  resp : Option HTTPResponse
  err : Option String

/-- What opening and copying the flow file gives. -/
inductive FileRead where
  | openError (err : String)
  | copyError (err : String)
  | content (body : Bytes)

/-- The answers of the outside: the registration POST, the file system, the
storage PUT, the k-th job-status GET and the flow GET. -/
structure Remote where
  register : CallResult
  file : String → FileRead
  put : DoResult
  status : Nat → CallResult
  flow : CallResult

/-- The SDK configuration fields the resource reads. -/
structure Configuration where
  BasePath : String
  DefaultHeader : List (String × String)
  AccessToken : String

/-- One observable effect. -/
inductive Event where
  | callAPI (path method : String) (headerParams : List (String × String))
  | httpDo (method url : String) (header : List (String × String)) (body : Bytes)
  | sleep (seconds : Nat)
  | setId (id : String)

/-- The resource data `d`: its identifier and its `filepath` attribute. -/
structure ResourceData where
  id : String
  filepath : String

/-- The state threaded through an operation. -/
structure World where
  /-- Wall clock, in seconds. -/
  now : Nat
  /-- Number of job-status requests issued so far. -/
  polls : Nat
  d : ResourceData
  /-- Effects so far, oldest first. -/
  trace : List Event

/-- Record an effect. -/
def World.emit (w : World) (e : Event) : World :=
  { w with trace := w.trace ++ [e] }

/-- The call `d.SetId(id)`. -/
def World.SetId (w : World) (id : String) : World :=
  { w with d := { w.d with id := id }, trace := w.trace ++ [Event.setId id] }

/-- The call `time.Sleep(seconds * time.Second)`. -/
def World.Sleep (w : World) (seconds : Nat) : World :=
  { w with now := w.now + seconds, trace := w.trace ++ [Event.sleep seconds] }

/-- The outcome of running a piece of Go code: it returns a value or panics. -/
inductive Run (σ α : Type) where
  | ret (value : α) (state : σ)
  | panic (state : σ)

/-- The identifiers passed to `d.SetId` in a trace, in order. -/
def setIds : List Event → List String
  | [] => []
  | Event.setId id :: es => id :: setIds es
  | _ :: es => setIds es

/-- The storage requests in a trace. -/
def uploads : List Event → List Event
  | [] => []
  | Event.httpDo m u h b :: es => Event.httpDo m u h b :: uploads es
  | _ :: es => uploads es

/-- The pauses in a trace, in seconds. -/
def sleeps : List Event → List Nat
  | [] => []
  | Event.sleep n :: es => n :: sleeps es
  | _ :: es => sleeps es

/-- The text `sub` occurs in `s`. -/
def Mentions (s sub : String) : Prop := sub.data <:+: s.data

/-! ## The resource -/

/-- The header map built at lines 85-94 of `createFlow` (and again in
`readFlow` and `updateFlow`): the default headers, then the three fixed ones. -/
def headerParams (cfg : Configuration) : List (String × String) :=
  let defaults := cfg.DefaultHeader.foldl
    (fun hp kv => mapSet hp kv.1 ((cfg.DefaultHeader.lookup kv.1).getD "")) []
  mapSet (mapSet (mapSet defaults "Authorization" ("Bearer " ++ cfg.AccessToken))
    "Content-Type" "application/json") "Accept" "application/json"

/-- The literal registration URL of `createFlow` and `updateFlow`. -/
def jobsPath : String := "http://localhost:8080/api/v2/flows/jobs"

/-- What the registration stage hands on. -/
structure Job where
  presignedUrl : String
  jobId : String
  correlationId : String
  headers : JSONObject
  orgID : String

/-- Lines 96-113 of `createFlow`, repeated as lines 234-251 of `updateFlow`:
the registration POST, the decoding of its body and the unchecked extraction of
the job fields.  The result is the diagnostics returned from inside the
if-chain, or the job. -/
def submitJob (lib : Lib) (srv : Remote) (cfg : Configuration) (w : World) :
    Run World (Except Diagnostics Job) :=
  let w1 := w.emit (Event.callAPI jobsPath "POST" (headerParams cfg))
  let decoded : Except Diagnostics (JSONObject × Option APIResponse) :=
    match srv.register with
    | .failed _ => .ok ([], none)
    | .answered response =>
      match response.Error with
      | some _ => .error (diagErrorf ("Failed to register Archy job. " ++ fmtS none))
      | none =>
        match lib.jsonUnmarshal response.RawBody with
        | .error e => .error (diagErrorf
            ("Failed to unmarshal response after registering the Archy job. " ++ e))
        | .ok payload => .ok (payload, some response)
  match decoded with
  | .error ds => .ret (.error ds) w1
  | .ok (successPayload, response) =>
    match assertString (successPayload.lookup "presignedUrl") with
    | none => .panic w1
    | some presignedUrl =>
      match assertString (successPayload.lookup "jobId") with
      | none => .panic w1
      | some jobId =>
        match response with
        | none => .panic w1
        | some r =>
          match assertMap (successPayload.lookup "headers") with
          | none => .panic w1
          | some headers =>
            match assertString (headers.lookup "x-amz-meta-organizationid") with
            | none => .panic w1
            | some orgID =>
              .ret (.ok { presignedUrl := presignedUrl, jobId := jobId,
                          correlationId := r.CorrelationID, headers := headers,
                          orgID := orgID }) w1

/-- The loop `for key, value := range headers { req.Header.Set(key, value.(string)) }`;
`none` when a value is not a string. -/
def setHeaders (lib : Lib) : JSONObject → List (String × String) → Option (List (String × String))
  | [], header => some header
  | (key, value) :: rest, header =>
    match assertString (some value) with
    | none => none
    | some v => setHeaders lib rest (mapSet header (lib.canonicalHeaderKey key) v)

/-- The function `prepareAndUploadFile`: the pair `([]byte, error)` it returns. -/
def prepareAndUploadFile (lib : Lib) (srv : Remote) (filename : String)
    (headers : JSONObject) (presignedUrl _jobId _orgId _correlationId : String)
    (w : World) : Run World (Option Bytes × Option String) :=
  match srv.file filename with
  | .openError e => .ret (none, some ("Failed to open the file. Error: " ++ e ++ " ")) w
  | .copyError e =>
    .ret (none, some ("Failed to copy file content to the handler. Error: " ++ e ++ " ")) w
  | .content body =>
    if lib.newRequestOk presignedUrl then
      match setHeaders lib headers [] with
      | none => .panic w
      | some header =>
        let w1 := w.emit (Event.httpDo "PUT" presignedUrl header body)
        match srv.put.resp with
        | none => .panic w1
        | some resp =>
          if srv.put.err.isSome || resp.StatusCode != 200 then
            .ret (none, some ("Failed to upload flow configuration file to S3 bucket. Error: "
              ++ fmtS srv.put.err ++ " ")) w1
          else
            match resp.Body with
            | .error e => .ret (none, some
                ("Failed to read response body when uploading flow configuration file. " ++ e)) w1
            | .ok response => .ret (some response, none) w1
    else .panic w

/-- The map `res` after lines 131-143 of `createFlow` (268-278 of `updateFlow`):
empty unless the request succeeded, carried no API error and decoded. -/
def jobStatus (lib : Lib) : CallResult → JSONObject
  | .failed _ => []
  | .answered response =>
    match response.Error with
    | some _ => []
    | none =>
      match lib.jsonUnmarshal response.RawBody with
      | .error _ => []
      | .ok res => res

/-- The job-status request of one poll iteration. -/
def World.getStatus (w : World) (cfg : Configuration) (jobId : String) : World :=
  { w.emit (Event.callAPI (jobsPath ++ "/" ++ jobId) "GET" (headerParams cfg)) with
    polls := w.polls + 1 }

/-- The closure `createFlow` hands to `withRetries` (lines 126-155).  Its state
is the captured variable `flowID` and the world. -/
def createFlowPoll (lib : Lib) (srv : Remote) (cfg : Configuration) (jobId : String)
    (s : String × World) : Run (String × World) (Option RetryError) :=
  let w1 := s.2.getStatus cfg jobId
  let res := jobStatus lib (srv.status s.2.polls)
  if ifaceEqString (res.lookup "status") "Failure" then
    match assertFloat64 (res.lookup "exitCode") with
    | none => .panic (s.1, w1)
    | some exitCode =>
      .ret (some (NonRetryableError
        ("Flow publish failed. JobID: " ++ jobId ++ ", exit code: " ++ lib.fmtFloat exitCode)))
        (s.1, w1)
  else if ifaceEqString (res.lookup "status") "Success" then
    match assertMap (res.lookup "flow") with
    | none => .panic (s.1, w1)
    | some flow =>
      match assertString (flow.lookup "id") with
      | none => .panic (s.1, w1)
      | some id => .ret none (id, w1)
  else
    .ret (some (RetryableError ("Job (" ++ jobId ++ ") is still in progress.")))
      (s.1, w1.Sleep 15)

/-- The closure `updateFlow` hands to `withRetries` (lines 262-291). -/
def updateFlowPoll (lib : Lib) (srv : Remote) (cfg : Configuration) (jobId : String)
    (w : World) : Run World (Option RetryError) :=
  let w1 := w.getStatus cfg jobId
  let res := jobStatus lib (srv.status w.polls)
  if ifaceEqString (res.lookup "status") "Failure" then
    match assertFloat64 (res.lookup "exitCode") with
    | none => .panic w1
    | some exitCode =>
      .ret (some (NonRetryableError
        ("Flow publish failed. JobID: " ++ jobId ++ ", exit code: " ++ lib.fmtFloat exitCode)))
        w1
  else if ifaceEqString (res.lookup "status") "Success" then
    match assertMap (res.lookup "flow") with
    | none => .panic w1
    | some flow =>
      match assertString (flow.lookup "id") with
      | none => .panic w1
      | some flowID => .ret none (w1.SetId flowID)
  else
    .ret (some (RetryableError ("Job (" ++ jobId ++ ") is still in progress.")))
      (w1.Sleep 15)

/-- Modelled from the spec: the loop of the helper `withRetries`, whose source is
not part of the files at hand, with the deadline as an absolute time (see
`withRetries` below).  `none` means the fuel ran out. -/
def retryLoop {σ : Type} (clock : σ → Nat) (deadline : Nat)
    (method : σ → Run σ (Option RetryError)) : Nat → σ → Option (Run σ Diagnostics)
  | 0, _ => none
  | fuel + 1, s =>
    match method s with
    | .panic s1 => some (.panic s1)
    | .ret none s1 => some (.ret [] s1)
    | .ret (some e) s1 =>
      if e.Retryable then
        if deadline ≤ clock s1 then some (.ret [{ Summary := e.Err, Timeout := true }] s1)
        else retryLoop clock deadline method fuel s1
      else some (.ret [{ Summary := e.Err, Timeout := false }] s1)

/-- Modelled from the spec: the helper `withRetries` of this package, whose
source is not part of the files at hand.  Section 4.4: each iteration runs the
method once; a nil result ends the loop without error, a non-retryable error
ends it with that error, and after a retryable error the loop retries unless
the deadline (`timeout` seconds after the start) has elapsed, in which case it
reports a timeout error; that report carries the text of the last retryable
error, which is how it can refer to the job (scenario C). -/
def withRetries {σ : Type} (clock : σ → Nat) (timeout : Nat)
    (method : σ → Run σ (Option RetryError)) (fuel : Nat) (s : σ) :
    Option (Run σ Diagnostics) :=
  retryLoop clock (clock s + timeout) method fuel s

/-- The function `readFlow`. -/
def readFlow (lib : Lib) (srv : Remote) (cfg : Configuration) (w : World) :
    Run World Diagnostics :=
  let path := cfg.BasePath ++ "/api/v2/flows/" ++ w.d.id
  let w1 := w.emit (Event.callAPI path "GET" (headerParams cfg))
  match srv.flow with
  | .failed _ => .ret [] w1
  | .answered response =>
    match response.Error with
    | some _ => .ret (diagErrorf ("Failed to register Archy job. " ++ fmtS none)) w1
    | none =>
      match lib.jsonUnmarshal response.RawBody with
      | .error e => .ret (diagErrorf
          ("Failed to unmarshal response after registering the Archy job. " ++ e)) w1
      | .ok _ => .ret [] w1

/-- The polling stage of `createFlow` (lines 123-155): `flowID` starts empty
and the closure runs under `withRetries` with a budget of 16 minutes. -/
def createFlowWait (lib : Lib) (srv : Remote) (cfg : Configuration) (jobId : String)
    (fuel : Nat) (w : World) : Option (Run (String × World) Diagnostics) :=
  withRetries (fun s => s.2.now) (16 * 60) (createFlowPoll lib srv cfg jobId) fuel ("", w)

/-- The function `createFlow`.  `none` means the fuel of the retry loop ran out. -/
def createFlow (lib : Lib) (srv : Remote) (cfg : Configuration) (fuel : Nat) (w : World) :
    Option (Run World Diagnostics) :=
  match submitJob lib srv cfg w with
  | .panic w1 => some (.panic w1)
  | .ret (.error ds) w1 => some (.ret ds w1)
  | .ret (.ok job) w1 =>
    match prepareAndUploadFile lib srv w1.d.filepath job.headers job.presignedUrl job.jobId
        job.orgID job.correlationId w1 with
    | .panic w2 => some (.panic w2)
    | .ret (_, some err) w2 => some (.ret (diagErrorf (lib.sprintf err)) w2)
    | .ret (_, none) w2 =>
      match createFlowWait lib srv cfg job.jobId fuel w2 with
      | none => none
      | some (.panic s) => some (.panic s.2)
      | some (.ret (e :: es) s) => some (.ret (e :: es) s.2)
      | some (.ret [] s) =>
        if s.1 = "" then
          some (.ret (diagErrorf ("The Architect Job (" ++ job.jobId ++ ") timed out.")) s.2)
        else some (readFlow lib srv cfg (s.2.SetId s.1))

/-- The function `updateFlow`.  `none` means the fuel of the retry loop ran out. -/
def updateFlow (lib : Lib) (srv : Remote) (cfg : Configuration) (fuel : Nat) (w : World) :
    Option (Run World Diagnostics) :=
  match submitJob lib srv cfg w with
  | .panic w1 => some (.panic w1)
  | .ret (.error ds) w1 => some (.ret ds w1)
  | .ret (.ok job) w1 =>
    match prepareAndUploadFile lib srv w1.d.filepath job.headers job.presignedUrl job.jobId
        job.orgID job.correlationId w1 with
    | .panic w2 => some (.panic w2)
    | .ret (_, some err) w2 => some (.ret (diagErrorf (lib.sprintf err)) w2)
    | .ret (_, none) w2 =>
      match withRetries (fun s => s.now) (16 * 60) (updateFlowPoll lib srv cfg job.jobId)
          fuel w2 with
      | none => none
      | some (.panic w3) => some (.panic w3)
      | some (.ret (e :: es) w3) => some (.ret (e :: es) w3)
      | some (.ret [] w3) => some (readFlow lib srv cfg w3)


/-! ## Concrete data for the examples -/

/-- The final state of a run. -/
def Run.state {σ α : Type} : Run σ α → σ
  | .ret _ s => s
  | .panic s => s

/-- Whether a decoded status ends the polling: `Failure` or `Success`. -/
def isTerminal (res : JSONObject) : Bool :=
  ifaceEqString (res.lookup "status") "Failure" || ifaceEqString (res.lookup "status") "Success"

/-- The world after `n` poll iterations that each ended in the wait. -/
def pollWait (cfg : Configuration) (jobId : String) : Nat → World → World
  | 0, w => w
  | n + 1, w => pollWait cfg jobId n ((w.getStatus cfg jobId).Sleep 15)

/-- The float64 2.0. -/
def two : Float64 := { bits := 0x4000000000000000 }

/-- Some response bodies with what `json.Unmarshal` decodes them to. -/
def sampleBodies : List (String × JSONObject) :=
  [ ("\x7b\"jobId\":\"J1\",\"presignedUrl\":\"https://x\",\"headers\":\x7b\"x-amz-meta-organizationid\":\"org1\"\x7d\x7d",
      [("jobId", .string "J1"), ("presignedUrl", .string "https://x"),
       ("headers", .object [("x-amz-meta-organizationid", .string "org1")])]),
    ("\x7b\"status\":\"InProgress\"\x7d", [("status", .string "InProgress")]),
    ("\x7b\"status\":\"Failure\",\"exitCode\":2\x7d",
      [("status", .string "Failure"), ("exitCode", .number two)]),
    ("\x7b\"status\":\"Failure\",\"exitCode\":2,\"flow\":\x7b\"id\":\"F1\"\x7d\x7d",
      [("status", .string "Failure"), ("exitCode", .number two),
       ("flow", .object [("id", .string "F1")])]),
    ("\x7b\"status\":\"Success\",\"flow\":\x7b\"id\":\"F1\"\x7d\x7d",
      [("status", .string "Success"), ("flow", .object [("id", .string "F1")])]),
    ("\x7b\"status\":\"Success\",\"flow\":\x7b\"id\":\"\"\x7d\x7d",
      [("status", .string "Success"), ("flow", .object [("id", .string "")])]),
    ("\x7b\"status\":\"Success\"\x7d", [("status", .string "Success")]),
    ("\x7b\"id\":\"F1\"\x7d", [("id", .string "F1")]) ]

/-- Go's `fmt.Sprintf` on a format without operands, for formats whose percent
signs are directly followed by the verb: `%%` prints a percent sign, a verb
finds no operand and a percent sign at the end has no verb. -/
def sprintfNoOperands : List Char → List Char
  | [] => []
  | '%' :: [] => "%!(NOVERB)".data
  | '%' :: '%' :: rest => '%' :: sprintfNoOperands rest
  | '%' :: verb :: rest => "%!".data ++ verb :: "(MISSING)".data ++ sprintfNoOperands rest
  | c :: rest => c :: sprintfNoOperands rest

/-- Whether a byte may occur in a header field name (an HTTP token byte). -/
def validHeaderFieldByte (c : Char) : Bool :=
  c.isAlphanum || "!#$%&\x27*+-.^_\x60|~".data.contains c

/-- The letter-case pass of Go's `textproto.CanonicalMIMEHeaderKey`: the first
letter and every letter after a hyphen in upper case, the other letters in
lower case. -/
def canonicalCase : Bool → List Char → List Char
  | _, [] => []
  | upper, c :: rest =>
    (if upper then c.toUpper else c.toLower) :: canonicalCase (c == '-') rest

/-- Go's `textproto.CanonicalMIMEHeaderKey`, which `http.Header.Set` applies to
the key: a key with a byte that is not a token byte is returned unchanged. -/
def canonicalMIMEHeaderKey (key : String) : String :=
  if key.data.all validHeaderFieldByte then String.mk (canonicalCase true key.data) else key

/-- The library on the sample data: the bodies of `sampleBodies` decode as
listed and any other body counts as undecodable; 2.0 prints as `%f` prints it;
header keys are put in canonical form and every URL is accepted. -/
def sampleLib : Lib where
  jsonUnmarshal body :=
    match sampleBodies.lookup body with
    | some o => .ok o
    | none => .error "invalid character"
  fmtFloat x := if x.bits = 0x4000000000000000 then "2.000000" else "NaN"
  sprintf format := String.mk (sprintfNoOperands format.data)
  canonicalHeaderKey := canonicalMIMEHeaderKey
  newRequestOk _ := true

/-- A response without API error carrying the given body. -/
def okResponse (body : String) : APIResponse :=
  { Error := none, ErrorMessage := "", RawBody := body, CorrelationID := "c1" }

/-- A response carrying an API error. -/
def errorResponse : APIResponse :=
  { Error := some "500", ErrorMessage := "internal error", RawBody := "", CorrelationID := "c1" }

/-- The registration answer of scenario A. -/
def registered : CallResult :=
  .answered (okResponse
    "\x7b\"jobId\":\"J1\",\"presignedUrl\":\"https://x\",\"headers\":\x7b\"x-amz-meta-organizationid\":\"org1\"\x7d\x7d")

/-- A job-status answer with status `InProgress`. -/
def inProgress : CallResult := .answered (okResponse "\x7b\"status\":\"InProgress\"\x7d")

/-- The job-status answer of scenario B. -/
def failure2 : CallResult :=
  .answered (okResponse "\x7b\"status\":\"Failure\",\"exitCode\":2\x7d")

/-- A `Failure` answer that carries a flow object as well. -/
def failureWithFlow : CallResult :=
  .answered (okResponse
    "\x7b\"status\":\"Failure\",\"exitCode\":2,\"flow\":\x7b\"id\":\"F1\"\x7d\x7d")

/-- The final job-status answer of scenario A. -/
def successF1 : CallResult :=
  .answered (okResponse "\x7b\"status\":\"Success\",\"flow\":\x7b\"id\":\"F1\"\x7d\x7d")

/-- A `Success` answer whose flow id is empty. -/
def successEmptyId : CallResult :=
  .answered (okResponse "\x7b\"status\":\"Success\",\"flow\":\x7b\"id\":\"\"\x7d\x7d")

/-- A `Success` answer without a flow object. -/
def successNoFlow : CallResult := .answered (okResponse "\x7b\"status\":\"Success\"\x7d")

/-- The outside of scenario A, up to the job-status answers and the flow read. -/
def sampleRemote (status : Nat → CallResult) (flow : CallResult) : Remote where
  register := registered
  file _ := .content [102, 108, 111, 119]
  put := { resp := some { StatusCode := 200, Body := .ok [] }, err := none }
  status := status
  flow := flow

/-- A client configuration. -/
def sampleConfig : Configuration :=
  { BasePath := "https://api.example", DefaultHeader := [], AccessToken := "t" }

/-- A fresh resource at time zero. -/
def w0 : World :=
  { now := 0, polls := 0, d := { id := "", filepath := "flow.yaml" }, trace := [] }

/-- The answer to the final read of flow `F1`. -/
def flowF1 : CallResult := .answered (okResponse "\x7b\"id\":\"F1\"\x7d")

/-- Scenario A: three answers `InProgress`, then `Success` with flow `F1`. -/
def scenarioA : Remote :=
  sampleRemote (fun k => if k < 3 then inProgress else successF1) flowF1

/-- Scenario C: every answer is `InProgress`. -/
def scenarioC : Remote := sampleRemote (fun _ => inProgress) flowF1

/-- Scenario B: the first answer is `Failure` with exit code 2. -/
def scenarioB : Remote := sampleRemote (fun _ => failure2) flowF1

/-- Scenario D: the storage PUT answers 403. -/
def scenarioD : Remote :=
  { sampleRemote (fun _ => successF1) flowF1 with
    put := { resp := some { StatusCode := 403, Body := .ok [] }, err := none } }

/-- The registration POST fails at transport level. -/
def registerDown : Remote :=
  { sampleRemote (fun _ => successF1) flowF1 with register := .failed "connection refused" }

/-- The job succeeds at the first poll and the final read gets an API error. -/
def readFails : Remote := sampleRemote (fun _ => successF1) (.answered errorResponse)

/-- The job succeeds at the first poll and the final read is answered with a
body that is not JSON. -/
def readUndecodable : Remote :=
  sampleRemote (fun _ => successF1) (.answered (okResponse "<html>"))

/-- The first answer is `Success` with an empty flow id. -/
def emptyIdRemote : Remote := sampleRemote (fun _ => successEmptyId) flowF1

/-- The job that the registration answer of scenario A decodes to. -/
def sampleJob : Job :=
  { presignedUrl := "https://x", jobId := "J1", correlationId := "c1",
    headers := [("x-amz-meta-organizationid", .string "org1")], orgID := "org1" }

/-- The world after the registration request. -/
def w0Registered : World :=
  w0.emit (Event.callAPI jobsPath "POST" (headerParams sampleConfig))

/-- The world after the upload. -/
def w0Uploaded : World :=
  w0Registered.emit (Event.httpDo "PUT" "https://x" [("X-Amz-Meta-Organizationid", "org1")]
    [102, 108, 111, 119])

/-- The operation ended in an error: it returned diagnostics or it panicked. -/
def Run.Failed {σ : Type} : Run σ Diagnostics → Prop
  | .ret ds _ => ds ≠ []
  | .panic _ => True

/-- The part of the world that only `d.SetId`, `time.Sleep` and a status request change. -/
def World.Untouched (w w1 : World) : Prop :=
  w1.d = w.d ∧ w1.now = w.now ∧ w1.polls = w.polls ∧ setIds w1.trace = setIds w.trace

/-- The storage PUT fails at transport level: no response, an error. -/
def putDown : Remote :=
  { sampleRemote (fun _ => successF1) flowF1 with
    put := { resp := none, err := some "dial tcp: connection refused" } }

/-- The flow GET of the final read fails at transport level. -/
def readDown : Remote := sampleRemote (fun _ => successF1) (.failed "connection refused")

/-- A second client configuration, with another base path. -/
def otherConfig : Configuration :=
  { BasePath := "https://api.mypurecloud.de", DefaultHeader := [], AccessToken := "t" }

/-- The URLs of the `CallAPI` requests in a trace, in order. -/
def callPaths : List Event → List String
  | [] => []
  | Event.callAPI path _ _ :: es => path :: callPaths es
  | _ :: es => callPaths es

/-- A client configuration whose default headers define `Accept` and `X-Trace`. -/
def tracedConfig : Configuration :=
  { BasePath := "https://api.example",
    DefaultHeader := [("Accept", "text/html"), ("X-Trace", "1")],
    AccessToken := "t" }

/-- A header map with a value that is not a string. -/
def numericHeaders : JSONObject :=
  [("x-amz-meta-organizationid", .string "org1"), ("x-amz-meta-retries", .number two)]

/-- The canonical names of a header map, as `http.Header.Set` spells them. -/
def canonicalNames (lib : Lib) (headers : JSONObject) : List String :=
  headers.map (fun e => lib.canonicalHeaderKey e.1)

/-- What `updateFlow` leaves where `createFlow` leaves the given run of its
polling stage: the world, with the identifier set when the stage succeeded. -/
def updateOutcome : Run (String × World) Diagnostics → Run World Diagnostics
  | .panic s => .panic s.2
  | .ret [] s => .ret [] (s.2.SetId s.1)
  | .ret (e :: es) s => .ret (e :: es) s.2

/-! ## The content hash -/

/-- The round constants of SHA-256 (FIPS 180-4, section 4.2.2). -/
def sha256K : List Nat :=
  [0x428a2f98, 0x71374491, 0xb5c0fbcf, 0xe9b5dba5, 0x3956c25b, 0x59f111f1, 0x923f82a4, 0xab1c5ed5,
   0xd807aa98, 0x12835b01, 0x243185be, 0x550c7dc3, 0x72be5d74, 0x80deb1fe, 0x9bdc06a7, 0xc19bf174,
   0xe49b69c1, 0xefbe4786, 0x0fc19dc6, 0x240ca1cc, 0x2de92c6f, 0x4a7484aa, 0x5cb0a9dc, 0x76f988da,
   0x983e5152, 0xa831c66d, 0xb00327c8, 0xbf597fc7, 0xc6e00bf3, 0xd5a79147, 0x06ca6351, 0x14292967,
   0x27b70a85, 0x2e1b2138, 0x4d2c6dfc, 0x53380d13, 0x650a7354, 0x766a0abb, 0x81c2c92e, 0x92722c85,
   0xa2bfe8a1, 0xa81a664b, 0xc24b8b70, 0xc76c51a3, 0xd192e819, 0xd6990624, 0xf40e3585, 0x106aa070,
   0x19a4c116, 0x1e376c08, 0x2748774c, 0x34b0bcb5, 0x391c0cb3, 0x4ed8aa4a, 0x5b9cca4f, 0x682e6ff3,
   0x748f82ee, 0x78a5636f, 0x84c87814, 0x8cc70208, 0x90befffa, 0xa4506ceb, 0xbef9a3f7, 0xc67178f2]

/-- The eight working words of SHA-256. -/
structure Sha256State where
  a : Nat
  b : Nat
  c : Nat
  d : Nat
  e : Nat
  f : Nat
  g : Nat
  h : Nat

/-- The initial hash value of SHA-256 (FIPS 180-4, section 5.3.3). -/
def sha256Init : Sha256State :=
  { a := 0x6a09e667, b := 0xbb67ae85, c := 0x3c6ef372, d := 0xa54ff53a,
    e := 0x510e527f, f := 0x9b05688c, g := 0x1f83d9ab, h := 0x5be0cd19 }

/-- Rotation of a 32-bit word to the right. -/
def rotr (n x : Nat) : Nat := ((x >>> n) ||| (x <<< (32 - n))) % 2 ^ 32

/-- One round of the compression function, with round constant `k` and schedule word `w`. -/
def sha256Round (s : Sha256State) (k w : Nat) : Sha256State :=
  let t1 := s.h + (rotr 6 s.e ^^^ rotr 11 s.e ^^^ rotr 25 s.e)
    + ((s.e &&& s.f) ^^^ ((2 ^ 32 - 1 - s.e) &&& s.g)) + k + w
  let t2 := (rotr 2 s.a ^^^ rotr 13 s.a ^^^ rotr 22 s.a)
    + ((s.a &&& s.b) ^^^ (s.a &&& s.c) ^^^ (s.b &&& s.c))
  { a := (t1 + t2) % 2 ^ 32, b := s.a, c := s.b, d := s.c,
    e := (s.d + t1) % 2 ^ 32, f := s.e, g := s.f, h := s.g }

/-- The message schedule: `n` more words after the ones at hand. -/
def sha256Schedule : Nat → List Nat → List Nat
  | 0, ws => ws
  | n + 1, ws =>
    let i := ws.length
    let w2 := ws.getD (i - 2) 0
    let w15 := ws.getD (i - 15) 0
    sha256Schedule n (ws ++ [((rotr 17 w2 ^^^ rotr 19 w2 ^^^ (w2 >>> 10)) + ws.getD (i - 7) 0
      + (rotr 7 w15 ^^^ rotr 18 w15 ^^^ (w15 >>> 3)) + ws.getD (i - 16) 0) % 2 ^ 32])

/-- The big-endian 32-bit words of a block. -/
def sha256Words : Bytes → List Nat
  | b0 :: b1 :: b2 :: b3 :: rest =>
    (b0 * 2 ^ 24 + b1 * 2 ^ 16 + b2 * 2 ^ 8 + b3) :: sha256Words rest
  | _ => []

/-- The rounds of one block, over the round constants paired with the schedule. -/
def sha256Rounds (s : Sha256State) : List (Nat × Nat) → Sha256State
  | [] => s
  | (k, w) :: rest => sha256Rounds (sha256Round s k w) rest

/-- The compression of one 64-byte block into the hash value. -/
def sha256Block (s : Sha256State) (block : Bytes) : Sha256State :=
  let t := sha256Rounds s (sha256K.zip (sha256Schedule 48 (sha256Words block)))
  { a := (s.a + t.a) % 2 ^ 32, b := (s.b + t.b) % 2 ^ 32, c := (s.c + t.c) % 2 ^ 32,
    d := (s.d + t.d) % 2 ^ 32, e := (s.e + t.e) % 2 ^ 32, f := (s.f + t.f) % 2 ^ 32,
    g := (s.g + t.g) % 2 ^ 32, h := (s.h + t.h) % 2 ^ 32 }

/-- The big-endian bytes of a word, `n` of them. -/
def bigEndian : Nat → Nat → Bytes
  | 0, _ => []
  | n + 1, x => (x >>> (8 * n)) % 256 :: bigEndian n x

/-- The hash value after the first `n` blocks of the data. -/
def sha256Blocks : Nat → Sha256State → Bytes → Sha256State
  | 0, s, _ => s
  | n + 1, s, data => sha256Blocks n (sha256Block s (data.take 64)) (data.drop 64)

/-- The table of `encoding/hex`. -/
def hextable : List Char := "0123456789abcdef".data

/-- Go's `hex.EncodeToString`: two characters of the table per byte. -/
def hexEncodeToString (src : Bytes) : String :=
  String.mk (src.flatMap (fun v => [hextable.getD (v >>> 4) '0', hextable.getD (v &&& 0x0f) '0']))

/-- The hash of `crypto/sha256` (its type `digest`): the hash value after the
blocks compressed so far, the bytes written after the last full block, fewer
than 64 of them, and the number of bytes written, a 64-bit counter. -/
structure digest where
  h : Sha256State
  x : Bytes
  len : Nat

/-- The hash that `sha256.New` returns. -/
def sha256New : digest := { h := sha256Init, x := [], len := 0 }

/-- The method `Write` of the hash: the bytes kept and the new ones are
compressed block by block, and what does not fill a block is kept. -/
def digest.Write (d : digest) (p : Bytes) : digest :=
  let data := d.x ++ p
  { h := sha256Blocks (data.length / 64) d.h data,
    x := data.drop (64 * (data.length / 64)),
    len := (d.len + p.length) % 2 ^ 64 }

/-- The method `Sum` with a nil argument (`checkSum`): the byte 0x80 and zero
bytes are written up to 56 bytes modulo 64, then the length in bits as eight
bytes, and the hash value is given out word by word, big-endian. -/
def digest.Sum (d : digest) : Bytes :=
  let tmp : Bytes := 0x80 :: List.replicate 63 0
  let d1 := d.Write (tmp.take (if d.len % 64 < 56 then 56 - d.len % 64 else 64 + 56 - d.len % 64))
  let d2 := d1.Write (bigEndian 8 ((d.len * 8) % 2 ^ 64))
  bigEndian 4 d2.h.a ++ bigEndian 4 d2.h.b ++ bigEndian 4 d2.h.c ++ bigEndian 4 d2.h.d
    ++ bigEndian 4 d2.h.e ++ bigEndian 4 d2.h.f ++ bigEndian 4 d2.h.g ++ bigEndian 4 d2.h.h

/-- The pieces in which `io.Copy` hands a file to the hash: its buffer holds
32 KiB, and each read fills it until the file ends. -/
def copyPieces : Nat → Bytes → List Bytes
  | 0, _ => []
  | fuel + 1, data =>
    if data.isEmpty then [] else data.take (32 * 1024) :: copyPieces fuel (data.drop (32 * 1024))

/-- The call `io.Copy(hash, file)` on a file that is read without an error:
every piece read is written to the hash. -/
def ioCopy (dst : digest) (src : Bytes) : digest :=
  (copyPieces src.length src).foldl digest.Write dst

/-- The function `hashFileContent`: the digest in hexadecimal; `none` is the
`log.Fatal` that ends the process when the file cannot be opened or read. -/
def hashFileContent (fs : String → FileRead) (path : String) : Option String :=
  match fs path with
  | .openError _ => none
  | .copyError _ => none
  | .content body => some (hexEncodeToString (ioCopy sha256New body).Sum)

/-- The `StateFunc` of the attribute `filepath` (lines 68-70 of `resourceFlow`):
the value kept in the state for the configured path. -/
def filepathStateFunc (fs : String → FileRead) (v : String) : Option String :=
  hashFileContent fs v

/-- A file system with the same three bytes under two paths. -/
def twoFiles (path : String) : FileRead :=
  if path = "a/flow.yaml" ∨ path = "b/copy.yaml" then .content [97, 98, 99]
  else .openError "no such file or directory"

/-! ## SHA-256 and hexadecimal text, as their definitions word them

The digest as FIPS 180-4 defines it, for a message of whole bytes, and the
reading of a hexadecimal text.  The content hash above is compared with
these. -/

/-- Addition of 32-bit words, modulo 2^32 (FIPS 180-4, section 3.2). -/
def fipsAdd (x y : Nat) : Nat := (x + y) % 2 ^ 32

/-- The rotation ROTR of a 32-bit word: `(x >> n) ∨ (x << 32 - n)` (section 3.2). -/
def fipsROTR (n x : Nat) : Nat := ((x >>> n) ||| (x <<< (32 - n))) % 2 ^ 32

/-- The shift SHR of a word (section 3.2). -/
def fipsSHR (n x : Nat) : Nat := x >>> n

/-- The function Ch: `(x ∧ y) ⊕ (¬x ∧ z)` (section 4.1.2); the complement of a
32-bit word `x` is `2^32 - 1 - x`. -/
def fipsCh (x y z : Nat) : Nat := (x &&& y) ^^^ ((2 ^ 32 - 1 - x) &&& z)

/-- The function Maj: `(x ∧ y) ⊕ (x ∧ z) ⊕ (y ∧ z)` (section 4.1.2). -/
def fipsMaj (x y z : Nat) : Nat := (x &&& y) ^^^ (x &&& z) ^^^ (y &&& z)

/-- The function Σ0 (section 4.1.2). -/
def fipsSum0 (x : Nat) : Nat := fipsROTR 2 x ^^^ fipsROTR 13 x ^^^ fipsROTR 22 x

/-- The function Σ1 (section 4.1.2). -/
def fipsSum1 (x : Nat) : Nat := fipsROTR 6 x ^^^ fipsROTR 11 x ^^^ fipsROTR 25 x

/-- The function σ0 (section 4.1.2). -/
def fipsSigma0 (x : Nat) : Nat := fipsROTR 7 x ^^^ fipsROTR 18 x ^^^ fipsSHR 3 x

/-- The function σ1 (section 4.1.2). -/
def fipsSigma1 (x : Nat) : Nat := fipsROTR 17 x ^^^ fipsROTR 19 x ^^^ fipsSHR 10 x

/-- The message schedule of a block with the words `M` (section 6.2.2, step 1):
the words W_0 to W_(t-1); W_t is M_t below 16 and
σ1(W_(t-2)) + W_(t-7) + σ0(W_(t-15)) + W_(t-16) from there on. -/
def fipsW (M : List Nat) : Nat → List Nat
  | 0 => []
  | t + 1 =>
    let W := fipsW M t
    W ++ [if t < 16 then M.getD t 0
          else fipsAdd (fipsAdd (fipsAdd (fipsSigma1 (W.getD (t - 2) 0)) (W.getD (t - 7) 0))
            (fipsSigma0 (W.getD (t - 15) 0))) (W.getD (t - 16) 0)]

/-- One turn of step 3 of section 6.2.2 on the working variables a to h, with
the constant K_t and the schedule word W_t. -/
def fipsStep (K W : Nat) (v : Sha256State) : Sha256State :=
  let T1 := fipsAdd (fipsAdd (fipsAdd (fipsAdd v.h (fipsSum1 v.e)) (fipsCh v.e v.f v.g)) K) W
  let T2 := fipsAdd (fipsSum0 v.a) (fipsMaj v.a v.b v.c)
  { h := v.g, g := v.f, f := v.e, e := fipsAdd v.d T1,
    d := v.c, c := v.b, b := v.a, a := fipsAdd T1 T2 }

/-- The hash value H(i) from H(i-1) and the words `M` of the block M(i)
(section 6.2.2, steps 1 to 4). -/
def fipsHash (H : Sha256State) (M : List Nat) : Sha256State :=
  let W := fipsW M 64
  let v := (List.range 64).foldl (fun v t => fipsStep (sha256K.getD t 0) (W.getD t 0) v) H
  { a := fipsAdd v.a H.a, b := fipsAdd v.b H.b, c := fipsAdd v.c H.c, d := fipsAdd v.d H.d,
    e := fipsAdd v.e H.e, f := fipsAdd v.f H.f, g := fipsAdd v.g H.g, h := fipsAdd v.h H.h }

/-- The number of zero bytes of the padding (section 5.1.1): the bit 1 and `k`
zero bits follow the message, `k` the smallest number with
`l + 1 + k ≡ 448 mod 512`; for a message of `len` bytes that is the byte 0x80
and the smallest number of zero bytes that brings the length to 56 modulo 64. -/
def fipsZeros (len : Nat) : Nat :=
  ((List.range 64).find? (fun z => (len + 1 + z) % 64 = 56)).getD 0

/-- The 64-bit block that holds the number `l` in binary, as eight bytes; the
standard takes messages of fewer than 2^64 bits, and of a larger `l` these are
the low 64 bits. -/
def fipsLength (l : Nat) : Bytes :=
  (List.range 8).map (fun i => l / 256 ^ (7 - i) % 256)

/-- The padded message (section 5.1.1), for a message of whole bytes. -/
def fipsPad (msg : Bytes) : Bytes :=
  msg ++ [0x80] ++ List.replicate (fipsZeros msg.length) 0 ++ fipsLength (8 * msg.length)

/-- The sixteen 32-bit words of a block of 64 bytes, the first byte of a word
its most significant one (sections 3.1 and 5.2.1). -/
def fipsWords (block : Bytes) : List Nat :=
  (List.range 16).map (fun j => block.getD (4 * j) 0 * 2 ^ 24 + block.getD (4 * j + 1) 0 * 2 ^ 16
    + block.getD (4 * j + 2) 0 * 2 ^ 8 + block.getD (4 * j + 3) 0)

/-- The four bytes of a 32-bit word. -/
def fipsBytes (w : Nat) : Bytes :=
  [w / 2 ^ 24 % 256, w / 2 ^ 16 % 256, w / 2 ^ 8 % 256, w % 256]

/-- The SHA-256 digest of a message of whole bytes (section 6.2): the padded
message is parsed into N blocks of 512 bits, the hash value starts at H(0)
and takes in the blocks in turn, and the digest is H(N), its eight words one
after the other. -/
def fipsSha256 (msg : Bytes) : Bytes :=
  let padded := fipsPad msg
  let H := (List.range (padded.length / 64)).foldl
    (fun H i => fipsHash H (fipsWords ((padded.drop (64 * i)).take 64))) sha256Init
  fipsBytes H.a ++ fipsBytes H.b ++ fipsBytes H.c ++ fipsBytes H.d
    ++ fipsBytes H.e ++ fipsBytes H.f ++ fipsBytes H.g ++ fipsBytes H.h

/-- The value of a hexadecimal digit in lower case. -/
def hexDigitValue (c : Char) : Option Nat :=
  if 48 ≤ c.toNat ∧ c.toNat ≤ 57 then some (c.toNat - 48)
  else if 97 ≤ c.toNat ∧ c.toNat ≤ 102 then some (c.toNat - 97 + 10)
  else none

/-- The bytes that a hexadecimal text stands for: two digits a byte, the high
one first. -/
def hexBytes : List Char → Option Bytes
  | [] => some []
  | [_] => none
  | hi :: lo :: rest =>
    match hexDigitValue hi, hexDigitValue lo, hexBytes rest with
    | some h, some l, some bs => some ((16 * h + l) :: bs)
    | _, _, _ => none

/-- The bytes of a text of ASCII characters. -/
def asciiBytes (s : String) : Bytes := s.data.map Char.toNat

/-- The hash has taken in the bytes `T`: its value is the one after the full
blocks of `T`, it keeps the rest, and it has counted the bytes. -/
def Absorbed (d : digest) (T : Bytes) : Prop :=
  d.h = sha256Blocks (T.length / 64) sha256Init T
    ∧ d.x = T.drop (64 * (T.length / 64))
    ∧ d.len = T.length % 2 ^ 64

/-! ## The web deployment resource -/

/-- The attributes of a web deployment that `validAllowedDomainsSettings` reads. -/
structure DeploymentData where
  allow_all_domains : Bool
  allowed_domains : List String

/-- The call `d.GetOk("allowed_domains")`: the list, and whether it is set, which
the SDK answers with "not the zero value", so an empty list counts as not set. -/
def DeploymentData.GetOkAllowedDomains (d : DeploymentData) : List String × Bool :=
  (d.allowed_domains, !d.allowed_domains.isEmpty)

/-- The function `validAllowedDomainsSettings`: the text of the error, or `none` for nil. -/
def validAllowedDomainsSettings (d : DeploymentData) : Option String :=
  let allowAllDomains := d.allow_all_domains
  let allowedDomainsSet := d.GetOkAllowedDomains.2
  if allowAllDomains && allowedDomainsSet then
    some "Allowed domains cannot be specified when all domains are allowed"
  else if !allowAllDomains && !allowedDomainsSet then
    some "Either allowed domains must be specified or all domains must be allowed"
  else none

/-! ## The check that routing email domains are destroyed -/

/-- A resource of the Terraform state: its type and the id of its primary instance. -/
structure ResourceState where
  type : String
  primaryID : String

/-- What `routingAPI.GetRoutingEmailDomain` returns: whether a domain came back,
the status code of the response (`none` for a nil response) and the error. -/
structure DomainLookup where
  domain : Option String
  resp : Option Nat
  err : Option String

/-- The function `testVerifyRoutingEmailDomainDestroyed` over the resources in
the order the range visits them: the error returned (`none` for nil) and the
ids looked up, in order.  The helper `isStatus404` of the package is taken as
given. -/
def testVerifyRoutingEmailDomainDestroyed (isStatus404 : Option Nat → Bool)
    (api : String → DomainLookup) : List ResourceState → Option String × List String
  | [] => (none, [])
  | rs :: rest =>
    if rs.type != "genesyscloud_routing_email_domain" then
      testVerifyRoutingEmailDomainDestroyed isStatus404 api rest
    else
      if (api rs.primaryID).domain.isSome then
        (some ("Domain (" ++ rs.primaryID ++ ") still exists"), [rs.primaryID])
      else if isStatus404 (api rs.primaryID).resp then
        ((testVerifyRoutingEmailDomainDestroyed isStatus404 api rest).1,
          rs.primaryID :: (testVerifyRoutingEmailDomainDestroyed isStatus404 api rest).2)
      else (some ("Unexpected error: " ++ fmtS (api rs.primaryID).err), [rs.primaryID])

/-- A resource is of the type the check looks at. -/
def isEmailDomain (rs : ResourceState) : Bool :=
  rs.type == "genesyscloud_routing_email_domain"

/-- The lookup of the resource says the domain is gone: no domain and a 404 response. -/
def isGone (isStatus404 : Option Nat → Bool) (api : String → DomainLookup)
    (rs : ResourceState) : Bool :=
  (api rs.primaryID).domain.isNone && isStatus404 (api rs.primaryID).resp

/-- A reading of the helper `isStatus404` for the examples: a response with status 404. -/
def sampleIsStatus404 : Option Nat → Bool
  | some 404 => true
  | _ => false

/-- An API for the examples: `gone1` and `gone2` are not found, `kept` still exists,
any other id fails with status 500. -/
def sampleDomains (id : String) : DomainLookup :=
  if id = "gone1" ∨ id = "gone2" then { domain := none, resp := some 404, err := some "404" }
  else if id = "kept" then { domain := some "kept", resp := some 200, err := none }
  else { domain := none, resp := some 500, err := some "internal error" }

/-! ## The web deployment configuration resource -/

/-- A value that `d.Get` hands out as `interface{}`. -/
inductive Value where
  | nil
  | bool (b : Bool)
  | int (n : Int)
  | string (s : String)
  | list (xs : List Value)
  | map (fields : List (String × Value))

/-- A piece of Go code without effects: it returns a value or panics. -/
inductive Outcome (α : Type) where
  | returns (value : α)
  | panics

/-- Sequencing: a panic ends the computation. -/
def Outcome.bind {α β : Type} : Outcome α → (α → Outcome β) → Outcome β
  | .returns a, f => f a
  | .panics, _ => .panics

/-- The SDK type `Fileuploadmode`. -/
structure Fileuploadmode where
  FileTypes : Option (List String)
  MaxFileSizeKB : Option Int

/-- The SDK type `Fileuploadsettings`. -/
structure Fileuploadsettings where
  Modes : Option (List Fileuploadmode)

/-- The SDK type `Messengerstyles`. -/
structure Messengerstyles where
  PrimaryColor : Option String

/-- The SDK type `Launcherbuttonsettings`. -/
structure Launcherbuttonsettings where
  Visibility : Option String

/-- The SDK type `Messengersettings`. -/
structure Messengersettings where
  Enabled : Option Bool
  Styles : Option Messengerstyles
  LauncherButton : Option Launcherbuttonsettings
  FileUpload : Option Fileuploadsettings

/-- The call `d.GetOk(key)` on the value `d.Get(key)` gives: the value, and whether
it is set, that is, not the zero value of its type. -/
def GetOk : Value → Value × Bool
  | .nil => (.nil, false)
  | .bool false => (.bool false, false)
  | .int 0 => (.int 0, false)
  | .string "" => (.string "", false)
  | .list [] => (.list [], false)
  | .map [] => (.map [], false)
  | v => (v, true)

/-- The comma-ok assertion `enabled, _ := v.(bool)`: false when `v` is no bool. -/
def boolOrZero : Option Value → Bool
  | some (.bool b) => b
  | _ => false

/-- Lines 403-412 and 414-423 of `readMessengerSettings`: from a block list, the
string attribute `key` of its first block; the first block has to be a map. -/
def firstBlockString (blocks : Option Value) (key : String) : Outcome (Option String) :=
  match blocks with
  | some (.list (.map block :: _)) =>
    match block.lookup key with
    | some (.string s) => .returns (some s)
    | _ => .returns none
  | some (.list (_ :: _)) => .panics
  | _ => .returns none

/-- The loop of lines 431-441 over `modesCfg`; the helper
`interfaceListToStrings` of the package is taken as given. -/
def readModes (interfaceListToStrings : List Value → Outcome (List String)) :
    List Value → Outcome (List Fileuploadmode)
  | [] => .returns []
  | .map mode :: rest =>
    match mode.lookup "max_file_size_kb" with
    | some (.int maxFileSize) =>
      match mode.lookup "file_types" with
      | some (.list fileTypesCfg) =>
        (interfaceListToStrings fileTypesCfg).bind fun fileTypes =>
          (readModes interfaceListToStrings rest).bind fun modes =>
            .returns ({ FileTypes := some fileTypes, MaxFileSizeKB := some maxFileSize } :: modes)
      | _ => .panics
    | _ => .panics
  | _ :: rest =>
    (readModes interfaceListToStrings rest).bind fun modes =>
      .returns ({ FileTypes := none, MaxFileSizeKB := none } :: modes)

/-- Lines 425-449 of `readMessengerSettings`: the file upload settings of the
messenger block. -/
def readFileUpload (interfaceListToStrings : List Value → Outcome (List String))
    (fileUploads : Option Value) : Outcome (Option Fileuploadsettings) :=
  match fileUploads with
  | some (.list (.map fileUpload :: _)) =>
    match fileUpload.lookup "modes" with
    | some (.list (modeCfg :: modesCfg)) =>
      (readModes interfaceListToStrings (modeCfg :: modesCfg)).bind fun modes =>
        if modes.length > 0 then .returns (some { Modes := some modes }) else .returns none
    | _ => .returns none
  | some (.list (_ :: _)) => .panics
  | _ => .returns none

/-- The function `readMessengerSettings`, on the value of `d.Get("messenger")`:
the pointer it returns (`none` for nil). -/
def readMessengerSettings (interfaceListToStrings : List Value → Outcome (List String))
    (messenger : Value) : Outcome (Option Messengersettings) :=
  if (GetOk messenger).2 then
    match (GetOk messenger).1 with
    | .list [] => .returns none
    | .list (.map cfg :: _) =>
      (firstBlockString (cfg.lookup "styles") "primary_color").bind fun primaryColor =>
        (firstBlockString (cfg.lookup "launcher_button") "visibility").bind fun visibility =>
          (readFileUpload interfaceListToStrings (cfg.lookup "file_upload")).bind fun fileUpload =>
            .returns (some
              { Enabled := some (boolOrZero (cfg.lookup "enabled")),
                Styles := primaryColor.map fun c => { PrimaryColor := some c },
                LauncherButton := visibility.map fun v => { Visibility := some v },
                FileUpload := fileUpload })
    | _ => .panics
  else .returns none

/-- The schema entry `max_file_size_kb` of `fileUploadMode` (lines 47-52): an
optional int whose `Default` is not set; the default of 10240 exists in the
description text and in the note `RBUTODO` only. -/
def maxFileSizeKBSchemaDefault : Option Int := none

/-- What `d.Get` yields for one block of `modes`: an attribute that the
configuration leaves out reads as its schema default or, when the schema has
none, as the zero value of its type. -/
def modeBlock (file_types : Option (List String)) (max_file_size_kb : Option Int) : Value :=
  .map [("file_types", .list ((file_types.getD []).map Value.string)),
        ("max_file_size_kb", .int (max_file_size_kb.getD (maxFileSizeKBSchemaDefault.getD 0)))]

/-- What `d.Get("messenger")` yields for a messenger block with the given
`enabled` and file upload modes and without styles and launcher button. -/
def messengerBlock (enabled : Bool) (modes : List Value) : Value :=
  .list [.map [("enabled", .bool enabled), ("styles", .list []), ("launcher_button", .list []),
               ("file_upload", .list [.map [("modes", .list modes)]])]]

/-- A reading of the helper `interfaceListToStrings` for the examples: the
texts of a list of strings, a panic on any other element. -/
def stringsOf : List Value → Outcome (List String)
  | [] => .returns []
  | .string s :: rest => (stringsOf rest).bind fun ss => .returns (s :: ss)
  | _ :: _ => .panics

/-- The settings for an enabled messenger with the single upload mode `image/png`
of the given maximum size. -/
def pngSettings (maxFileSizeKB : Int) : Messengersettings :=
  { Enabled := some true, Styles := none, LauncherButton := none,
    FileUpload := some
      { Modes := some [ { FileTypes := some ["image/png"], MaxFileSizeKB := some maxFileSizeKB } ] } }

/-- The SDK type `Journeyeventssettings`; the event triggers are kept as read. -/
structure Journeyeventssettings where
  Enabled : Option Bool
  ExcludedQueryParameters : Option (List String)
  ShouldKeepUrlFragment : Option Bool
  SearchQueryParameters : Option (List String)
  PageviewConfig : Option String
  ClickEvents : Option (List Value)
  FormsTrackEvents : Option (List Value)
  IdleEvents : Option (List Value)
  InViewportEvents : Option (List Value)
  ScrollDepthEvents : Option (List Value)

/-- The function `readJourneySettings`, on the value of `d.Get("journey_events")`:
the pointer it returns (`none` for nil). -/
def readJourneySettings (journey_events : Value) : Outcome (Option Journeyeventssettings) :=
  if (GetOk journey_events).2 then
    match (GetOk journey_events).1 with
    | .list [] => .returns none
    | .list (.map cfg :: _) =>
      .returns (some
        { Enabled := some (boolOrZero (cfg.lookup "enabled")),
          ExcludedQueryParameters := none, ShouldKeepUrlFragment := none,
          SearchQueryParameters := none, PageviewConfig := none, ClickEvents := none,
          FormsTrackEvents := none, IdleEvents := none, InViewportEvents := none,
          ScrollDepthEvents := none })
    | _ => .panics
  else .returns none

/-- The settings in which only `Enabled` is set. -/
def onlyEnabled (enabled : Bool) : Journeyeventssettings :=
  { Enabled := some enabled,
    ExcludedQueryParameters := none, ShouldKeepUrlFragment := none,
    SearchQueryParameters := none, PageviewConfig := none, ClickEvents := none,
    FormsTrackEvents := none, IdleEvents := none, InViewportEvents := none,
    ScrollDepthEvents := none }

/-- What `d.Get("journey_events")` yields for one block of the schema
`journeyEventsSettings` (lines 170-232): `enabled` reads as its default `true`
when left out, the other attributes as given. -/
def journeyBlock (enabled : Option Bool) (excluded_query_parameters : List String)
    (should_keep_url_fragment : Bool) (search_query_parameters : List String)
    (pageview_config : String)
    (click_events form_track_events idle_events in_viewport_events scroll_depth_events :
      List Value) : Value :=
  .list [.map [("enabled", .bool (enabled.getD true)),
    ("excluded_query_parameters", .list (excluded_query_parameters.map Value.string)),
    ("should_keep_url_fragment", .bool should_keep_url_fragment),
    ("search_query_parameters", .list (search_query_parameters.map Value.string)),
    ("pageview_config", .string pageview_config),
    ("click_events", .list click_events),
    ("form_track_events", .list form_track_events),
    ("idle_events", .list idle_events),
    ("in_viewport_events", .list in_viewport_events),
    ("scroll_depth_events", .list scroll_depth_events)]]

/-- The value is a mode block as `d.Get` yields it: a map whose `file_types` is
the list of the given strings and whose `max_file_size_kb` is the given int. -/
def WellFormedMode (v : Value) (fileTypes : List String) (maxFileSizeKB : Int) : Prop :=
  ∃ mode, v = .map mode
    ∧ mode.lookup "max_file_size_kb" = some (.int maxFileSizeKB)
    ∧ mode.lookup "file_types" = some (.list (fileTypes.map Value.string))

/-- The mode of the API with the given file types and maximum size. -/
def uploadMode (spec : List String × Int) : Fileuploadmode :=
  { FileTypes := some spec.1, MaxFileSizeKB := some spec.2 }

/-- Two modes for the examples. -/
def twoModes : List Value :=
  [modeBlock (some ["image/png", "image/gif"]) (some 512),
   modeBlock (some ["image/jpeg"]) (some 10240)]

/-- The file upload settings that the two modes of the examples give. -/
def twoModesSettings : Fileuploadsettings :=
  { Modes := some (List.map uploadMode
      [(["image/png", "image/gif"], 512), (["image/jpeg"], 10240)]) }

/-! ## The export of all flows -/

/-- The fields of the SDK type `Flow` that `getAllFlows` reads, both pointers. -/
structure Flow where
  Id : Option String
  Name : Option String

/-- What `architectAPI.GetFlows` returns for one page: an error, or the listing
with its `Entities` pointer. -/
inductive FlowPage where
  | failed (err : String)
  | listing (Entities : Option (List Flow))

/-- The loop of lines 36-38 of `getAllFlows` over the entities of one page; a nil
`Id` or `Name` is a nil dereference. -/
def addFlows : List Flow → List (String × String) → Outcome (List (String × String))
  | [], resources => .returns resources
  | flow :: rest, resources =>
    match flow.Id, flow.Name with
    | some id, some name => addFlows rest (mapSet resources id name)
    | _, _ => .panics

/-- What a run of `getAllFlows` did: the page numbers requested, in order, and
the pair of map and diagnostics returned, unless it panicked. -/
structure FlowsExport where
  requested : List Nat
  outcome : Outcome (Option (List (String × String)) × Diagnostics)

/-- The loop of `getAllFlows` from page `pageNum` on, with the map built so
far; one unit of fuel per page, `none` when the fuel runs out. -/
def getAllFlowsFrom (api : Nat → FlowPage) :
    Nat → Nat → List (String × String) → Option FlowsExport
  | 0, _, _ => none
  | fuel + 1, pageNum, resources =>
    match api pageNum with
    | .failed err =>
      some { requested := [pageNum],
             outcome := .returns (none, diagErrorf ("Failed to get page of flows: " ++ err)) }
    | .listing none => some { requested := [pageNum], outcome := .returns (some resources, []) }
    | .listing (some []) =>
      some { requested := [pageNum], outcome := .returns (some resources, []) }
    | .listing (some (flow :: flows)) =>
      match addFlows (flow :: flows) resources with
      | .panics => some { requested := [pageNum], outcome := .panics }
      | .returns resources1 =>
        (getAllFlowsFrom api fuel (pageNum + 1) resources1).map
          fun r => { r with requested := pageNum :: r.requested }

/-- The function `getAllFlows`: the loop starts at page 1 with an empty map. -/
def getAllFlows (api : Nat → FlowPage) (fuel : Nat) : Option FlowsExport :=
  getAllFlowsFrom api fuel 1 []

/-- A flow with the given id and name. -/
def flowOf (e : String × String) : Flow := { Id := some e.1, Name := some e.2 }

/-- The page has no entities: the pointer is nil or the list is empty. -/
def FlowPage.isEmpty : FlowPage → Bool
  | .listing none => true
  | .listing (some []) => true
  | _ => false

/-- The request for the page failed. -/
def FlowPage.isFailed : FlowPage → Bool
  | .failed _ => true
  | _ => false

/-- The first `pages.length` pages are the given ones, each with at least one
flow, all flows with id and name; `pageNum` is the number of the first. -/
def ServesPages (api : Nat → FlowPage) (pageNum : Nat) (pages : List (List (String × String))) :
    Prop :=
  ∀ (i : Nat) (page : List (String × String)), pages[i]? = some page →
    page ≠ [] ∧ api (pageNum + i) = .listing (some (page.map flowOf))

/-- The map after the flows of the list were entered in order. -/
def enterFlows (resources : List (String × String)) (flows : List (String × String)) :
    List (String × String) :=
  flows.foldl (fun m e => mapSet m e.1 e.2) resources

/-- An API with two pages of flows; the flow `a` is on both; page 3 is empty. -/
def twoPages (pageNum : Nat) : FlowPage :=
  if pageNum = 1 then .listing (some [flowOf ("a", "Alpha"), flowOf ("b", "Beta")])
  else if pageNum = 2 then .listing (some [flowOf ("a", "Alpha2")])
  else .listing (some [])

/-! ## Create and update of a web deployment configuration -/

/-- The fields of the SDK type `Webdeploymentconfigurationversion` that the
resource writes or reads, all pointers. -/
structure Webdeploymentconfigurationversion where
  Id : Option String
  Name : Option String
  Version : Option String
  Description : Option String
  Languages : Option (List String)
  DefaultLanguage : Option String
  Status : Option String
  Messenger : Option Messengersettings
  JourneyEvents : Option Journeyeventssettings

/-- What a call of the web deployments API that yields a configuration
returns: `(nil, err)` or `(configuration, nil)`. -/
inductive ConfigurationCall where
  | failed (err : String)
  | answered (configuration : Webdeploymentconfigurationversion)

/-- The answers of the web deployments API: to the POST of a configuration, to
the PUT of a draft, to the k-th read of the draft (with the seconds the read
takes) and to the publish call. -/
structure ConfigurationAPI where
  post : ConfigurationCall
  putDraft : ConfigurationCall
  draft : Nat → ConfigurationCall
  draftSeconds : Nat → Nat
  publish : ConfigurationCall

/-- The attributes of the configuration resource that the operations read or set. -/
structure ConfigurationData where
  id : String
  name : String
  languages : List Value
  default_language : String
  description : String
  messenger : Value
  journey_events : Value
  status : String
  version : String

/-- One observable effect of a configuration operation. -/
inductive ConfigurationEvent where
  | postConfiguration (body : Webdeploymentconfigurationversion)
  | putDraft (id : String) (body : Webdeploymentconfigurationversion)
  | readDraft (id : String) (answer : ConfigurationCall)
  | publish (id : String)
  | setId (id : String)
  | sleep (seconds : Nat)

/-- The state threaded through a configuration operation: the clock in
seconds, the number of draft reads so far, the resource data and the effects so
far, oldest first. -/
structure ConfigurationWorld where
  now : Nat
  reads : Nat
  d : ConfigurationData
  trace : List ConfigurationEvent

/-- Record an effect. -/
def ConfigurationWorld.emit (w : ConfigurationWorld) (e : ConfigurationEvent) :
    ConfigurationWorld :=
  { w with trace := w.trace ++ [e] }

/-- The call `d.SetId(id)`. -/
def ConfigurationWorld.SetId (w : ConfigurationWorld) (id : String) : ConfigurationWorld :=
  { w with d := { w.d with id := id }, trace := w.trace ++ [ConfigurationEvent.setId id] }

/-- The calls `d.Set("version", configuration.Version)` and
`d.Set("status", configuration.Status)`; a nil pointer sets the empty text. -/
def ConfigurationWorld.SetVersionStatus (w : ConfigurationWorld)
    (configuration : Webdeploymentconfigurationversion) : ConfigurationWorld :=
  { w with d := { w.d with version := configuration.Version.getD "",
                           status := configuration.Status.getD "" } }

/-- The call `d.Set("status", configuration.Status)`. -/
def ConfigurationWorld.SetStatus (w : ConfigurationWorld) (status : Option String) :
    ConfigurationWorld :=
  { w with d := { w.d with status := status.getD "" } }

/-- The function `readWebDeploymentConfigurationFromResourceData`: the name and
the configuration to send. -/
def readWebDeploymentConfigurationFromResourceData
    (interfaceListToStrings : List Value → Outcome (List String)) (d : ConfigurationData) :
    Outcome (String × Webdeploymentconfigurationversion) :=
  (interfaceListToStrings d.languages).bind fun languages =>
    (readMessengerSettings interfaceListToStrings d.messenger).bind fun messengerSettings =>
      (readJourneySettings d.journey_events).bind fun journeySettings =>
        .returns (d.name,
          { Id := none, Name := some d.name, Version := none,
            Description := some d.description, Languages := some languages,
            DefaultLanguage := some d.default_language, Status := none,
            Messenger := messengerSettings, JourneyEvents := journeySettings })

/-- The call `api.GetWebdeploymentsConfigurationVersionsDraft(id)`: the world
after the next read of the draft. -/
def ConfigurationWorld.readDraft (w : ConfigurationWorld) (api : ConfigurationAPI)
    (id : String) : ConfigurationWorld :=
  { w with now := w.now + api.draftSeconds w.reads, reads := w.reads + 1,
           trace := w.trace ++ [ConfigurationEvent.readDraft id (api.draft w.reads)] }

/-- The closure of `waitForConfigurationDraftToBeActive` (lines 323-334): one
read of the draft. -/
def draftStep (api : ConfigurationAPI) (id : String) (w : ConfigurationWorld) :
    Run ConfigurationWorld (Option RetryError) :=
  let w1 := w.readDraft api id
  match api.draft w.reads with
  | .failed err =>
    .ret (some (NonRetryableError
      ("Error verifying active status for new web deployment configuration " ++ id ++ ": "
        ++ err))) w1
  | .answered configuration =>
    match configuration.Status with
    | none => .panic w1
    | some status =>
      if status == "Active" then .ret none w1
      else .ret (some (RetryableError
        ("Web deployment configuration " ++ id ++ " not active yet. Status: " ++ status))) w1

/-- The function `waitForConfigurationDraftToBeActive`: the closure under
`withRetries` with a budget of 30 seconds. -/
def waitForConfigurationDraftToBeActive (api : ConfigurationAPI) (id : String) (fuel : Nat)
    (w : ConfigurationWorld) : Option (Run ConfigurationWorld Diagnostics) :=
  withRetries (fun s => s.now) 30 (draftStep api id) fuel w

/-- The function `createWebDeploymentConfiguration`.  The final
`readWebDeploymentConfiguration` runs under the helper `withRetriesForRead`,
which is not among the sources at hand, and is taken as given (`read`). -/
def createWebDeploymentConfiguration
    (interfaceListToStrings : List Value → Outcome (List String)) (api : ConfigurationAPI)
    (read : ConfigurationWorld → Run ConfigurationWorld Diagnostics) (fuel : Nat)
    (w : ConfigurationWorld) : Option (Run ConfigurationWorld Diagnostics) :=
  match readWebDeploymentConfigurationFromResourceData interfaceListToStrings w.d with
  | .panics => some (.panic w)
  | .returns (name, inputCfg) =>
    let w1 := w.emit (ConfigurationEvent.postConfiguration inputCfg)
    match api.post with
    | .failed err =>
      some (.ret (diagErrorf ("Failed to create web deployment configuration " ++ name ++ ": "
        ++ err)) w1)
    | .answered configuration =>
      match configuration.Id with
      | none => some (.panic w1)
      | some id =>
        let w3 := (w1.SetId id).SetStatus configuration.Status
        match waitForConfigurationDraftToBeActive api w3.d.id fuel w3 with
        | none => none
        | some (.panic w4) => some (.panic w4)
        | some (.ret (_ :: _) w4) =>
          some (.ret (diagErrorf ("Web deployment configuration " ++ name
            ++ " did not become active and could not be published")) w4)
        | some (.ret [] w4) =>
          let w5 := w4.emit (ConfigurationEvent.publish w4.d.id)
          match api.publish with
          | .failed err =>
            some (.ret (diagErrorf ("Error publishing web deployment configuration " ++ name
              ++ ": " ++ err)) w5)
          | .answered published =>
            let w6 := w5.SetVersionStatus published
            match published.Id with
            | none => some (.panic w6)
            | some _ => some (read w6)

/-- The function `updateWebDeploymentConfiguration`, with the final read taken
as given like in the create. -/
def updateWebDeploymentConfiguration
    (interfaceListToStrings : List Value → Outcome (List String)) (api : ConfigurationAPI)
    (read : ConfigurationWorld → Run ConfigurationWorld Diagnostics) (fuel : Nat)
    (w : ConfigurationWorld) : Option (Run ConfigurationWorld Diagnostics) :=
  match readWebDeploymentConfigurationFromResourceData interfaceListToStrings w.d with
  | .panics => some (.panic w)
  | .returns (name, inputCfg) =>
    let w1 := w.emit (ConfigurationEvent.putDraft w.d.id inputCfg)
    match api.putDraft with
    | .failed err =>
      some (.ret (diagErrorf ("Error updating web deployment configuration " ++ name ++ ": "
        ++ err)) w1)
    | .answered _ =>
      match waitForConfigurationDraftToBeActive api w1.d.id fuel w1 with
      | none => none
      | some (.panic w2) => some (.panic w2)
      | some (.ret (_ :: _) w2) =>
        some (.ret (diagErrorf ("Web deployment configuration " ++ name
          ++ " did not become active and could not be published")) w2)
      | some (.ret [] w2) =>
        let w3 := w2.emit (ConfigurationEvent.publish w2.d.id)
        match api.publish with
        | .failed err =>
          some (.ret (diagErrorf ("Error publishing web deployment configuration " ++ name
            ++ ": " ++ err)) w3)
        | .answered published =>
          let w4 := w3.SetVersionStatus published
          some (read { w4 with now := w4.now + 5,
                               trace := w4.trace ++ [ConfigurationEvent.sleep 5] })

/-- The ids handed to the publish call in a trace, in order. -/
def publishes : List ConfigurationEvent → List String
  | [] => []
  | ConfigurationEvent.publish id :: es => id :: publishes es
  | _ :: es => publishes es

/-- The trace ends in a read of the draft `id` that was answered with status `Active`. -/
def EndsInActiveRead (trace : List ConfigurationEvent) (id : String) : Prop :=
  ∃ pre configuration, trace = pre ++ [ConfigurationEvent.readDraft id (.answered configuration)]
    ∧ configuration.Status = some "Active"

/-- The operation either published nothing, or it published once, the draft
`id`, right after a read of that draft answered `Active`, and then ended in
the world `w1`: with the given run, or by handing `w1` to the final read. -/
def PublishedOnceAfterActive (read : ConfigurationWorld → Run ConfigurationWorld Diagnostics)
    (w : ConfigurationWorld) (r : Run ConfigurationWorld Diagnostics) : Prop :=
  (r.Failed ∧ publishes r.state.trace = publishes w.trace)
    ∨ ∃ (w0 w1 : ConfigurationWorld) (tail : List ConfigurationEvent),
        EndsInActiveRead w0.trace w0.d.id
          ∧ publishes w0.trace = publishes w.trace
          ∧ w1.trace = w0.trace ++ ConfigurationEvent.publish w0.d.id :: tail
          ∧ publishes tail = []
          ∧ ((r.Failed ∧ r.state = w1) ∨ r = read w1)

/-- The configuration `c1` as the API reports it, with the given status and version. -/
def reported (status : String) (version : Option String) : Webdeploymentconfigurationversion :=
  { Id := some "c1", Name := some "web", Version := version, Description := none,
    Languages := none, DefaultLanguage := none, Status := some status, Messenger := none,
    JourneyEvents := none }

/-- An API for the examples: the draft is `Pending` at the first read and
`Active` at the second, each read takes a second, every other call succeeds. -/
def sampleConfigurationAPI : ConfigurationAPI where
  post := .answered (reported "Pending" none)
  putDraft := .answered (reported "Pending" none)
  draft k := .answered (reported (if k = 0 then "Pending" else "Active") none)
  draftSeconds _ := 1
  publish := .answered (reported "Active" (some "1"))

/-- The same API with a draft that cannot be read. -/
def draftUnreadable : ConfigurationAPI :=
  { sampleConfigurationAPI with draft := fun _ => .failed "503" }

/-- A configuration resource for the examples, at time zero. -/
def c0 : ConfigurationWorld :=
  { now := 0, reads := 0, trace := [],
    d := { id := "c1", name := "web", languages := [.string "en-us"],
           default_language := "en-us", description := "", messenger := .list [],
           journey_events := .list [], status := "", version := "" } }

/-- A final read for the examples: it changes nothing and reports no error. -/
def sampleRead (w : ConfigurationWorld) : Run ConfigurationWorld Diagnostics := .ret [] w

/-- The block list reads without a failed assertion at lines 405 and 416: it
is absent, no list, empty, or its first element is a map.  An empty block, as
in `styles` followed by empty braces, reads as a list whose first element is nil. -/
def ReadsAsBlock (blocks : Option Value) : Prop :=
  ∀ first rest, blocks = some (.list (first :: rest)) → ∃ block, first = .map block

/-- A messenger block with the two modes of the examples and an empty `styles` block. -/
def emptyStylesMessenger : Value :=
  .list [.map [("enabled", .bool true), ("styles", .list [.nil]), ("launcher_button", .list []),
               ("file_upload", .list [.map [("modes", .list twoModes)]])]]

/-- The attributes of a messenger block with a primary colour, a launcher
button and the two modes of the examples. -/
def styledMessenger : List (String × Value) :=
  [("enabled", .bool true),
   ("styles", .list [.map [("primary_color", .string "#112233")]]),
   ("launcher_button", .list [.map [("visibility", .string "On")]]),
   ("file_upload", .list [.map [("modes", .list twoModes)]])]

/-- A job that is in progress twice and then fails with exit code 2. -/
def laterFailure : Remote :=
  sampleRemote (fun k => if k < 2 then inProgress else failure2) flowF1

/-! ## Basic facts -/

theorem mentions_middle (a b c : String) : Mentions (a ++ b ++ c) b := by
  unfold Mentions
  simp only [String.data_append]
  exact List.infix_append a.data b.data c.data

theorem mentions_end (a b : String) : Mentions (a ++ b) b := by
  unfold Mentions
  simp only [String.data_append]
  exact (List.suffix_append a.data b.data).isInfix

theorem mentions_left (a b c : String) (h : Mentions a c) : Mentions (a ++ b) c := by
  unfold Mentions at *
  simp only [String.data_append]
  exact h.trans (List.prefix_append a.data b.data).isInfix

theorem setIds_append (xs ys : List Event) : setIds (xs ++ ys) = setIds xs ++ setIds ys := by
  induction xs with
  | nil => rfl
  | cons e es ih => cases e <;> simp [setIds, ih]

theorem sleeps_append (xs ys : List Event) : sleeps (xs ++ ys) = sleeps xs ++ sleeps ys := by
  induction xs with
  | nil => rfl
  | cons e es ih => cases e <;> simp [sleeps, ih]

theorem uploads_append (xs ys : List Event) : uploads (xs ++ ys) = uploads xs ++ uploads ys := by
  induction xs with
  | nil => rfl
  | cons e es ih => cases e <;> simp [uploads, ih]

theorem ifaceEqString_of_eq (v : Option JSONValue) (lit : String)
    (h : v = some (.string lit)) : ifaceEqString v lit = true := by
  subst h
  simp [ifaceEqString]

theorem ifaceEqString_ne (v : Option JSONValue) (s lit : String)
    (h : v = some (.string s)) (hne : s ≠ lit) : ifaceEqString v lit = false := by
  subst h
  simp [ifaceEqString, hne]

theorem untouched_emit (w : World) (e : Event) (h : setIds [e] = []) :
    World.Untouched w (w.emit e) := by
  refine ⟨rfl, rfl, rfl, ?_⟩
  simp [World.emit, setIds_append, h]

theorem submitJob_state (lib : Lib) (srv : Remote) (cfg : Configuration) (w : World) :
    (submitJob lib srv cfg w).state = w.emit (Event.callAPI jobsPath "POST" (headerParams cfg)) := by
  unfold submitJob
  simp only
  repeat' split
  all_goals rfl

theorem prepareAndUploadFile_state (lib : Lib) (srv : Remote) (filename : String)
    (headers : JSONObject) (presignedUrl jobId orgId correlationId : String) (w : World) :
    World.Untouched w
      (prepareAndUploadFile lib srv filename headers presignedUrl jobId orgId correlationId w).state := by
  unfold prepareAndUploadFile
  repeat' split
  all_goals first
    | exact ⟨rfl, rfl, rfl, rfl⟩
    | exact untouched_emit _ _ rfl

theorem createFlowPoll_state (lib : Lib) (srv : Remote) (cfg : Configuration) (jobId : String)
    (s : String × World) :
    (createFlowPoll lib srv cfg jobId s).state.2.d = s.2.d
      ∧ setIds (createFlowPoll lib srv cfg jobId s).state.2.trace = setIds s.2.trace := by
  unfold createFlowPoll
  simp only
  repeat' split
  all_goals
    refine ⟨rfl, ?_⟩
    simp [Run.state, World.getStatus, World.emit, World.Sleep, setIds_append, setIds]

theorem retryLoop_createFlowPoll_state (lib : Lib) (srv : Remote) (cfg : Configuration)
    (jobId : String) (deadline : Nat) :
    ∀ (fuel : Nat) (s : String × World) (r : Run (String × World) Diagnostics),
      retryLoop (fun s => s.2.now) deadline (createFlowPoll lib srv cfg jobId) fuel s = some r →
      r.state.2.d = s.2.d ∧ setIds r.state.2.trace = setIds s.2.trace := by
  intro fuel
  induction fuel with
  | zero => intro s r h; simp [retryLoop] at h
  | succ fuel ih =>
    intro s r h
    have hs := createFlowPoll_state lib srv cfg jobId s
    unfold retryLoop at h
    split at h
    · next s1 heq =>
      rw [heq] at hs
      cases h
      exact hs
    · next s1 heq =>
      rw [heq] at hs
      cases h
      exact hs
    · next e s1 heq =>
      rw [heq] at hs
      simp only [Run.state] at hs
      split at h
      · split at h
        · cases h; exact hs
        · have := ih s1 r h
          exact ⟨this.1.trans hs.1, this.2.trans hs.2⟩
      · cases h; exact hs

/-! ## The retry loop -/

theorem pollWait_facts (cfg : Configuration) (jobId : String) :
    ∀ (n : Nat) (w : World),
      (pollWait cfg jobId n w).now = w.now + 15 * n
        ∧ (pollWait cfg jobId n w).polls = w.polls + n
        ∧ (pollWait cfg jobId n w).d = w.d
        ∧ setIds (pollWait cfg jobId n w).trace = setIds w.trace := by
  intro n
  induction n with
  | zero => intro w; exact ⟨rfl, rfl, rfl, rfl⟩
  | succ n ih =>
    intro w
    obtain ⟨h1, h2, h3, h4⟩ := ih ((w.getStatus cfg jobId).Sleep 15)
    refine ⟨?_, ?_, ?_, ?_⟩
    · show (pollWait cfg jobId n ((w.getStatus cfg jobId).Sleep 15)).now = _
      rw [h1]; simp [World.getStatus, World.emit, World.Sleep]; ring
    · show (pollWait cfg jobId n ((w.getStatus cfg jobId).Sleep 15)).polls = _
      rw [h2]; simp [World.getStatus, World.emit, World.Sleep]; ring
    · show (pollWait cfg jobId n ((w.getStatus cfg jobId).Sleep 15)).d = _
      rw [h3]; rfl
    · show setIds (pollWait cfg jobId n ((w.getStatus cfg jobId).Sleep 15)).trace = _
      rw [h4]; simp [World.getStatus, World.emit, World.Sleep, setIds_append, setIds]

theorem createFlowPoll_wait (lib : Lib) (srv : Remote) (cfg : Configuration)
    (jobId flowID : String) (w : World)
    (h : isTerminal (jobStatus lib (srv.status w.polls)) = false) :
    createFlowPoll lib srv cfg jobId (flowID, w)
      = .ret (some (RetryableError ("Job (" ++ jobId ++ ") is still in progress.")))
          (flowID, (w.getStatus cfg jobId).Sleep 15) := by
  simp only [isTerminal, Bool.or_eq_false_iff] at h
  simp [createFlowPoll, h.1, h.2]

/-- While the answers are not terminal and the deadline is ahead, the loop goes on. -/
theorem retryLoop_pollWait (lib : Lib) (srv : Remote) (cfg : Configuration)
    (jobId flowID : String) (deadline : Nat) :
    ∀ (n fuel : Nat) (w : World),
      (∀ k, k < n → isTerminal (jobStatus lib (srv.status (w.polls + k))) = false) →
      w.now + 15 * n < deadline →
      retryLoop (fun s => s.2.now) deadline (createFlowPoll lib srv cfg jobId) (fuel + n)
          (flowID, w)
        = retryLoop (fun s => s.2.now) deadline (createFlowPoll lib srv cfg jobId) fuel
          (flowID, pollWait cfg jobId n w) := by
  intro n
  induction n with
  | zero => intro fuel w _ _; rfl
  | succ n ih =>
    intro fuel w hk hd
    have h0 := createFlowPoll_wait lib srv cfg jobId flowID w (by simpa using hk 0 (by omega))
    have hnow : ((w.getStatus cfg jobId).Sleep 15).now = w.now + 15 := rfl
    have hpolls : ((w.getStatus cfg jobId).Sleep 15).polls = w.polls + 1 := rfl
    have step : retryLoop (fun s => s.2.now) deadline (createFlowPoll lib srv cfg jobId)
        (fuel + n + 1) (flowID, w)
        = retryLoop (fun s => s.2.now) deadline (createFlowPoll lib srv cfg jobId) (fuel + n)
          (flowID, (w.getStatus cfg jobId).Sleep 15) := by
      rw [retryLoop, h0]
      have : ¬ deadline ≤ w.now + 15 := by omega
      simp [RetryableError, hnow, this]
    show retryLoop _ _ _ (fuel + n + 1) _ = _
    rw [step, ih fuel ((w.getStatus cfg jobId).Sleep 15)]
    · rfl
    · intro k hlt
      rw [hpolls]
      have := hk (k + 1) (by omega)
      rwa [show w.polls + 1 + k = w.polls + (k + 1) by omega]
    · rw [hnow]; omega

theorem readFlow_state (lib : Lib) (srv : Remote) (cfg : Configuration) (w : World) :
    (readFlow lib srv cfg w).state
      = w.emit (Event.callAPI (cfg.BasePath ++ "/api/v2/flows/" ++ w.d.id) "GET"
          (headerParams cfg)) := by
  unfold readFlow
  simp only
  repeat' split
  all_goals rfl

theorem isTerminal_of_status (res : JSONObject) (s : String)
    (h : res.lookup "status" = some (.string s)) (hF : s ≠ "Failure") (hS : s ≠ "Success") :
    isTerminal res = false := by
  simp [isTerminal, ifaceEqString_ne _ _ _ h hF, ifaceEqString_ne _ _ _ h hS]

/-- After `n` waits within the deadline the polling stage stands at the next answer. -/
theorem createFlowWait_reach (lib : Lib) (srv : Remote) (cfg : Configuration)
    (jobId : String) (n fuel : Nat) (w : World)
    (hk : ∀ k, k < n → isTerminal (jobStatus lib (srv.status (w.polls + k))) = false)
    (hd : 15 * n < 16 * 60) (hfuel : n < fuel) :
    createFlowWait lib srv cfg jobId fuel w
      = match createFlowPoll lib srv cfg jobId ("", pollWait cfg jobId n w) with
        | .panic s1 => some (.panic s1)
        | .ret none s1 => some (.ret [] s1)
        | .ret (some e) s1 =>
          if e.Retryable then
            if w.now + 16 * 60 ≤ s1.2.now then
              some (.ret [{ Summary := e.Err, Timeout := true }] s1)
            else retryLoop (fun s => s.2.now) (w.now + 16 * 60)
              (createFlowPoll lib srv cfg jobId) (fuel - n - 1) s1
          else some (.ret [{ Summary := e.Err, Timeout := false }] s1) := by
  unfold createFlowWait withRetries
  obtain ⟨m, rfl⟩ : ∃ m, fuel = (m + 1) + n := ⟨fuel - n - 1, by omega⟩
  rw [retryLoop_pollWait lib srv cfg jobId "" _ n (m + 1) w hk (by simp only; omega)]
  rw [retryLoop]
  have : m + 1 + n - n - 1 = m := by omega
  rw [this]
  generalize createFlowPoll lib srv cfg jobId ("", pollWait cfg jobId n w) = r
  rcases r with ⟨_ | e, s1⟩ | s1 <;> rfl

theorem createFlowWait_success (lib : Lib) (srv : Remote) (cfg : Configuration)
    (jobId : String) (n fuel : Nat) (w : World) (flow : JSONObject) (F : String)
    (hk : ∀ k, k < n → isTerminal (jobStatus lib (srv.status (w.polls + k))) = false)
    (hd : 15 * n < 16 * 60) (hfuel : n < fuel)
    (hstatus : (jobStatus lib (srv.status (w.polls + n))).lookup "status"
      = some (.string "Success"))
    (hflow : (jobStatus lib (srv.status (w.polls + n))).lookup "flow" = some (.object flow))
    (hid : flow.lookup "id" = some (.string F)) :
    createFlowWait lib srv cfg jobId fuel w
      = some (.ret [] (F, (pollWait cfg jobId n w).getStatus cfg jobId)) := by
  rw [createFlowWait_reach lib srv cfg jobId n fuel w hk hd hfuel]
  have hp := (pollWait_facts cfg jobId n w).2.1
  have hF := ifaceEqString_ne _ _ "Failure" hstatus (by decide)
  have hS := ifaceEqString_of_eq _ _ hstatus
  simp [createFlowPoll, hp, hF, hS, hflow, hid, assertMap, assertString]

theorem createFlowWait_failure (lib : Lib) (srv : Remote) (cfg : Configuration)
    (jobId : String) (n fuel : Nat) (w : World)
    (hk : ∀ k, k < n → isTerminal (jobStatus lib (srv.status (w.polls + k))) = false)
    (hd : 15 * n < 16 * 60) (hfuel : n < fuel)
    (hstatus : (jobStatus lib (srv.status (w.polls + n))).lookup "status"
      = some (.string "Failure")) :
    (∃ e s, createFlowWait lib srv cfg jobId fuel w = some (.ret [e] s))
      ∨ ∃ s, createFlowWait lib srv cfg jobId fuel w = some (.panic s) := by
  rw [createFlowWait_reach lib srv cfg jobId n fuel w hk hd hfuel]
  have hp := (pollWait_facts cfg jobId n w).2.1
  have hF := ifaceEqString_of_eq _ _ hstatus
  cases hx : assertFloat64 ((jobStatus lib (srv.status (w.polls + n))).lookup "exitCode") with
  | none => right; simp [createFlowPoll, hp, hF, hx]
  | some x => left; simp [createFlowPoll, hp, hF, hx, NonRetryableError]

theorem createFlowWait_timeout (lib : Lib) (srv : Remote) (cfg : Configuration)
    (jobId : String) (fuel : Nat) (w : World)
    (hk : ∀ k, k < 64 → isTerminal (jobStatus lib (srv.status (w.polls + k))) = false)
    (hfuel : 64 ≤ fuel) :
    createFlowWait lib srv cfg jobId fuel w
      = some (.ret [{ Summary := "Job (" ++ jobId ++ ") is still in progress.", Timeout := true }]
          ("", pollWait cfg jobId 64 w)) := by
  rw [createFlowWait_reach lib srv cfg jobId 63 fuel w (fun k hlt => hk k (by omega))
    (by omega) (by omega)]
  obtain ⟨hn, hp, -, -⟩ := pollWait_facts cfg jobId 63 w
  have h63 : isTerminal (jobStatus lib (srv.status (pollWait cfg jobId 63 w).polls)) = false := by
    rw [hp]; exact hk 63 (by omega)
  rw [createFlowPoll_wait lib srv cfg jobId "" _ h63]
  have hnow : (((pollWait cfg jobId 63 w).getStatus cfg jobId).Sleep 15).now = w.now + 960 := by
    show (pollWait cfg jobId 63 w).now + 15 = _
    rw [hn]
  have hw : ((pollWait cfg jobId 63 w).getStatus cfg jobId).Sleep 15 = pollWait cfg jobId 64 w := by
    have : ∀ (n : Nat) (w : World), pollWait cfg jobId (n + 1) w
        = ((pollWait cfg jobId n w).getStatus cfg jobId).Sleep 15 := by
      intro n
      induction n with
      | zero => intro w; rfl
      | succ n ih => intro w; exact ih ((w.getStatus cfg jobId).Sleep 15)
    exact (this 63 w).symm
  simp only [RetryableError, hnow, if_true]
  rw [hw]
  simp

/-! ## One poll iteration -/

/-- C1.  A decoded job-status response with status `Failure` and a numeric
`exitCode` makes one poll iteration of `createFlow`, and of `updateFlow`,
return a non-retryable error at once: the only effect is the status request,
nothing is slept, and the text of the error holds the job id and the exit
code.  Nothing is assumed about a `flow` field of the response. -/
theorem failure_status_is_fatal (lib : Lib) (srv : Remote) (cfg : Configuration)
    (jobId flowID : String) (w : World) (exitCode : Float64)
    (hstatus : (jobStatus lib (srv.status w.polls)).lookup "status"
      = some (.string "Failure"))
    (hexit : (jobStatus lib (srv.status w.polls)).lookup "exitCode"
      = some (.number exitCode)) :
    createFlowPoll lib srv cfg jobId (flowID, w)
        = .ret (some (NonRetryableError ("Flow publish failed. JobID: " ++ jobId
            ++ ", exit code: " ++ lib.fmtFloat exitCode))) (flowID, w.getStatus cfg jobId)
      ∧ updateFlowPoll lib srv cfg jobId w
        = .ret (some (NonRetryableError ("Flow publish failed. JobID: " ++ jobId
            ++ ", exit code: " ++ lib.fmtFloat exitCode))) (w.getStatus cfg jobId)
      ∧ (NonRetryableError ("Flow publish failed. JobID: " ++ jobId
            ++ ", exit code: " ++ lib.fmtFloat exitCode)).Retryable = false
      ∧ sleeps (w.getStatus cfg jobId).trace = sleeps w.trace
      ∧ (w.getStatus cfg jobId).now = w.now
      ∧ setIds (w.getStatus cfg jobId).trace = setIds w.trace
      ∧ Mentions ("Flow publish failed. JobID: " ++ jobId
            ++ ", exit code: " ++ lib.fmtFloat exitCode) jobId
      ∧ Mentions ("Flow publish failed. JobID: " ++ jobId
            ++ ", exit code: " ++ lib.fmtFloat exitCode) (lib.fmtFloat exitCode) := by
  have hF := ifaceEqString_of_eq _ _ hstatus
  refine ⟨?_, ?_, rfl, ?_, rfl, ?_, ?_, ?_⟩
  · simp [createFlowPoll, hF, hexit, assertFloat64]
  · simp [updateFlowPoll, hF, hexit, assertFloat64]
  · simp [World.getStatus, World.emit, sleeps_append, sleeps]
  · simp [World.getStatus, World.emit, setIds_append, setIds]
  · exact mentions_left _ _ _ (mentions_left _ _ _ (mentions_end _ _))
  · exact mentions_end _ _

/-- C1, at a response with status `Failure`, exit code 2 and a flow object. -/
theorem failure_status_is_fatal_witness :
    createFlowPoll sampleLib (sampleRemote (fun _ => failureWithFlow) registered) sampleConfig "J1"
        ("", w0)
      = .ret (some (NonRetryableError "Flow publish failed. JobID: J1, exit code: 2.000000"))
          ("", w0.getStatus sampleConfig "J1")
    ∧ Mentions "Flow publish failed. JobID: J1, exit code: 2.000000" "J1"
    ∧ Mentions "Flow publish failed. JobID: J1, exit code: 2.000000" "2.000000" :=
  have h := failure_status_is_fatal sampleLib (sampleRemote (fun _ => failureWithFlow) registered)
    sampleConfig "J1" "" w0 two rfl rfl
  ⟨h.1, h.2.2.2.2.2.2.1, h.2.2.2.2.2.2.2⟩

/-- C3, as the code has it.  A response with status `Success` that has no flow
object, or whose flow object has no string id, makes the poll iteration of
`createFlow` abort on the failed type assertion: it returns nothing, neither
success nor an error, and `flowID` and the resource data stay as they were. -/
theorem success_without_flow_id_panics (lib : Lib) (srv : Remote) (cfg : Configuration)
    (jobId flowID : String) (w : World)
    (hstatus : (jobStatus lib (srv.status w.polls)).lookup "status"
      = some (.string "Success"))
    (hflow : assertMap ((jobStatus lib (srv.status w.polls)).lookup "flow") = none
      ∨ ∃ flow, assertMap ((jobStatus lib (srv.status w.polls)).lookup "flow") = some flow
          ∧ assertString (flow.lookup "id") = none) :
    createFlowPoll lib srv cfg jobId (flowID, w) = .panic (flowID, w.getStatus cfg jobId)
      ∧ (w.getStatus cfg jobId).d = w.d
      ∧ setIds (w.getStatus cfg jobId).trace = setIds w.trace := by
  have hF := ifaceEqString_ne _ _ "Failure" hstatus (by decide)
  have hS := ifaceEqString_of_eq _ _ hstatus
  refine ⟨?_, rfl, ?_⟩
  · rcases hflow with h | ⟨flow, h, hid⟩
    · simp [createFlowPoll, hF, hS, h]
    · simp [createFlowPoll, hF, hS, h, hid]
  · simp [World.getStatus, World.emit, setIds_append, setIds]

/-- C3, at a `Success` response without a flow object. -/
theorem success_without_flow_id_panics_witness :
    createFlowPoll sampleLib (sampleRemote (fun _ => successNoFlow) registered) sampleConfig "J1"
        ("", w0) = .panic ("", w0.getStatus sampleConfig "J1") :=
  (success_without_flow_id_panics sampleLib (sampleRemote (fun _ => successNoFlow) registered)
    sampleConfig "J1" "" w0 rfl (Or.inl rfl)).1

/-- C3 as stated fails: on a `Success` response without a flow object the poll
iteration of `createFlow` reports no error at all, fatal or otherwise; it
panics. -/
theorem success_without_flow_reports_no_error :
    (jobStatus sampleLib ((sampleRemote (fun _ => successNoFlow) registered).status w0.polls)).lookup
        "status" = some (.string "Success")
    ∧ (jobStatus sampleLib ((sampleRemote (fun _ => successNoFlow) registered).status
        w0.polls)).lookup "flow" = none
    ∧ ¬ ∃ e s, createFlowPoll sampleLib (sampleRemote (fun _ => successNoFlow) registered)
        sampleConfig "J1" ("", w0) = .ret (some e) s := by
  refine ⟨rfl, rfl, ?_⟩
  rintro ⟨e, s, h⟩
  have hp : createFlowPoll sampleLib (sampleRemote (fun _ => successNoFlow) registered)
      sampleConfig "J1" ("", w0) = .panic ("", w0.getStatus sampleConfig "J1") := rfl
  rw [hp] at h
  cases h

/-- C7.  When the decoded status is neither `Failure` nor `Success`, the poll
iteration of `createFlow` issues the status request, sleeps 15 seconds and
returns a retryable error whose text holds the job id; `flowID` and the
resource data are untouched. -/
theorem other_status_waits_and_retries (lib : Lib) (srv : Remote) (cfg : Configuration)
    (jobId flowID : String) (w : World)
    (hstatus : isTerminal (jobStatus lib (srv.status w.polls)) = false) :
    createFlowPoll lib srv cfg jobId (flowID, w)
        = .ret (some (RetryableError ("Job (" ++ jobId ++ ") is still in progress.")))
            (flowID, (w.getStatus cfg jobId).Sleep 15)
      ∧ (RetryableError ("Job (" ++ jobId ++ ") is still in progress.")).Retryable = true
      ∧ Mentions ("Job (" ++ jobId ++ ") is still in progress.") jobId
      ∧ ((w.getStatus cfg jobId).Sleep 15).now = w.now + 15
      ∧ sleeps ((w.getStatus cfg jobId).Sleep 15).trace = sleeps w.trace ++ [15]
      ∧ ((w.getStatus cfg jobId).Sleep 15).d = w.d := by
  simp only [isTerminal, Bool.or_eq_false_iff] at hstatus
  refine ⟨?_, rfl, mentions_middle _ _ _, rfl, ?_, rfl⟩
  · simp [createFlowPoll, hstatus.1, hstatus.2]
  · simp [World.getStatus, World.emit, World.Sleep, sleeps_append, sleeps]

/-- C7, when the status request failed at transport level. -/
theorem other_status_waits_and_retries_witness :
    isTerminal (jobStatus sampleLib (.failed "connection refused")) = false
    ∧ createFlowPoll sampleLib
        (sampleRemote (fun _ => .failed "connection refused") registered) sampleConfig "J1"
        ("", w0)
      = .ret (some (RetryableError "Job (J1) is still in progress."))
          ("", (w0.getStatus sampleConfig "J1").Sleep 15) :=
  ⟨rfl, (other_status_waits_and_retries sampleLib
    (sampleRemote (fun _ => .failed "connection refused") registered) sampleConfig "J1" "" w0
    rfl).1⟩

/-- C8 on the code.  A status response that carries an API error, and one whose
body does not decode, do not end the polling: the non-retryable error is built
and dropped, the iteration sleeps and returns the retryable error, in
`createFlow` and in `updateFlow` alike. -/
theorem status_error_is_retried :
    createFlowPoll sampleLib (sampleRemote (fun _ => .answered errorResponse) registered)
        sampleConfig "J1" ("", w0)
      = .ret (some (RetryableError "Job (J1) is still in progress."))
          ("", (w0.getStatus sampleConfig "J1").Sleep 15)
    ∧ updateFlowPoll sampleLib (sampleRemote (fun _ => .answered errorResponse) registered)
        sampleConfig "J1" w0
      = .ret (some (RetryableError "Job (J1) is still in progress."))
          ((w0.getStatus sampleConfig "J1").Sleep 15)
    ∧ createFlowPoll sampleLib
        (sampleRemote (fun _ => .answered (okResponse "<html>")) registered)
        sampleConfig "J1" ("", w0)
      = .ret (some (RetryableError "Job (J1) is still in progress."))
          ("", (w0.getStatus sampleConfig "J1").Sleep 15)
    ∧ updateFlowPoll sampleLib
        (sampleRemote (fun _ => .answered (okResponse "<html>")) registered)
        sampleConfig "J1" w0
      = .ret (some (RetryableError "Job (J1) is still in progress."))
          ((w0.getStatus sampleConfig "J1").Sleep 15) :=
  ⟨rfl, rfl, rfl, rfl⟩

theorem createFlowWait_state (lib : Lib) (srv : Remote) (cfg : Configuration)
    (jobId : String) (fuel : Nat) (w : World) (r : Run (String × World) Diagnostics)
    (h : createFlowWait lib srv cfg jobId fuel w = some r) :
    r.state.2.d = w.d ∧ setIds r.state.2.trace = setIds w.trace :=
  retryLoop_createFlowPoll_state lib srv cfg jobId _ fuel ("", w) r h

/-- Whatever the outside answers, `createFlow` either leaves the resource data
and the list of assigned identifiers as they were, or it has assigned one
identifier, not empty, and its outcome is that of the final read. -/
theorem createFlow_assigns_only_before_read (lib : Lib) (srv : Remote) (cfg : Configuration)
    (fuel : Nat) (w : World) (r : Run World Diagnostics)
    (h : createFlow lib srv cfg fuel w = some r) :
    (r.state.d = w.d ∧ setIds r.state.trace = setIds w.trace)
      ∨ ∃ (w3 : World) (F : String), F ≠ "" ∧ w3.d = w.d ∧ setIds w3.trace = setIds w.trace
          ∧ r = readFlow lib srv cfg (w3.SetId F) := by
  have hs := submitJob_state lib srv cfg w
  have he : (w.emit (Event.callAPI jobsPath "POST" (headerParams cfg))).d = w.d
      ∧ setIds (w.emit (Event.callAPI jobsPath "POST" (headerParams cfg))).trace
        = setIds w.trace := by
    refine ⟨rfl, ?_⟩
    simp [World.emit, setIds_append, setIds]
  unfold createFlow at h
  cases hsub : submitJob lib srv cfg w with
  | panic w1 =>
    rw [hsub] at h hs
    simp only [Option.some.injEq] at h
    subst h
    simp only [Run.state] at hs ⊢
    subst hs
    exact Or.inl he
  | ret v w1 =>
    rw [hsub] at h hs
    simp only [Run.state] at hs
    cases v with
    | error ds =>
      simp only [Option.some.injEq] at h
      subst h
      simp only [Run.state]
      subst hs
      exact Or.inl he
    | ok job =>
      simp only at h
      have hu := prepareAndUploadFile_state lib srv w1.d.filepath job.headers
        job.presignedUrl job.jobId job.orgID job.correlationId w1
      have h1d : w1.d = w.d := by rw [hs]; exact he.1
      have h1t : setIds w1.trace = setIds w.trace := by rw [hs]; exact he.2
      cases hup : prepareAndUploadFile lib srv w1.d.filepath job.headers
          job.presignedUrl job.jobId job.orgID job.correlationId w1 with
      | panic w2 =>
        rw [hup] at h hu
        simp only [Option.some.injEq] at h
        subst h
        exact Or.inl ⟨hu.1.trans h1d, hu.2.2.2.trans h1t⟩
      | ret v2 w2 =>
        rw [hup] at h hu
        simp only [Run.state] at hu
        have h2d : w2.d = w.d := hu.1.trans h1d
        have h2t : setIds w2.trace = setIds w.trace := hu.2.2.2.trans h1t
        obtain ⟨b, err⟩ := v2
        cases err with
        | some err =>
          simp only [Option.some.injEq] at h
          subst h
          exact Or.inl ⟨h2d, h2t⟩
        | none =>
          simp only at h
          cases hwt : createFlowWait lib srv cfg job.jobId fuel w2 with
          | none => rw [hwt] at h; cases h
          | some rw3 =>
            have hst := createFlowWait_state lib srv cfg job.jobId fuel w2 rw3 hwt
            rw [hwt] at h
            cases rw3 with
            | panic s =>
              simp only [Option.some.injEq] at h
              subst h
              exact Or.inl ⟨hst.1.trans h2d, hst.2.trans h2t⟩
            | ret ds s =>
              simp only [Run.state] at hst
              cases ds with
              | cons e es =>
                simp only [Option.some.injEq] at h
                subst h
                exact Or.inl ⟨hst.1.trans h2d, hst.2.trans h2t⟩
              | nil =>
                simp only at h
                by_cases hid : s.1 = ""
                · rw [if_pos hid] at h
                  simp only [Option.some.injEq] at h
                  subst h
                  exact Or.inl ⟨hst.1.trans h2d, hst.2.trans h2t⟩
                · rw [if_neg hid] at h
                  simp only [Option.some.injEq] at h
                  exact Or.inr ⟨s.2, s.1, hid, hst.1.trans h2d, hst.2.trans h2t, h.symm⟩

/-! ## The whole operation -/

/-- C2.  After a successful registration and upload, if the first `n` job-status
answers are not terminal, the next one is requested before the deadline
(`15 * n` seconds into a budget of 16 minutes) and has status `Success` with
flow id `F`, not empty, then the polling stage of `createFlow` ends without
diagnostics holding `F`, `createFlow` sets the identifier to `F` and goes on to
the final read, and at the end the identifier is `F` and was set exactly once. -/
theorem success_sets_flow_id (lib : Lib) (srv : Remote) (cfg : Configuration)
    (w w1 w2 : World) (job : Job) (body : Option Bytes) (n fuel : Nat)
    (flow : JSONObject) (F : String)
    (hsubmit : submitJob lib srv cfg w = .ret (.ok job) w1)
    (hupload : prepareAndUploadFile lib srv w1.d.filepath job.headers job.presignedUrl
      job.jobId job.orgID job.correlationId w1 = .ret (body, none) w2)
    (hwait : ∀ k, k < n → isTerminal (jobStatus lib (srv.status (w2.polls + k))) = false)
    (hdeadline : 15 * n < 16 * 60)
    (hstatus : (jobStatus lib (srv.status (w2.polls + n))).lookup "status"
      = some (.string "Success"))
    (hflow : (jobStatus lib (srv.status (w2.polls + n))).lookup "flow" = some (.object flow))
    (hid : flow.lookup "id" = some (.string F)) (hF : F ≠ "")
    (hfuel : n < fuel) :
    ∃ w3, createFlowWait lib srv cfg job.jobId fuel w2 = some (.ret [] (F, w3))
      ∧ createFlow lib srv cfg fuel w = some (readFlow lib srv cfg (w3.SetId F))
      ∧ (w3.SetId F).d.id = F
      ∧ (readFlow lib srv cfg (w3.SetId F)).state.d.id = F
      ∧ setIds (readFlow lib srv cfg (w3.SetId F)).state.trace = setIds w.trace ++ [F] := by
  have hw := createFlowWait_success lib srv cfg job.jobId n fuel w2 flow F hwait hdeadline
    hfuel hstatus hflow hid
  refine ⟨(pollWait cfg job.jobId n w2).getStatus cfg job.jobId, hw, ?_, rfl, ?_, ?_⟩
  · simp [createFlow, hsubmit, hupload, hw, hF]
  · rw [readFlow_state]; rfl
  · have h1 : w1 = w.emit (Event.callAPI jobsPath "POST" (headerParams cfg)) := by
      have := submitJob_state lib srv cfg w
      rw [hsubmit] at this
      exact this
    have h2 := prepareAndUploadFile_state lib srv w1.d.filepath job.headers job.presignedUrl
      job.jobId job.orgID job.correlationId w1
    rw [hupload] at h2
    have h3 := (pollWait_facts cfg job.jobId n w2).2.2.2
    have h4 : setIds w2.trace = setIds w.trace := by
      have := h2.2.2.2
      simp only [Run.state] at this
      rw [this, h1]
      simp [World.emit, setIds_append, setIds]
    rw [readFlow_state]
    simp [World.emit, World.SetId, World.getStatus, setIds_append, setIds, h3, h4]

/-- C2 on scenario A: three answers `InProgress`, then `Success` with flow `F1`. -/
theorem success_sets_flow_id_witness :
    ∃ w3, createFlowWait sampleLib scenarioA sampleConfig "J1" 4 w0Uploaded
        = some (.ret [] ("F1", w3))
      ∧ createFlow sampleLib scenarioA sampleConfig 4 w0
        = some (readFlow sampleLib scenarioA sampleConfig (w3.SetId "F1"))
      ∧ (w3.SetId "F1").d.id = "F1"
      ∧ (readFlow sampleLib scenarioA sampleConfig (w3.SetId "F1")).state.d.id = "F1"
      ∧ setIds (readFlow sampleLib scenarioA sampleConfig (w3.SetId "F1")).state.trace
        = setIds w0.trace ++ ["F1"] :=
  success_sets_flow_id sampleLib scenarioA sampleConfig w0 w0Registered w0Uploaded sampleJob
    (some []) 3 4 [("id", .string "F1")] "F1" rfl rfl
    (by intro k hk; interval_cases k <;> rfl) (by decide) rfl rfl rfl (by decide) (by decide)

/-- C6.  After a successful registration and upload, if each of the 64
job-status answers requested within the 16 minutes has status `InProgress`,
`createFlow` returns one diagnostic, the timeout report of the retry helper; its
text names the job id, the clock stands at the deadline, and the identifier
was never set. -/
theorem in_progress_until_deadline_times_out (lib : Lib) (srv : Remote) (cfg : Configuration)
    (w w1 w2 : World) (job : Job) (body : Option Bytes) (fuel : Nat)
    (hsubmit : submitJob lib srv cfg w = .ret (.ok job) w1)
    (hupload : prepareAndUploadFile lib srv w1.d.filepath job.headers job.presignedUrl
      job.jobId job.orgID job.correlationId w1 = .ret (body, none) w2)
    (hprogress : ∀ k, k < 64 → (jobStatus lib (srv.status (w2.polls + k))).lookup "status"
      = some (.string "InProgress"))
    (hfuel : 64 ≤ fuel) :
    ∃ d w3, createFlow lib srv cfg fuel w = some (.ret [d] w3)
      ∧ d.Timeout = true
      ∧ Mentions d.Summary job.jobId
      ∧ w3.now = w.now + 16 * 60
      ∧ w3.d = w.d
      ∧ setIds w3.trace = setIds w.trace := by
  have hk : ∀ k, k < 64 → isTerminal (jobStatus lib (srv.status (w2.polls + k))) = false :=
    fun k hlt => isTerminal_of_status _ _ (hprogress k hlt) (by decide) (by decide)
  have hw := createFlowWait_timeout lib srv cfg job.jobId fuel w2 hk hfuel
  have h1 : w1 = w.emit (Event.callAPI jobsPath "POST" (headerParams cfg)) := by
    have := submitJob_state lib srv cfg w
    rw [hsubmit] at this
    exact this
  have h2 := prepareAndUploadFile_state lib srv w1.d.filepath job.headers job.presignedUrl
    job.jobId job.orgID job.correlationId w1
  rw [hupload] at h2
  obtain ⟨hd, hn, -, ht⟩ := h2
  simp only [Run.state] at hd hn ht
  obtain ⟨pn, -, pd, pt⟩ := pollWait_facts cfg job.jobId 64 w2
  refine ⟨{ Summary := "Job (" ++ job.jobId ++ ") is still in progress.", Timeout := true },
    pollWait cfg job.jobId 64 w2, ?_, rfl, mentions_middle _ _ _, ?_, ?_, ?_⟩
  · simp [createFlow, hsubmit, hupload, hw]
  · rw [pn, hn, h1]; rfl
  · rw [pd, hd, h1]; rfl
  · rw [pt, ht, h1]; simp [World.emit, setIds_append, setIds]

/-- C6 on scenario C. -/
theorem in_progress_until_deadline_times_out_witness :
    ∃ d w3, createFlow sampleLib scenarioC sampleConfig 64 w0 = some (.ret [d] w3)
      ∧ d.Timeout = true
      ∧ Mentions d.Summary "J1"
      ∧ w3.now = w0.now + 16 * 60
      ∧ w3.d = w0.d
      ∧ setIds w3.trace = setIds w0.trace :=
  in_progress_until_deadline_times_out sampleLib scenarioC sampleConfig w0 w0Registered
    w0Uploaded sampleJob (some []) 64 rfl rfl (fun _ _ => rfl) (by decide)

/-- C5, as the code has it.  First, in every execution of `createFlow` that
produces an outcome, either the resource data and the assigned identifiers are
as before, or one identifier, not empty, was assigned and the outcome is the
outcome of the final read; so an error from the registration, the upload or
the polling (a `Failure` status, a timeout) leaves the identifier unassigned,
while an error of the final read comes with the identifier set.  Second, after a
successful registration and upload, if the job-status answers before the first
`Failure` are not terminal, `createFlow` fails (with diagnostics or a panic)
and assigns no identifier. -/
theorem errors_before_read_assign_no_id :
    (∀ (lib : Lib) (srv : Remote) (cfg : Configuration) (fuel : Nat) (w : World)
        (r : Run World Diagnostics),
        createFlow lib srv cfg fuel w = some r →
        (r.state.d = w.d ∧ setIds r.state.trace = setIds w.trace)
          ∨ ∃ (w3 : World) (F : String), F ≠ "" ∧ w3.d = w.d
              ∧ setIds w3.trace = setIds w.trace ∧ r = readFlow lib srv cfg (w3.SetId F))
    ∧ (∀ (lib : Lib) (srv : Remote) (cfg : Configuration) (w w1 w2 : World) (job : Job)
        (body : Option Bytes) (n fuel : Nat),
        submitJob lib srv cfg w = .ret (.ok job) w1 →
        prepareAndUploadFile lib srv w1.d.filepath job.headers job.presignedUrl
          job.jobId job.orgID job.correlationId w1 = .ret (body, none) w2 →
        (∀ k, k < n → isTerminal (jobStatus lib (srv.status (w2.polls + k))) = false) →
        (jobStatus lib (srv.status (w2.polls + n))).lookup "status"
          = some (.string "Failure") →
        n < fuel →
        ∃ r, createFlow lib srv cfg fuel w = some r ∧ r.Failed
          ∧ r.state.d = w.d ∧ setIds r.state.trace = setIds w.trace) := by
  refine ⟨createFlow_assigns_only_before_read, ?_⟩
  intro lib srv cfg w w1 w2 job body n fuel hsubmit hupload hwait hfail hfuel
  have hstage : ∃ rw, createFlowWait lib srv cfg job.jobId fuel w2 = some rw
      ∧ ((∃ e s, rw = .ret [e] s) ∨ ∃ s, rw = .panic s) := by
    by_cases hd : 15 * n < 16 * 60
    · rcases createFlowWait_failure lib srv cfg job.jobId n fuel w2 hwait hd hfuel hfail with
        ⟨e, s, h⟩ | ⟨s, h⟩
      · exact ⟨_, h, Or.inl ⟨e, s, rfl⟩⟩
      · exact ⟨_, h, Or.inr ⟨s, rfl⟩⟩
    · exact ⟨_, createFlowWait_timeout lib srv cfg job.jobId fuel w2
        (fun k hlt => hwait k (by omega)) (by omega), Or.inl ⟨_, _, rfl⟩⟩
  obtain ⟨rw, hw, hshape⟩ := hstage
  have hst := createFlowWait_state lib srv cfg job.jobId fuel w2 rw hw
  have h1 : w1 = w.emit (Event.callAPI jobsPath "POST" (headerParams cfg)) := by
    have := submitJob_state lib srv cfg w
    rw [hsubmit] at this
    exact this
  have h2 := prepareAndUploadFile_state lib srv w1.d.filepath job.headers job.presignedUrl
    job.jobId job.orgID job.correlationId w1
  rw [hupload] at h2
  obtain ⟨hd2, -, -, ht2⟩ := h2
  simp only [Run.state] at hd2 ht2
  have hd1 : w1.d = w.d := by rw [h1]; rfl
  have ht1 : setIds w1.trace = setIds w.trace := by
    rw [h1]; simp [World.emit, setIds_append, setIds]
  rcases hshape with ⟨e, s, rfl⟩ | ⟨s, rfl⟩
  · refine ⟨.ret [e] s.2, ?_, ?_, hst.1.trans (hd2.trans hd1), hst.2.trans (ht2.trans ht1)⟩
    · simp [createFlow, hsubmit, hupload, hw]
    · simp [Run.Failed]
  · refine ⟨.panic s.2, ?_, trivial, hst.1.trans (hd2.trans hd1), hst.2.trans (ht2.trans ht1)⟩
    simp [createFlow, hsubmit, hupload, hw]

/-- C5 on scenario B, where the first answer is `Failure` with exit code 2, and
on a job that answers `InProgress` twice before the `Failure`. -/
theorem errors_before_read_assign_no_id_witness :
    (∃ r, createFlow sampleLib scenarioB sampleConfig 1 w0 = some r ∧ r.Failed
      ∧ r.state.d = w0.d ∧ setIds r.state.trace = setIds w0.trace)
    ∧ (isTerminal (jobStatus sampleLib (laterFailure.status 0)) = false
      ∧ isTerminal (jobStatus sampleLib (laterFailure.status 1)) = false
      ∧ (jobStatus sampleLib (laterFailure.status 2)).lookup "status" = some (.string "Failure")
      ∧ ∃ r, createFlow sampleLib laterFailure sampleConfig 3 w0 = some r ∧ r.Failed
        ∧ r.state.d = w0.d ∧ setIds r.state.trace = setIds w0.trace) :=
  ⟨errors_before_read_assign_no_id.2 sampleLib scenarioB sampleConfig w0 w0Registered
      w0Uploaded sampleJob (some []) 0 1 rfl rfl (fun _ hk => absurd hk (by omega)) rfl
      (by decide),
    rfl, rfl, rfl,
    errors_before_read_assign_no_id.2 sampleLib laterFailure sampleConfig w0 w0Registered
      w0Uploaded sampleJob (some []) 2 3 rfl rfl
      (fun k hk => match k, hk with
        | 0, _ => rfl
        | 1, _ => rfl)
      rfl (by decide)⟩

/-- C5 as stated fails.  When the job succeeds and the final read is answered
with a body that does not decode (status 200, an HTML page), `createFlow`
returns the error of the read, and the identifier was assigned before: it is
`F1`. -/
theorem read_error_leaves_id_assigned :
    readUndecodable.flow = .answered (okResponse "<html>")
    ∧ (okResponse "<html>").Error = none
    ∧ ∃ d w3, createFlow sampleLib readUndecodable sampleConfig 1 w0 = some (.ret [d] w3)
        ∧ d.Summary
          = "Failed to unmarshal response after registering the Archy job. invalid character"
        ∧ w3.d.id = "F1" ∧ setIds w3.trace = ["F1"] :=
  ⟨rfl, rfl, _, _, rfl, rfl, rfl, rfl⟩

/-- C4 on the code.  On a `Success` answer with an empty flow id `updateFlow`
calls `d.SetId` with the empty text and ends without error, where `createFlow`
stops with an error before any assignment. -/
theorem updateFlow_assigns_empty_id :
    (∃ w3, updateFlow sampleLib emptyIdRemote sampleConfig 1 w0 = some (.ret [] w3)
      ∧ setIds w3.trace = [""] ∧ w3.d.id = "")
    ∧ (∃ w3, createFlow sampleLib emptyIdRemote sampleConfig 1 w0
        = some (.ret (diagErrorf "The Architect Job (J1) timed out.") w3)
      ∧ setIds w3.trace = []) :=
  ⟨⟨_, rfl, rfl, rfl⟩, ⟨_, rfl, rfl⟩⟩

/-- C9 on the code.  When the registration POST fails at transport level,
`createFlow` returns no diagnostic: the payload map stays empty and the
unchecked read of `presignedUrl` panics, right after the POST, with no upload
and no job-status request; the two other failures of the registration return
an error diagnostic. -/
theorem register_transport_failure_panics :
    (∀ fuel, createFlow sampleLib registerDown sampleConfig fuel w0
      = some (.panic w0Registered))
    ∧ uploads w0Registered.trace = [] ∧ w0Registered.polls = 0
    ∧ (∀ fuel, createFlow sampleLib
        { registerDown with register := .answered errorResponse } sampleConfig fuel w0
      = some (.ret (diagErrorf "Failed to register Archy job. %!s(<nil>)") w0Registered))
    ∧ (∀ fuel, createFlow sampleLib
        { registerDown with register := .answered (okResponse "<html>") } sampleConfig fuel w0
      = some (.ret (diagErrorf
          "Failed to unmarshal response after registering the Archy job. invalid character")
          w0Registered)) :=
  ⟨fun _ => rfl, rfl, rfl, fun _ => rfl, fun _ => rfl⟩

/-- C10.  After a successful registration, when the file is read, the request
is built and the storage PUT answers with a status other than 200,
`prepareAndUploadFile` returns an error and no bytes, and `createFlow` returns
the diagnostic made of that error; no job-status request was issued, nothing
was slept and no identifier assigned. -/
theorem upload_status_not_ok (lib : Lib) (srv : Remote) (cfg : Configuration)
    (w w1 : World) (job : Job) (content : Bytes) (header : List (String × String))
    (resp : HTTPResponse)
    (hsubmit : submitJob lib srv cfg w = .ret (.ok job) w1)
    (hfile : srv.file w1.d.filepath = .content content)
    (hurl : lib.newRequestOk job.presignedUrl = true)
    (hheader : setHeaders lib job.headers [] = some header)
    (hput : srv.put.resp = some resp)
    (hstatus : resp.StatusCode ≠ 200) :
    prepareAndUploadFile lib srv w1.d.filepath job.headers job.presignedUrl job.jobId
        job.orgID job.correlationId w1
      = .ret (none, some ("Failed to upload flow configuration file to S3 bucket. Error: "
          ++ fmtS srv.put.err ++ " "))
          (w1.emit (Event.httpDo "PUT" job.presignedUrl header content))
    ∧ (∀ fuel, createFlow lib srv cfg fuel w
      = some (.ret (diagErrorf (lib.sprintf
          ("Failed to upload flow configuration file to S3 bucket. Error: "
            ++ fmtS srv.put.err ++ " ")))
          (w1.emit (Event.httpDo "PUT" job.presignedUrl header content))))
    ∧ (w1.emit (Event.httpDo "PUT" job.presignedUrl header content)).polls = w.polls
    ∧ sleeps (w1.emit (Event.httpDo "PUT" job.presignedUrl header content)).trace
        = sleeps w.trace
    ∧ setIds (w1.emit (Event.httpDo "PUT" job.presignedUrl header content)).trace
        = setIds w.trace := by
  have hup : prepareAndUploadFile lib srv w1.d.filepath job.headers job.presignedUrl job.jobId
        job.orgID job.correlationId w1
      = .ret (none, some ("Failed to upload flow configuration file to S3 bucket. Error: "
          ++ fmtS srv.put.err ++ " "))
          (w1.emit (Event.httpDo "PUT" job.presignedUrl header content)) := by
    simp [prepareAndUploadFile, hfile, hurl, hheader, hput, hstatus]
  have h1 : w1 = w.emit (Event.callAPI jobsPath "POST" (headerParams cfg)) := by
    have := submitJob_state lib srv cfg w
    rw [hsubmit] at this
    exact this
  refine ⟨hup, ?_, ?_, ?_, ?_⟩
  · intro fuel
    simp [createFlow, hsubmit, hup]
  · rw [h1]; rfl
  · rw [h1]; simp [World.emit, sleeps_append, sleeps]
  · rw [h1]; simp [World.emit, setIds_append, setIds]

/-- C10 on scenario D: the storage PUT answers 403. -/
theorem upload_status_not_ok_witness :
    prepareAndUploadFile sampleLib scenarioD "flow.yaml" sampleJob.headers "https://x" "J1"
        "org1" "c1" w0Registered
      = .ret (none, some
          "Failed to upload flow configuration file to S3 bucket. Error: %!s(<nil>) ")
          w0Uploaded
    ∧ createFlow sampleLib scenarioD sampleConfig 1 w0
      = some (.ret (diagErrorf
          "Failed to upload flow configuration file to S3 bucket. Error: %!!(MISSING)s(<nil>) ")
          w0Uploaded)
    ∧ w0Uploaded.polls = w0.polls :=
  have h := upload_status_not_ok sampleLib scenarioD sampleConfig w0 w0Registered sampleJob
    [102, 108, 111, 119] [("X-Amz-Meta-Organizationid", "org1")]
    { StatusCode := 403, Body := .ok [] } rfl rfl rfl rfl rfl (by decide)
  ⟨h.1, h.2.1 1, h.2.2.1⟩

/-! ## Requests: headers and URLs -/

theorem lookup_cons_ne {α : Type} (es : List (String × α)) (a k1 : String) (b : α)
    (h : k1 ≠ a) : ((a, b) :: es).lookup k1 = es.lookup k1 := by
  have hb : (k1 == a) = false := by simpa using h
  rw [List.lookup_cons, hb]

theorem lookup_filter_ne {α : Type} (k k1 : String) (h : k1 ≠ k) :
    ∀ m : List (String × α), (m.filter (fun e => e.1 != k)).lookup k1 = m.lookup k1 := by
  intro m
  induction m with
  | nil => rfl
  | cons e es ih =>
    obtain ⟨a, b⟩ := e
    by_cases hak : a = k
    · subst hak
      have hf : ((a, b).1 != a) = false := by simp
      rw [List.filter_cons, hf, lookup_cons_ne es a k1 b h]
      simpa using ih
    · have hne : ((a, b).1 != k) = true := by simpa using hak
      rw [List.filter_cons, hne]
      simp only [if_true]
      by_cases h1 : k1 = a
      · subst h1
        simp
      · rw [lookup_cons_ne _ a k1 b h1, lookup_cons_ne _ a k1 b h1, ih]

theorem lookup_mapSet {α : Type} (m : List (String × α)) (k k1 : String) (v : α) :
    (mapSet m k v).lookup k1 = if k1 = k then some v else m.lookup k1 := by
  unfold mapSet
  by_cases h : k1 = k
  · subst h
    simp
  · rw [lookup_cons_ne _ k k1 v h, if_neg h, lookup_filter_ne k k1 h]

theorem lookup_of_mem {α : Type} (D : List (String × α)) (e : String × α) (h : e ∈ D) :
    ∃ v, D.lookup e.1 = some v := by
  have : (D.lookup e.1).isSome = true := by
    rw [List.lookup_isSome_iff]
    exact ⟨e, h, by simp⟩
  exact Option.isSome_iff_exists.mp this

theorem lookup_copy (D : List (String × String)) (k : String) :
    ∀ (L hp : List (String × String)), (∀ e, e ∈ L → e ∈ D) →
      (L.foldl (fun hp kv => mapSet hp kv.1 ((D.lookup kv.1).getD "")) hp).lookup k
        = if k ∈ L.map Prod.fst then D.lookup k else hp.lookup k := by
  intro L
  induction L with
  | nil => intro hp _; simp
  | cons e es ih =>
    intro hp hsub
    rw [List.foldl_cons, ih _ (fun x hx => hsub x (List.mem_cons_of_mem _ hx))]
    by_cases hes : k ∈ es.map Prod.fst
    · have : k ∈ (e :: es).map Prod.fst := by
        rw [List.map_cons]; exact List.mem_cons_of_mem _ hes
      rw [if_pos hes, if_pos this]
    · rw [if_neg hes, lookup_mapSet]
      by_cases hk : k = e.1
      · have hmem : k ∈ (e :: es).map Prod.fst := by
          rw [List.map_cons, hk]; exact List.mem_cons_self _ _
        rw [if_pos hk, if_pos hmem, hk]
        obtain ⟨v, hv⟩ := lookup_of_mem D e (hsub e (List.mem_cons_self _ _))
        rw [hv]; rfl
      · have hmem : ¬ k ∈ (e :: es).map Prod.fst := by
          rw [List.map_cons, List.mem_cons]
          rintro (h | h)
          · exact hk h
          · exact hes h
        rw [if_neg hk, if_neg hmem]

theorem lookup_defaults (D : List (String × String)) (k : String) :
    (D.foldl (fun hp kv => mapSet hp kv.1 ((D.lookup kv.1).getD "")) []).lookup k
      = D.lookup k := by
  rw [lookup_copy D k D [] (fun _ h => h)]
  by_cases hk : k ∈ D.map Prod.fst
  · rw [if_pos hk]
  · rw [if_neg hk]
    symm
    show List.lookup k D = none
    rw [List.lookup_eq_none_iff]
    intro p hp
    have : k ≠ p.1 := fun h => hk (h ▸ List.mem_map_of_mem Prod.fst hp)
    simpa using this

/-- C13.  The header map that `createFlow` builds (lines 85-94), for every
default-header map and access token: `Authorization` is `Bearer ` followed by
the token, `Content-Type` and `Accept` are `application/json`, whatever the
default headers say under these names, and every other name reads as in the
default headers.  This map is the one sent with the registration request and
with every job-status request. -/
theorem header_params_fixed_and_defaults (cfg : Configuration) :
    (headerParams cfg).lookup "Authorization" = some ("Bearer " ++ cfg.AccessToken)
      ∧ (headerParams cfg).lookup "Content-Type" = some "application/json"
      ∧ (headerParams cfg).lookup "Accept" = some "application/json"
      ∧ (∀ k, k ≠ "Authorization" → k ≠ "Content-Type" → k ≠ "Accept" →
          (headerParams cfg).lookup k = cfg.DefaultHeader.lookup k)
      ∧ (∀ (lib : Lib) (srv : Remote) (w : World), (submitJob lib srv cfg w).state.trace
          = w.trace ++ [Event.callAPI jobsPath "POST" (headerParams cfg)])
      ∧ (∀ (jobId : String) (w : World), (w.getStatus cfg jobId).trace
          = w.trace ++ [Event.callAPI (jobsPath ++ "/" ++ jobId) "GET" (headerParams cfg)]) := by
  refine ⟨?_, ?_, ?_, ?_, ?_, ?_⟩
  · simp [headerParams, lookup_mapSet]
  · simp [headerParams, lookup_mapSet]
  · simp [headerParams, lookup_mapSet]
  · intro k h1 h2 h3
    simp only [headerParams, lookup_mapSet, if_neg h1, if_neg h2, if_neg h3]
    exact lookup_defaults cfg.DefaultHeader k
  · intro lib srv w
    rw [submitJob_state]; rfl
  · intro jobId w; rfl

/-- C13, for default headers that define `Accept` and `X-Trace`. -/
theorem header_params_fixed_and_defaults_witness :
    (headerParams tracedConfig).lookup "Accept" = some "application/json"
      ∧ (headerParams tracedConfig).lookup "X-Trace" = some "1" :=
  have h := header_params_fixed_and_defaults tracedConfig
  ⟨h.2.2.1, h.2.2.2.1 "X-Trace" (by decide) (by decide) (by decide)⟩

/-- C11 on the code.  When the storage PUT fails at transport level (an error,
no response), `prepareAndUploadFile` returns nothing: the deferred
`resp.Body.Close()` reads the missing response before the error is looked at,
and `createFlow` panics with it, after the PUT and before any job-status
request. -/
theorem upload_transport_failure_panics :
    putDown.put.resp = none
    ∧ putDown.put.err = some "dial tcp: connection refused"
    ∧ prepareAndUploadFile sampleLib putDown "flow.yaml" sampleJob.headers "https://x" "J1"
        "org1" "c1" w0Registered = .panic w0Uploaded
    ∧ (∀ fuel, createFlow sampleLib putDown sampleConfig fuel w0 = some (.panic w0Uploaded))
    ∧ w0Uploaded.polls = 0 :=
  ⟨rfl, rfl, rfl, fun _ => rfl, rfl⟩

/-- C15 on the code.  The registration URL and the job-status URL of
`createFlow` and `updateFlow` are the literal `http://localhost:8080` paths:
they do not depend on the client configuration, so two configurations with
different base paths send the same requests, while the final read of
`readFlow` does follow the base path. -/
theorem job_urls_are_literal :
    (∀ (lib : Lib) (srv : Remote) (cfg : Configuration) (w : World),
        callPaths (submitJob lib srv cfg w).state.trace
          = callPaths w.trace ++ ["http://localhost:8080/api/v2/flows/jobs"])
    ∧ (∀ (cfg : Configuration) (jobId : String) (w : World),
        callPaths (w.getStatus cfg jobId).trace
          = callPaths w.trace ++ ["http://localhost:8080/api/v2/flows/jobs" ++ "/" ++ jobId])
    ∧ sampleConfig.BasePath ≠ otherConfig.BasePath
    ∧ (∃ r1 r2, createFlow sampleLib scenarioB sampleConfig 1 w0 = some r1
        ∧ createFlow sampleLib scenarioB otherConfig 1 w0 = some r2
        ∧ callPaths r1.state.trace = ["http://localhost:8080/api/v2/flows/jobs",
            "http://localhost:8080/api/v2/flows/jobs/J1"]
        ∧ callPaths r2.state.trace = callPaths r1.state.trace)
    ∧ (∃ r1 r2, updateFlow sampleLib scenarioB sampleConfig 1 w0 = some r1
        ∧ updateFlow sampleLib scenarioB otherConfig 1 w0 = some r2
        ∧ callPaths r1.state.trace = ["http://localhost:8080/api/v2/flows/jobs",
            "http://localhost:8080/api/v2/flows/jobs/J1"]
        ∧ callPaths r2.state.trace = callPaths r1.state.trace)
    ∧ callPaths (readFlow sampleLib scenarioB sampleConfig w0).state.trace
        = ["https://api.example/api/v2/flows/"]
    ∧ callPaths (readFlow sampleLib scenarioB otherConfig w0).state.trace
        = ["https://api.mypurecloud.de/api/v2/flows/"] := by
  have happ : ∀ (xs : List Event) (p m : String) (h : List (String × String)),
      callPaths (xs ++ [Event.callAPI p m h]) = callPaths xs ++ [p] := by
    intro xs p m h
    induction xs with
    | nil => rfl
    | cons e es ih => cases e <;> simp [callPaths, ih]
  refine ⟨?_, ?_, by decide, ⟨_, _, rfl, rfl, rfl, rfl⟩, ⟨_, _, rfl, rfl, rfl, rfl⟩, rfl, rfl⟩
  · intro lib srv cfg w
    rw [submitJob_state]
    exact happ _ _ _ _
  · intro cfg jobId w
    exact happ _ _ _ _

/-- C19 on the code.  When the GET of `readFlow` fails at transport level,
`readFlow` returns no diagnostic, that is, success; an API error in the
response and an undecodable body do give an error diagnostic. -/
theorem readFlow_swallows_transport_failure :
    readDown.flow = .failed "connection refused"
    ∧ (∃ w1, readFlow sampleLib readDown sampleConfig w0 = .ret [] w1)
    ∧ (∃ w1, readFlow sampleLib readFails sampleConfig w0
        = .ret (diagErrorf "Failed to register Archy job. %!s(<nil>)") w1)
    ∧ (∃ w1, readFlow sampleLib
          (sampleRemote (fun _ => successF1) (.answered (okResponse "<html>"))) sampleConfig w0
        = .ret (diagErrorf
          "Failed to unmarshal response after registering the Archy job. invalid character") w1)
    ∧ (∃ w1, createFlow sampleLib readDown sampleConfig 1 w0 = some (.ret [] w1)) :=
  ⟨rfl, ⟨_, rfl⟩, ⟨_, rfl⟩, ⟨_, rfl⟩, ⟨_, rfl⟩⟩

/-! ## The upload headers -/

theorem setHeaders_lookup (lib : Lib) :
    ∀ (headers : JSONObject) (acc : List (String × String)),
      (∀ e, e ∈ headers → ∃ s, e.2 = JSONValue.string s) →
      (canonicalNames lib headers).Nodup →
      ∃ header, setHeaders lib headers acc = some header
        ∧ (∀ k s, (k, JSONValue.string s) ∈ headers →
            header.lookup (lib.canonicalHeaderKey k) = some s)
        ∧ (∀ k1, k1 ∉ canonicalNames lib headers → header.lookup k1 = acc.lookup k1) := by
  intro headers
  induction headers with
  | nil =>
    intro acc _ _
    exact ⟨acc, rfl, fun k s h => absurd h (List.not_mem_nil _), fun _ _ => rfl⟩
  | cons e rest ih =>
    intro acc hstr hnodup
    obtain ⟨k, v⟩ := e
    obtain ⟨s, hs⟩ := hstr (k, v) (List.mem_cons_self _ _)
    simp only at hs
    subst hs
    have hnd : lib.canonicalHeaderKey k ∉ canonicalNames lib rest
        ∧ (canonicalNames lib rest).Nodup := by
      simpa [canonicalNames] using hnodup
    obtain ⟨header, hset, hin, hout⟩ := ih (mapSet acc (lib.canonicalHeaderKey k) s)
      (fun e he => hstr e (List.mem_cons_of_mem _ he)) hnd.2
    refine ⟨header, ?_, ?_, ?_⟩
    · simp [setHeaders, assertString, hset]
    · intro k1 s1 hmem
      rcases List.mem_cons.mp hmem with heq | hrest
      · cases heq
        rw [hout _ hnd.1, lookup_mapSet, if_pos rfl]
      · exact hin k1 s1 hrest
    · intro k1 hk1
      have hk1' : k1 ≠ lib.canonicalHeaderKey k ∧ k1 ∉ canonicalNames lib rest := by
        simpa [canonicalNames, not_or] using hk1
      rw [hout k1 hk1'.2, lookup_mapSet, if_neg hk1'.1]

/-- C12, as the code has it.  For a header map whose values are all strings and
whose names have pairwise different canonical forms, the PUT request of
`prepareAndUploadFile` carries, for each entry, the value unchanged under the
name in the canonical form that `http.Header.Set` gives it, and no header
under any other name; a name that is its own canonical form is kept. -/
theorem upload_headers_are_canonical_names (lib : Lib) (headers : JSONObject)
    (hstrings : ∀ e, e ∈ headers → ∃ s, e.2 = JSONValue.string s)
    (hdistinct : (canonicalNames lib headers).Nodup) :
    ∃ header, setHeaders lib headers [] = some header
      ∧ (∀ k s, (k, JSONValue.string s) ∈ headers →
          header.lookup (lib.canonicalHeaderKey k) = some s)
      ∧ (∀ k s, (k, JSONValue.string s) ∈ headers → lib.canonicalHeaderKey k = k →
          header.lookup k = some s)
      ∧ (∀ k1, k1 ∉ canonicalNames lib headers → header.lookup k1 = none)
      ∧ (∀ (srv : Remote) (filename url jobId orgId correlationId : String) (body : Bytes)
          (w : World), srv.file filename = .content body → lib.newRequestOk url = true →
          (prepareAndUploadFile lib srv filename headers url jobId orgId correlationId w).state.trace
            = w.trace ++ [Event.httpDo "PUT" url header body]) := by
  obtain ⟨header, hset, hin, hout⟩ := setHeaders_lookup lib headers [] hstrings hdistinct
  refine ⟨header, hset, hin, ?_, ?_, ?_⟩
  · intro k s hmem hk
    have := hin k s hmem
    rwa [hk] at this
  · intro k1 hk1
    rw [hout k1 hk1]; rfl
  · intro srv filename url jobId orgId correlationId body w hfile hurl
    unfold prepareAndUploadFile
    simp only [hfile, hurl, if_true, hset]
    repeat' split
    all_goals rfl

/-- C12 on the header map of scenario A. -/
theorem upload_headers_are_canonical_names_witness :
    ∃ header, setHeaders sampleLib sampleJob.headers [] = some header
      ∧ header.lookup "X-Amz-Meta-Organizationid" = some "org1"
      ∧ header.lookup "Content-Type" = none :=
  have h := upload_headers_are_canonical_names sampleLib sampleJob.headers
    (by
      intro e he
      simp only [sampleJob, List.mem_singleton] at he
      exact ⟨"org1", by rw [he]⟩)
    (by simp [canonicalNames, sampleJob])
  h.elim fun header hh =>
    ⟨header, hh.1, hh.2.1 "x-amz-meta-organizationid" "org1" (List.mem_cons_self _ _),
      hh.2.2.2.1 "Content-Type" (by
        simp only [canonicalNames, sampleJob, List.map_cons, List.map_nil, List.mem_singleton]
        decide)⟩

/-- C12 as stated fails.  The name `x-amz-meta-organizationid` of the
registration answer is sent as `X-Amz-Meta-Organizationid`, so the request has
no header under the name the map has; and a map with a value that is not a
string builds no request at all, the type assertion panics. -/
theorem upload_header_names_are_rewritten :
    sampleJob.headers.lookup "x-amz-meta-organizationid" = some (.string "org1")
    ∧ setHeaders sampleLib sampleJob.headers [] = some [("X-Amz-Meta-Organizationid", "org1")]
    ∧ uploads (prepareAndUploadFile sampleLib scenarioA "flow.yaml" sampleJob.headers
        "https://x" "J1" "org1" "c1" w0Registered).state.trace
      = [Event.httpDo "PUT" "https://x" [("X-Amz-Meta-Organizationid", "org1")]
          [102, 108, 111, 119]]
    ∧ ([("X-Amz-Meta-Organizationid", "org1")] : List (String × String)).lookup
        "x-amz-meta-organizationid" = none
    ∧ setHeaders sampleLib numericHeaders [] = none
    ∧ prepareAndUploadFile sampleLib scenarioA "flow.yaml" numericHeaders
        "https://x" "J1" "org1" "c1" w0Registered = .panic w0Registered :=
  ⟨rfl, rfl, rfl, rfl, rfl, rfl⟩

/-! ## Update against create -/

theorem updateFlowPoll_eq (lib : Lib) (srv : Remote) (cfg : Configuration) (jobId : String)
    (w : World) :
    match createFlowPoll lib srv cfg jobId ("", w) with
    | .panic s => updateFlowPoll lib srv cfg jobId w = .panic s.2 ∧ s.1 = ""
    | .ret none s => updateFlowPoll lib srv cfg jobId w = .ret none (s.2.SetId s.1)
    | .ret (some e) s => updateFlowPoll lib srv cfg jobId w = .ret (some e) s.2 ∧ s.1 = "" := by
  cases hF : ifaceEqString ((jobStatus lib (srv.status w.polls)).lookup "status") "Failure"
  · cases hS : ifaceEqString ((jobStatus lib (srv.status w.polls)).lookup "status") "Success"
    · simp [createFlowPoll, updateFlowPoll, hF, hS]
    · cases hm : assertMap ((jobStatus lib (srv.status w.polls)).lookup "flow") with
      | none => simp [createFlowPoll, updateFlowPoll, hF, hS, hm]
      | some flow =>
        cases hi : assertString (flow.lookup "id") <;>
          simp [createFlowPoll, updateFlowPoll, hF, hS, hm, hi]
  · cases hx : assertFloat64 ((jobStatus lib (srv.status w.polls)).lookup "exitCode") <;>
      simp [createFlowPoll, updateFlowPoll, hF, hx]

theorem retryLoop_update_eq (lib : Lib) (srv : Remote) (cfg : Configuration) (jobId : String)
    (deadline : Nat) :
    ∀ (fuel : Nat) (w : World),
      retryLoop (fun s => s.now) deadline (updateFlowPoll lib srv cfg jobId) fuel w
        = (retryLoop (fun s => s.2.now) deadline (createFlowPoll lib srv cfg jobId) fuel
            ("", w)).map updateOutcome := by
  intro fuel
  induction fuel with
  | zero => intro w; rfl
  | succ fuel ih =>
    intro w
    have h := updateFlowPoll_eq lib srv cfg jobId w
    rw [retryLoop, retryLoop]
    cases hc : createFlowPoll lib srv cfg jobId ("", w) with
    | panic s =>
      rw [hc] at h
      simp only at h
      rw [h.1]
      rfl
    | ret v s =>
      rw [hc] at h
      cases v with
      | none =>
        simp only at h
        rw [h]
        rfl
      | some e =>
        simp only at h
        obtain ⟨hu, hs⟩ := h
        rw [hu]
        obtain ⟨f, w1⟩ := s
        simp only at hs
        subst hs
        simp only
        by_cases hr : e.Retryable = true
        · simp only [hr, if_true]
          by_cases hd : deadline ≤ w1.now
          · simp only [hd, if_true]
            rfl
          · simp only [hd, if_false]
            exact ih w1
        · simp only [hr]
          rfl

theorem updateFlow_wait_eq (lib : Lib) (srv : Remote) (cfg : Configuration) (jobId : String)
    (fuel : Nat) (w : World) :
    withRetries (fun s => s.now) (16 * 60) (updateFlowPoll lib srv cfg jobId) fuel w
      = (createFlowWait lib srv cfg jobId fuel w).map updateOutcome :=
  retryLoop_update_eq lib srv cfg jobId _ fuel w

/-- The two operations on one input: both run out of fuel, or both end, and
then with the same outcome unless the polling ended on a `Success` with an
empty flow id. -/
theorem updateFlow_against_createFlow (lib : Lib) (srv : Remote) (cfg : Configuration)
    (fuel : Nat) (w : World) :
    (createFlow lib srv cfg fuel w = none ∧ updateFlow lib srv cfg fuel w = none)
      ∨ (∃ r, createFlow lib srv cfg fuel w = some r ∧ updateFlow lib srv cfg fuel w = some r)
      ∨ ∃ jobId w3, createFlow lib srv cfg fuel w
            = some (.ret (diagErrorf ("The Architect Job (" ++ jobId ++ ") timed out.")) w3)
          ∧ updateFlow lib srv cfg fuel w = some (readFlow lib srv cfg (w3.SetId "")) := by
  unfold createFlow updateFlow
  cases submitJob lib srv cfg w with
  | panic w1 => exact Or.inr (Or.inl ⟨_, rfl, rfl⟩)
  | ret v w1 =>
    cases v with
    | error ds => exact Or.inr (Or.inl ⟨_, rfl, rfl⟩)
    | ok job =>
      simp only
      cases prepareAndUploadFile lib srv w1.d.filepath job.headers job.presignedUrl job.jobId
          job.orgID job.correlationId w1 with
      | panic w2 => exact Or.inr (Or.inl ⟨_, rfl, rfl⟩)
      | ret v2 w2 =>
        obtain ⟨b, err⟩ := v2
        cases err with
        | some err => exact Or.inr (Or.inl ⟨_, rfl, rfl⟩)
        | none =>
          simp only
          rw [updateFlow_wait_eq]
          cases createFlowWait lib srv cfg job.jobId fuel w2 with
          | none => exact Or.inl ⟨rfl, rfl⟩
          | some rw3 =>
            cases rw3 with
            | panic s => exact Or.inr (Or.inl ⟨_, rfl, rfl⟩)
            | ret ds s =>
              cases ds with
              | cons e es => exact Or.inr (Or.inl ⟨_, rfl, rfl⟩)
              | nil =>
                by_cases hid : s.1 = ""
                · refine Or.inr (Or.inr ⟨job.jobId, s.2, ?_, ?_⟩)
                  · simp [hid]
                  · simp [Option.map, updateOutcome, hid]
                · refine Or.inr (Or.inl ⟨readFlow lib srv cfg (s.2.SetId s.1), ?_, ?_⟩)
                  · simp [hid]
                  · simp [Option.map, updateOutcome]

/-- C16 on the code.  On a `Success` answer with an empty flow id the two
operations part: `createFlow` fails with the error of line 162 and assigns
nothing, `updateFlow` succeeds and has set the identifier to the empty text.
On every other input they end with the same outcome and the same world. -/
theorem update_parts_from_create_on_empty_id :
    (∃ w3 w4, createFlow sampleLib emptyIdRemote sampleConfig 1 w0
          = some (.ret (diagErrorf "The Architect Job (J1) timed out.") w3)
        ∧ updateFlow sampleLib emptyIdRemote sampleConfig 1 w0 = some (.ret [] w4)
        ∧ setIds w3.trace = [] ∧ setIds w4.trace = [""])
    ∧ ∀ (lib : Lib) (srv : Remote) (cfg : Configuration) (fuel : Nat) (w : World),
        (createFlow lib srv cfg fuel w = none ∧ updateFlow lib srv cfg fuel w = none)
          ∨ (∃ r, createFlow lib srv cfg fuel w = some r
              ∧ updateFlow lib srv cfg fuel w = some r)
          ∨ ∃ jobId w3, createFlow lib srv cfg fuel w
                = some (.ret (diagErrorf ("The Architect Job (" ++ jobId ++ ") timed out.")) w3)
              ∧ updateFlow lib srv cfg fuel w = some (readFlow lib srv cfg (w3.SetId "")) :=
  ⟨⟨_, _, rfl, rfl, rfl, rfl⟩, updateFlow_against_createFlow⟩

/-! ## The content hash -/

theorem bigEndian_length : ∀ (n x : Nat), (bigEndian n x).length = n := by
  intro n
  induction n with
  | zero => intro x; rfl
  | succ n ih => intro x; simp [bigEndian, ih]

theorem bigEndian_lt : ∀ (n x v : Nat), v ∈ bigEndian n x → v < 256 := by
  intro n
  induction n with
  | zero => intro x v h; simp [bigEndian] at h
  | succ n ih =>
    intro x v h
    simp only [bigEndian, List.mem_cons] at h
    rcases h with h | h
    · rw [h]; exact Nat.mod_lt _ (by decide)
    · exact ih x v h

theorem sha256Blocks_add (n m : Nat) :
    ∀ (s : Sha256State) (data : Bytes),
      sha256Blocks (n + m) s data
        = sha256Blocks m (sha256Blocks n s data) (data.drop (64 * n)) := by
  induction n with
  | zero => intro s data; simp [sha256Blocks]
  | succ n ih =>
    intro s data
    have h : n + 1 + m = (n + m) + 1 := by omega
    rw [h]
    simp only [sha256Blocks]
    rw [ih, List.drop_drop]
    congr 2
    omega

theorem sha256Blocks_append (n : Nat) :
    ∀ (s : Sha256State) (a b : Bytes), 64 * n ≤ a.length →
      sha256Blocks n s (a ++ b) = sha256Blocks n s a := by
  induction n with
  | zero => intro s a b _; rfl
  | succ n ih =>
    intro s a b h
    simp only [sha256Blocks]
    rw [List.take_append_of_le_length (by omega), List.drop_append_of_le_length (by omega)]
    exact ih _ _ _ (by rw [List.length_drop]; omega)

theorem absorbed_new : Absorbed sha256New [] := ⟨rfl, rfl, rfl⟩

theorem absorbed_write (d : digest) (T p : Bytes) (h : Absorbed d T) :
    Absorbed (d.Write p) (T ++ p) := by
  obtain ⟨hh, hx, hlen⟩ := h
  have hxl : d.x.length = T.length % 64 := by
    rw [hx, List.length_drop]
    omega
  have hdata : (T ++ p).drop (64 * (T.length / 64)) = d.x ++ p := by
    rw [List.drop_append_of_le_length (by omega), hx]
  have hq : (T ++ p).length / 64 = T.length / 64 + (d.x ++ p).length / 64 := by
    simp only [List.length_append, hxl]
    omega
  refine ⟨?_, ?_, ?_⟩
  · show sha256Blocks ((d.x ++ p).length / 64) d.h (d.x ++ p) = _
    rw [hq, sha256Blocks_add, hdata,
      sha256Blocks_append (T.length / 64) sha256Init T p (by omega), hh]
  · show (d.x ++ p).drop (64 * ((d.x ++ p).length / 64)) = _
    rw [hq, ← hdata, List.drop_drop]
    congr 1
    omega
  · show (d.len + p.length) % 2 ^ 64 = _
    rw [hlen, List.length_append]
    omega

theorem absorbed_foldl (pieces : List Bytes) :
    ∀ (d : digest) (T : Bytes), Absorbed d T →
      Absorbed (pieces.foldl digest.Write d) (T ++ pieces.flatten) := by
  induction pieces with
  | nil => intro d T h; simpa using h
  | cons p ps ih =>
    intro d T h
    have := ih (d.Write p) (T ++ p) (absorbed_write d T p h)
    simpa [List.foldl_cons, List.flatten_cons, List.append_assoc] using this

theorem copyPieces_flatten (fuel : Nat) :
    ∀ data : Bytes, data.length ≤ fuel → (copyPieces fuel data).flatten = data := by
  induction fuel with
  | zero =>
    intro data h
    have : data = [] := List.length_eq_zero.mp (by omega)
    subst this
    rfl
  | succ fuel ih =>
    intro data h
    cases data with
    | nil => rfl
    | cons b bs =>
      simp only [copyPieces, List.isEmpty_cons, Bool.false_eq_true, if_false, List.flatten_cons]
      rw [ih _ (by rw [List.length_drop]; simp only [List.length_cons] at h ⊢; omega)]
      exact List.take_append_drop _ _

theorem absorbed_ioCopy (content : Bytes) : Absorbed (ioCopy sha256New content) content := by
  have h := absorbed_foldl (copyPieces content.length content) sha256New [] absorbed_new
  rw [copyPieces_flatten _ _ (Nat.le_refl _)] at h
  exact h


theorem fipsZeros_mod (len : Nat) : fipsZeros len = fipsZeros (len % 64) := by
  unfold fipsZeros
  congr 2
  funext z
  have h : (len + 1 + z) % 64 = (len % 64 + 1 + z) % 64 := by omega
  rw [h]

theorem fipsZeros_residue : ∀ r, r < 64 → fipsZeros r = (119 - r) % 64 := by
  decide

theorem fipsZeros_eq (len : Nat) : fipsZeros len = (119 - len % 64) % 64 := by
  rw [fipsZeros_mod]
  exact fipsZeros_residue _ (Nat.mod_lt _ (by decide))

theorem take_tmp (n : Nat) (h1 : 1 ≤ n) (h2 : n ≤ 64) :
    (0x80 :: List.replicate 63 0).take n = [0x80] ++ List.replicate (n - 1) 0 := by
  obtain ⟨m, rfl⟩ : ∃ m, n = m + 1 := ⟨n - 1, by omega⟩
  rw [List.take_succ_cons, List.take_replicate]
  simp only [List.singleton_append, Nat.add_sub_cancel]
  congr 2
  omega

theorem bigEndian_fipsLength (len : Nat) :
    bigEndian 8 ((len % 2 ^ 64 * 8) % 2 ^ 64) = fipsLength (8 * len) := by
  simp only [bigEndian, fipsLength, List.range, List.range.loop, List.map,
    Nat.shiftRight_eq_div_pow]
  norm_num
  refine ⟨?_, ?_, ?_, ?_, ?_, ?_, ?_, ?_⟩ <;> omega


theorem sha256Round_eq (s : Sha256State) (k w : Nat) : sha256Round s k w = fipsStep k w s := by
  simp only [sha256Round, fipsStep, fipsAdd, fipsSum0, fipsSum1, fipsCh, fipsMaj, fipsROTR, rotr,
    Sha256State.mk.injEq, true_and, and_true]
  constructor <;> omega

theorem sha256Words_eq (n : Nat) :
    ∀ b : Bytes, b.length = 4 * n →
      sha256Words b = (List.range n).map (fun j => b.getD (4 * j) 0 * 2 ^ 24
        + b.getD (4 * j + 1) 0 * 2 ^ 16 + b.getD (4 * j + 2) 0 * 2 ^ 8 + b.getD (4 * j + 3) 0) := by
  induction n with
  | zero =>
    intro b h
    have : b = [] := List.length_eq_zero.mp (by omega)
    subst this
    rfl
  | succ n ih =>
    intro b h
    match b, h with
    | b0 :: b1 :: b2 :: b3 :: rest, h =>
      have hrest : rest.length = 4 * n := by
        simp only [List.length_cons] at h
        omega
      rw [List.range_succ_eq_map, List.map_cons, List.map_map]
      simp only [sha256Words]
      rw [ih rest hrest]
      congr 1

theorem sha256Words_fips (b : Bytes) (h : b.length = 64) : sha256Words b = fipsWords b :=
  sha256Words_eq 16 b h

theorem fipsW_length (M : List Nat) : ∀ t, (fipsW M t).length = t := by
  intro t
  induction t with
  | zero => rfl
  | succ t ih => simp [fipsW, ih]

theorem fipsW_take (M : List Nat) (hM : M.length = 16) :
    ∀ t, t ≤ 16 → fipsW M t = M.take t := by
  intro t
  induction t with
  | zero => intro _; rfl
  | succ t ih =>
    intro h
    have ht : t < 16 := by omega
    have htM : t < M.length := by omega
    simp only [fipsW, ht, if_true]
    rw [ih (by omega), List.take_succ, List.getD_eq_getElem?_getD, List.getElem?_eq_getElem htM]
    rfl

theorem sha256Schedule_fips (M : List Nat) (n : Nat) :
    ∀ t, 16 ≤ t → sha256Schedule n (fipsW M t) = fipsW M (t + n) := by
  induction n with
  | zero => intro t _; rfl
  | succ n ih =>
    intro t ht
    have hnot : ¬ t < 16 := by omega
    have hstep : fipsW M (t + 1) = fipsW M t ++ [((rotr 17 ((fipsW M t).getD (t - 2) 0)
        ^^^ rotr 19 ((fipsW M t).getD (t - 2) 0) ^^^ ((fipsW M t).getD (t - 2) 0 >>> 10))
        + (fipsW M t).getD (t - 7) 0
        + (rotr 7 ((fipsW M t).getD (t - 15) 0) ^^^ rotr 18 ((fipsW M t).getD (t - 15) 0)
          ^^^ ((fipsW M t).getD (t - 15) 0 >>> 3)) + (fipsW M t).getD (t - 16) 0) % 2 ^ 32] := by
      simp only [fipsW, hnot, if_false, fipsAdd, fipsSigma0, fipsSigma1, fipsROTR, fipsSHR, rotr]
      congr 2
      omega
    have h := ih (t + 1) (by omega)
    rw [hstep] at h
    have e : t + (n + 1) = t + 1 + n := by omega
    rw [e, ← h]
    simp only [sha256Schedule, fipsW_length]

theorem sha256Rounds_range (ks : List Nat) :
    ∀ (ws : List Nat) (s : Sha256State), ks.length = ws.length →
      sha256Rounds s (ks.zip ws)
        = (List.range ks.length).foldl (fun v t => fipsStep (ks.getD t 0) (ws.getD t 0) v) s := by
  induction ks with
  | nil => intro ws s _; rfl
  | cons k ks ih =>
    intro ws s h
    match ws, h with
    | w :: ws, h =>
      simp only [List.length_cons, Nat.add_right_cancel_iff] at h
      rw [List.zip_cons_cons, List.length_cons, List.range_succ_eq_map, List.foldl_cons,
        List.foldl_map]
      simp only [sha256Rounds, Nat.succ_eq_add_one, List.getD_cons_succ, List.getD_cons_zero]
      rw [ih ws _ h, sha256Round_eq]

theorem sha256Block_fips (s : Sha256State) (b : Bytes) (h : b.length = 64) :
    sha256Block s b = fipsHash s (fipsWords b) := by
  have hM : (fipsWords b).length = 16 := by simp [fipsWords]
  have hW : sha256Schedule 48 (sha256Words b) = fipsW (fipsWords b) 64 := by
    rw [sha256Words_fips b h]
    have h16 : fipsW (fipsWords b) 16 = fipsWords b := by
      rw [fipsW_take _ hM 16 (Nat.le_refl _), ← hM, List.take_length]
    have := sha256Schedule_fips (fipsWords b) 48 16 (Nat.le_refl _)
    rw [h16] at this
    exact this
  have hK : sha256K.length = 64 := rfl
  have hR := sha256Rounds_range sha256K (fipsW (fipsWords b) 64) s
    (by rw [fipsW_length]; rfl)
  rw [hK] at hR
  simp only [sha256Block, fipsHash, fipsAdd, hW, hR, Sha256State.mk.injEq]
  refine ⟨?_, ?_, ?_, ?_, ?_, ?_, ?_, ?_⟩ <;> rw [Nat.add_comm]

theorem sha256Blocks_fips (n : Nat) :
    ∀ (s : Sha256State) (data : Bytes), 64 * n ≤ data.length →
      sha256Blocks n s data = (List.range n).foldl
        (fun H i => fipsHash H (fipsWords ((data.drop (64 * i)).take 64))) s := by
  induction n with
  | zero => intro s data _; rfl
  | succ n ih =>
    intro s data h
    have e1 : (fun H i => fipsHash H (fipsWords (((data.drop 64).drop (64 * i)).take 64)))
        = (fun H i => fipsHash H (fipsWords ((data.drop (64 * Nat.succ i)).take 64))) := by
      funext H i
      rw [List.drop_drop]
      have e : 64 + 64 * i = 64 * Nat.succ i := by omega
      rw [e]
    rw [List.range_succ_eq_map, List.foldl_cons, List.foldl_map]
    show sha256Blocks n (sha256Block s (data.take 64)) (data.drop 64) = _
    rw [ih _ _ (by rw [List.length_drop]; omega),
      sha256Block_fips s (data.take 64) (by rw [List.length_take]; omega), e1]
    rfl

theorem bigEndian_fipsBytes (w : Nat) : bigEndian 4 w = fipsBytes w := by
  simp [bigEndian, fipsBytes, Nat.shiftRight_eq_div_pow]


theorem fipsPad_length (msg : Bytes) : (fipsPad msg).length % 64 = 0 := by
  simp only [fipsPad, fipsLength, List.length_append, List.length_replicate, List.length_map,
    List.length_range, List.length_singleton, fipsZeros_eq]
  omega

theorem digest_Sum_fips (d : digest) (T : Bytes) (h : Absorbed d T) : d.Sum = fipsSha256 T := by
  have hlen := h.2.2
  have hmod : d.len % 64 = T.length % 64 := by
    rw [hlen]
    omega
  have hpad : (0x80 :: List.replicate 63 0).take
      (if d.len % 64 < 56 then 56 - d.len % 64 else 64 + 56 - d.len % 64)
      = [0x80] ++ List.replicate (fipsZeros T.length) 0 := by
    rw [take_tmp _ (by split <;> omega) (by split <;> omega), fipsZeros_eq, hmod]
    congr 2
    split <;> omega
  have h1 := absorbed_write d T ((0x80 :: List.replicate 63 0).take
    (if d.len % 64 < 56 then 56 - d.len % 64 else 64 + 56 - d.len % 64)) h
  have h2 := absorbed_write _ _ (bigEndian 8 ((d.len * 8) % 2 ^ 64)) h1
  have hP : T ++ (0x80 :: List.replicate 63 0).take
      (if d.len % 64 < 56 then 56 - d.len % 64 else 64 + 56 - d.len % 64)
      ++ bigEndian 8 ((d.len * 8) % 2 ^ 64) = fipsPad T := by
    rw [hpad, hlen, bigEndian_fipsLength]
    simp only [fipsPad, List.append_assoc]
  rw [hP] at h2
  have hsum := h2.1
  rw [sha256Blocks_fips _ _ _ (Nat.mul_div_le _ 64)] at hsum
  simp only [digest.Sum, fipsSha256, bigEndian_fipsBytes]
  rw [hsum]

theorem fipsBytes_lt (w v : Nat) (h : v ∈ fipsBytes w) : v < 256 := by
  simp only [fipsBytes, List.mem_cons, List.mem_singleton, List.not_mem_nil, or_false] at h
  rcases h with h | h | h | h <;> rw [h] <;> exact Nat.mod_lt _ (by decide)

theorem fipsSha256_length (msg : Bytes) : (fipsSha256 msg).length = 32 := by
  simp [fipsSha256, fipsBytes]

theorem fipsSha256_lt (msg : Bytes) (v : Nat) (h : v ∈ fipsSha256 msg) : v < 256 := by
  simp only [fipsSha256, List.mem_append] at h
  rcases h with ((((((h | h) | h) | h) | h) | h) | h) | h <;> exact fipsBytes_lt _ _ h

theorem hex_digit_of_nibble : ∀ n, n < 16 → hextable.getD n '0' ∈ hextable := by
  decide

theorem hex_digits_of_byte (v : Nat) (hv : v < 256) :
    hextable.getD (v >>> 4) '0' ∈ hextable ∧ hextable.getD (v &&& 0x0f) '0' ∈ hextable := by
  constructor
  · apply hex_digit_of_nibble
    rw [Nat.shiftRight_eq_div_pow]
    omega
  · apply hex_digit_of_nibble
    exact Nat.lt_succ_of_le Nat.and_le_right

theorem hexEncodeToString_length (src : Bytes) :
    (hexEncodeToString src).length = 2 * src.length := by
  unfold hexEncodeToString
  show (List.flatMap _ _).length = _
  induction src with
  | nil => rfl
  | cons v vs ih =>
    rw [List.flatMap_cons, List.length_append, ih]
    simp only [List.length_cons, List.length_nil]
    omega

theorem hexEncodeToString_chars (src : Bytes) (hsrc : ∀ v, v ∈ src → v < 256) (c : Char)
    (hc : c ∈ (hexEncodeToString src).data) : c ∈ hextable := by
  unfold hexEncodeToString at hc
  simp only [List.mem_flatMap, List.mem_cons, List.mem_singleton, List.not_mem_nil,
    or_false] at hc
  obtain ⟨v, hv, h | h⟩ := hc
  · rw [h]; exact (hex_digits_of_byte v (hsrc v hv)).1
  · rw [h]; exact (hex_digits_of_byte v (hsrc v hv)).2

theorem hexDigitValue_nibble : ∀ n, n < 16 → hexDigitValue (hextable.getD n '0') = some n := by
  decide

theorem hexBytes_encode (src : Bytes) (hsrc : ∀ v, v ∈ src → v < 256) :
    hexBytes (hexEncodeToString src).data = some src := by
  unfold hexEncodeToString
  show hexBytes (List.flatMap _ _) = _
  induction src with
  | nil => rfl
  | cons v vs ih =>
    have hv : v < 256 := hsrc v (List.mem_cons_self _ _)
    have hhi : v >>> 4 < 16 := by
      rw [Nat.shiftRight_eq_div_pow]
      omega
    have hlo : v &&& 0x0f < 16 := Nat.lt_succ_of_le Nat.and_le_right
    have hsum : 16 * (v >>> 4) + (v &&& 0x0f) = v := by
      have h15 : v &&& 0x0f = v % 2 ^ 4 := Nat.and_pow_two_sub_one_eq_mod v 4
      rw [h15, Nat.shiftRight_eq_div_pow]
      omega
    rw [List.flatMap_cons, List.cons_append, List.cons_append, List.nil_append]
    simp only [hexBytes, hexDigitValue_nibble _ hhi, hexDigitValue_nibble _ hlo,
      ih (fun u hu => hsrc u (List.mem_cons_of_mem _ hu)), hsum]

/-- C14.  For every file that can be read, `hashFileContent` returns a text of
64 characters, each one of `0123456789abcdef`, and the bytes this text stands
for, two digits a byte, are the SHA-256 digest of all the bytes of the file,
as FIPS 180-4 defines it.  The text does not depend on the pieces in which the
file is read: the pieces written in turn to a new hash give it whenever they
make up the contents.  It depends on the contents only, so another path with
the same contents gives the same text, and this text is what the `StateFunc`
of `filepath` puts in the state.  On the empty file and on the three example
messages of the standard it is the digest the standard gives. -/
theorem hash_is_hex_of_sha256 (fs : String → FileRead) (path : String) (content : Bytes)
    (hread : fs path = .content content) :
    ∃ text, hashFileContent fs path = some text
      ∧ text.length = 64
      ∧ (∀ c, c ∈ text.data → c ∈ "0123456789abcdef".data)
      ∧ hexBytes text.data = some (fipsSha256 content)
      ∧ (∀ pieces : List Bytes, pieces.flatten = content →
          hexEncodeToString (pieces.foldl digest.Write sha256New).Sum = text)
      ∧ (∀ path2, fs path2 = .content content → hashFileContent fs path2 = some text)
      ∧ filepathStateFunc fs path = some text
      ∧ (content = [] →
          text = "e3b0c44298fc1c149afbf4c8996fb92427ae41e4649b934ca495991b7852b855")
      ∧ (content = asciiBytes "abc" →
          text = "ba7816bf8f01cfea414140de5dae2223b00361a396177a9cb410ff61f20015ad")
      ∧ (content = asciiBytes "abcdbcdecdefdefgefghfghighijhijkijkljklmklmnlmnomnopnopq" →
          text = "248d6a61d20638b8e5c026930c3e6039a33ce45964ff2167f6ecedd419db06c1")
      ∧ (content = asciiBytes ("abcdefghbcdefghicdefghijdefghijkefghijklfghijklmghijklmn"
            ++ "hijklmnoijklmnopjklmnopqklmnopqrlmnopqrsmnopqrstnopqrstu") →
          text = "cf5b16a778af8380036ce59e7b0492370b249b11e8f07a51afac45037afee9d1") := by
  have hsum : (ioCopy sha256New content).Sum = fipsSha256 content :=
    digest_Sum_fips _ _ (absorbed_ioCopy content)
  have h : hashFileContent fs path = some (hexEncodeToString (ioCopy sha256New content).Sum) := by
    simp [hashFileContent, hread]
  refine ⟨hexEncodeToString (ioCopy sha256New content).Sum, h, ?_, ?_, ?_, ?_, ?_, h,
    ?_, ?_, ?_, ?_⟩
  · rw [hexEncodeToString_length, hsum, fipsSha256_length]
  · intro c hc
    rw [hsum] at hc
    exact hexEncodeToString_chars _ (fipsSha256_lt content) c hc
  · rw [hsum]
    exact hexBytes_encode _ (fipsSha256_lt content)
  · intro pieces hp
    have ha := absorbed_foldl pieces sha256New [] absorbed_new
    rw [List.nil_append, hp] at ha
    rw [digest_Sum_fips _ _ ha, hsum]
  · intro path2 h2
    simp [hashFileContent, h2]
  · intro hc
    rw [hc]
    decide!
  · intro hc
    rw [hc]
    decide!
  · intro hc
    rw [hc]
    decide!
  · intro hc
    rw [hc]
    decide!

/-- C14 on a file with the three bytes `abc`, the first example of the standard,
under two paths and read in two pieces. -/
theorem hash_is_hex_of_sha256_witness :
    twoFiles "a/flow.yaml" = .content [97, 98, 99]
      ∧ hashFileContent twoFiles "a/flow.yaml"
        = some "ba7816bf8f01cfea414140de5dae2223b00361a396177a9cb410ff61f20015ad"
      ∧ hashFileContent twoFiles "b/copy.yaml"
        = some "ba7816bf8f01cfea414140de5dae2223b00361a396177a9cb410ff61f20015ad"
      ∧ hexEncodeToString (([[97], [98, 99]] : List Bytes).foldl digest.Write sha256New).Sum
        = "ba7816bf8f01cfea414140de5dae2223b00361a396177a9cb410ff61f20015ad"
      ∧ hexBytes "ba7816bf8f01cfea414140de5dae2223b00361a396177a9cb410ff61f20015ad".data
        = some (fipsSha256 [97, 98, 99]) := by
  obtain ⟨text, h1, _, _, h4, h5, h6, _, _, habc, _, _⟩ :=
    hash_is_hex_of_sha256 twoFiles "a/flow.yaml" [97, 98, 99] rfl
  have ht := habc rfl
  subst ht
  exact ⟨rfl, h1, h6 "b/copy.yaml" rfl, h5 [[97], [98, 99]] rfl, h4⟩

/-! ## The web deployment resource -/

/-- C17.  The function `validAllowedDomainsSettings` returns no error exactly
when one of the two settings holds and the other does not; with all domains
allowed and allowed domains set it returns one error, with neither it
returns another one. -/
theorem allowed_domains_exactly_one (d : DeploymentData) :
    (validAllowedDomainsSettings d = none ↔
        (d.allow_all_domains = true ∧ d.GetOkAllowedDomains.2 = false)
          ∨ (d.allow_all_domains = false ∧ d.GetOkAllowedDomains.2 = true))
      ∧ (d.allow_all_domains = true → d.GetOkAllowedDomains.2 = true →
          validAllowedDomainsSettings d
            = some "Allowed domains cannot be specified when all domains are allowed")
      ∧ (d.allow_all_domains = false → d.GetOkAllowedDomains.2 = false →
          validAllowedDomainsSettings d
            = some "Either allowed domains must be specified or all domains must be allowed")
      ∧ "Allowed domains cannot be specified when all domains are allowed"
          ≠ "Either allowed domains must be specified or all domains must be allowed" := by
  unfold validAllowedDomainsSettings
  cases d.allow_all_domains <;> cases d.GetOkAllowedDomains.2 <;> simp

/-- C17 on a deployment that allows all domains and lists one. -/
theorem allowed_domains_exactly_one_witness :
    validAllowedDomainsSettings { allow_all_domains := true, allowed_domains := ["example.com"] }
      = some "Allowed domains cannot be specified when all domains are allowed" :=
  (allowed_domains_exactly_one
    { allow_all_domains := true, allowed_domains := ["example.com"] }).2.1 rfl rfl

/-! ## The check that routing email domains are destroyed -/

theorem destroyed_skip (isStatus404 : Option Nat → Bool) (api : String → DomainLookup)
    (rs : ResourceState) (rest : List ResourceState) (h : isEmailDomain rs = false) :
    testVerifyRoutingEmailDomainDestroyed isStatus404 api (rs :: rest)
      = testVerifyRoutingEmailDomainDestroyed isStatus404 api rest := by
  unfold isEmailDomain at h
  rw [testVerifyRoutingEmailDomainDestroyed]
  simp [bne, h]

theorem destroyed_gone (isStatus404 : Option Nat → Bool) (api : String → DomainLookup)
    (rs : ResourceState) (rest : List ResourceState) (h : isEmailDomain rs = true)
    (hg : isGone isStatus404 api rs = true) :
    testVerifyRoutingEmailDomainDestroyed isStatus404 api (rs :: rest)
      = ((testVerifyRoutingEmailDomainDestroyed isStatus404 api rest).1,
          rs.primaryID :: (testVerifyRoutingEmailDomainDestroyed isStatus404 api rest).2) := by
  unfold isEmailDomain at h
  simp only [isGone, Bool.and_eq_true, Option.isNone_iff_eq_none] at hg
  rw [testVerifyRoutingEmailDomainDestroyed]
  simp [bne, h, hg.1, hg.2]

theorem destroyed_stop (isStatus404 : Option Nat → Bool) (api : String → DomainLookup)
    (rs : ResourceState) (rest : List ResourceState) (h : isEmailDomain rs = true)
    (hg : isGone isStatus404 api rs = false) :
    testVerifyRoutingEmailDomainDestroyed isStatus404 api (rs :: rest)
      = (some (if (api rs.primaryID).domain.isSome then
            "Domain (" ++ rs.primaryID ++ ") still exists"
          else "Unexpected error: " ++ fmtS (api rs.primaryID).err), [rs.primaryID]) := by
  unfold isEmailDomain at h
  rw [testVerifyRoutingEmailDomainDestroyed]
  cases hd : (api rs.primaryID).domain with
  | some dom => simp [bne, h, hd]
  | none =>
    have h4 : isStatus404 (api rs.primaryID).resp = false := by
      simpa [isGone, hd] using hg
    simp [bne, h, hd, h4]

theorem destroyed_none_iff (isStatus404 : Option Nat → Bool) (api : String → DomainLookup) :
    ∀ resources : List ResourceState,
      (testVerifyRoutingEmailDomainDestroyed isStatus404 api resources).1 = none ↔
        ∀ rs, rs ∈ resources → isEmailDomain rs = true → isGone isStatus404 api rs = true := by
  intro resources
  induction resources with
  | nil => simp [testVerifyRoutingEmailDomainDestroyed]
  | cons rs rest ih =>
    cases ht : isEmailDomain rs with
    | false =>
      rw [destroyed_skip _ _ _ _ ht, ih]
      constructor
      · intro h r hr hty
        rcases List.mem_cons.mp hr with heq | hin
        · subst heq; rw [ht] at hty; cases hty
        · exact h r hin hty
      · intro h r hr hty
        exact h r (List.mem_cons_of_mem _ hr) hty
    | true =>
      cases hg : isGone isStatus404 api rs with
      | true =>
        rw [destroyed_gone _ _ _ _ ht hg]
        simp only
        rw [ih]
        constructor
        · intro h r hr hty
          rcases List.mem_cons.mp hr with heq | hin
          · subst heq; exact hg
          · exact h r hin hty
        · intro h r hr hty
          exact h r (List.mem_cons_of_mem _ hr) hty
      | false =>
        rw [destroyed_stop _ _ _ _ ht hg]
        constructor
        · intro h; cases h
        · intro h
          have := h rs (List.mem_cons_self _ _) ht
          rw [hg] at this
          cases this

theorem destroyed_first_failure (isStatus404 : Option Nat → Bool) (api : String → DomainLookup)
    (rs : ResourceState) (post : List ResourceState) (hty : isEmailDomain rs = true)
    (hg : isGone isStatus404 api rs = false) :
    ∀ pre : List ResourceState,
      (∀ r, r ∈ pre → isEmailDomain r = true → isGone isStatus404 api r = true) →
      testVerifyRoutingEmailDomainDestroyed isStatus404 api (pre ++ rs :: post)
        = (some (if (api rs.primaryID).domain.isSome then
              "Domain (" ++ rs.primaryID ++ ") still exists"
            else "Unexpected error: " ++ fmtS (api rs.primaryID).err),
            (pre.filter isEmailDomain).map (fun r => r.primaryID) ++ [rs.primaryID]) := by
  intro pre
  induction pre with
  | nil => intro _; exact destroyed_stop _ _ _ _ hty hg
  | cons r rest ih =>
    intro hpre
    have ih := ih (fun x hx => hpre x (List.mem_cons_of_mem _ hx))
    cases ht : isEmailDomain r with
    | false =>
      rw [List.cons_append, destroyed_skip _ _ _ _ ht, ih]
      simp [List.filter_cons, ht]
    | true =>
      rw [List.cons_append, destroyed_gone _ _ _ _ ht (hpre r (List.mem_cons_self _ _) ht), ih]
      simp [List.filter_cons, ht]

theorem destroyed_lookups_prefix (isStatus404 : Option Nat → Bool)
    (api : String → DomainLookup) :
    ∀ resources : List ResourceState,
      (testVerifyRoutingEmailDomainDestroyed isStatus404 api resources).2
        <+: (resources.filter isEmailDomain).map (fun r => r.primaryID) := by
  intro resources
  induction resources with
  | nil => simp [testVerifyRoutingEmailDomainDestroyed]
  | cons rs rest ih =>
    cases ht : isEmailDomain rs with
    | false =>
      rw [destroyed_skip _ _ _ _ ht]
      simpa [List.filter_cons, ht] using ih
    | true =>
      cases hg : isGone isStatus404 api rs with
      | true =>
        rw [destroyed_gone _ _ _ _ ht hg]
        simp only [List.filter_cons, ht, if_true, List.map_cons]
        exact (List.prefix_cons_inj _).mpr ih
      | false =>
        rw [destroyed_stop _ _ _ _ ht hg]
        simp only [List.filter_cons, ht, if_true, List.map_cons]
        exact (List.prefix_cons_inj _).mpr (List.nil_prefix)

/-- C20.  The check `testVerifyRoutingEmailDomainDestroyed` returns nil exactly
when every resource of type `genesyscloud_routing_email_domain` looks up as
gone (no domain, and `isStatus404` of the response).  At the first such
resource that does not, it returns the error for it (`still exists` when a
domain came back, `Unexpected error` otherwise) and looks up nothing after it.
The ids looked up are always the first ones of the resources of that type, in
order, so a resource of another type is never looked up. -/
theorem destroyed_check_iff_all_gone (isStatus404 : Option Nat → Bool)
    (api : String → DomainLookup) (resources : List ResourceState) :
    ((testVerifyRoutingEmailDomainDestroyed isStatus404 api resources).1 = none ↔
        ∀ rs, rs ∈ resources → rs.type = "genesyscloud_routing_email_domain" →
          (api rs.primaryID).domain = none ∧ isStatus404 (api rs.primaryID).resp = true)
      ∧ (∀ pre rs post, resources = pre ++ rs :: post →
          (∀ r, r ∈ pre → r.type = "genesyscloud_routing_email_domain" →
            (api r.primaryID).domain = none ∧ isStatus404 (api r.primaryID).resp = true) →
          rs.type = "genesyscloud_routing_email_domain" →
          ¬ ((api rs.primaryID).domain = none ∧ isStatus404 (api rs.primaryID).resp = true) →
          testVerifyRoutingEmailDomainDestroyed isStatus404 api resources
            = (some (if (api rs.primaryID).domain.isSome then
                  "Domain (" ++ rs.primaryID ++ ") still exists"
                else "Unexpected error: " ++ fmtS (api rs.primaryID).err),
                (pre.filter isEmailDomain).map (fun r => r.primaryID) ++ [rs.primaryID]))
      ∧ (testVerifyRoutingEmailDomainDestroyed isStatus404 api resources).2
          <+: (resources.filter isEmailDomain).map (fun r => r.primaryID) := by
  have hty : ∀ r : ResourceState, isEmailDomain r = true ↔
      r.type = "genesyscloud_routing_email_domain" := by
    intro r; simp [isEmailDomain]
  have hgone : ∀ r : ResourceState, isGone isStatus404 api r = true ↔
      ((api r.primaryID).domain = none ∧ isStatus404 (api r.primaryID).resp = true) := by
    intro r; simp [isGone]
  refine ⟨?_, ?_, destroyed_lookups_prefix isStatus404 api resources⟩
  · rw [destroyed_none_iff]
    constructor
    · intro h rs hrs ht
      exact (hgone rs).mp (h rs hrs ((hty rs).mpr ht))
    · intro h rs hrs ht
      exact (hgone rs).mpr (h rs hrs ((hty rs).mp ht))
  · intro pre rs post hres hpre ht hng
    subst hres
    have hg : isGone isStatus404 api rs = false := by
      cases hc : isGone isStatus404 api rs with
      | false => rfl
      | true => exact absurd ((hgone rs).mp hc) hng
    exact destroyed_first_failure isStatus404 api rs post ((hty rs).mpr ht) hg pre
      (fun r hr hrt => (hgone r).mpr (hpre r hr ((hty r).mp hrt)))

/-- C20 on a state with a flow, a domain that is gone, one that still exists and
one more domain after it. -/
theorem destroyed_check_iff_all_gone_witness :
    testVerifyRoutingEmailDomainDestroyed sampleIsStatus404 sampleDomains
        [{ type := "genesyscloud_flow", primaryID := "f1" },
         { type := "genesyscloud_routing_email_domain", primaryID := "gone1" },
         { type := "genesyscloud_routing_email_domain", primaryID := "kept" },
         { type := "genesyscloud_routing_email_domain", primaryID := "gone2" }]
      = (some "Domain (kept) still exists", ["gone1", "kept"]) :=
  (destroyed_check_iff_all_gone sampleIsStatus404 sampleDomains
    [{ type := "genesyscloud_flow", primaryID := "f1" },
     { type := "genesyscloud_routing_email_domain", primaryID := "gone1" },
     { type := "genesyscloud_routing_email_domain", primaryID := "kept" },
     { type := "genesyscloud_routing_email_domain", primaryID := "gone2" }]).2.1
    [{ type := "genesyscloud_flow", primaryID := "f1" },
     { type := "genesyscloud_routing_email_domain", primaryID := "gone1" }]
    { type := "genesyscloud_routing_email_domain", primaryID := "kept" }
    [{ type := "genesyscloud_routing_email_domain", primaryID := "gone2" }]
    rfl
    (by
      intro r hr ht
      simp only [List.mem_cons, List.mem_singleton, List.not_mem_nil, or_false] at hr
      rcases hr with h | h <;> subst h
      · exact absurd ht (by decide)
      · exact ⟨rfl, rfl⟩)
    rfl
    (by
      rintro ⟨h, -⟩
      exact absurd h (by decide))

/-! ## The web deployment configuration resource -/

/-- C18 on the code.  For a file upload mode that sets `file_types` and leaves
`max_file_size_kb` out, `readMessengerSettings` builds a mode whose maximum file
size is 0, the zero value that the attribute reads as, not 10240; a mode that
sets the size gets the size it sets. -/
theorem unset_max_file_size_is_zero :
    readMessengerSettings stringsOf (messengerBlock true [modeBlock (some ["image/png"]) none])
      = .returns (some (pngSettings 0))
    ∧ readMessengerSettings stringsOf
        (messengerBlock true [modeBlock (some ["image/png"]) (some 512)])
      = .returns (some (pngSettings 512))
    ∧ pngSettings 0 ≠ pngSettings 10240 := by
  refine ⟨rfl, rfl, ?_⟩
  intro h
  have := congrArg (fun s => (s.FileUpload.bind (fun f => f.Modes)).map
    (fun ms => ms.map (fun m => m.MaxFileSizeKB))) h
  simp [pngSettings] at this

/-! ## Type assertions of a poll iteration -/

/-- C23.  When a decoded status `Failure` comes with a numeric `exitCode` and a
decoded status `Success` with a flow object that has a string id, the poll
iteration of `createFlow` returns and does not panic, whatever the status and
the rest of the map are, the empty map included. -/
theorem well_formed_status_never_panics (lib : Lib) (srv : Remote) (cfg : Configuration)
    (jobId flowID : String) (w : World)
    (hfailure : ifaceEqString ((jobStatus lib (srv.status w.polls)).lookup "status") "Failure"
        = true →
      ∃ x, (jobStatus lib (srv.status w.polls)).lookup "exitCode" = some (.number x))
    (hsuccess : ifaceEqString ((jobStatus lib (srv.status w.polls)).lookup "status") "Success"
        = true →
      ∃ flow id, (jobStatus lib (srv.status w.polls)).lookup "flow" = some (.object flow)
        ∧ flow.lookup "id" = some (.string id)) :
    ∃ r s, createFlowPoll lib srv cfg jobId (flowID, w) = .ret r s := by
  cases hF : ifaceEqString ((jobStatus lib (srv.status w.polls)).lookup "status") "Failure"
  · cases hS : ifaceEqString ((jobStatus lib (srv.status w.polls)).lookup "status") "Success"
    · exact ⟨some (RetryableError ("Job (" ++ jobId ++ ") is still in progress.")),
        (flowID, (w.getStatus cfg jobId).Sleep 15), by simp [createFlowPoll, hF, hS]⟩
    · obtain ⟨flow, id, hflow, hid⟩ := hsuccess hS
      exact ⟨none, (id, w.getStatus cfg jobId),
        by simp [createFlowPoll, hF, hS, hflow, hid, assertMap, assertString]⟩
  · obtain ⟨x, hx⟩ := hfailure hF
    exact ⟨some (NonRetryableError ("Flow publish failed. JobID: " ++ jobId
        ++ ", exit code: " ++ lib.fmtFloat x)), (flowID, w.getStatus cfg jobId),
      by simp [createFlowPoll, hF, hx, assertFloat64]⟩

/-- C23 on a `Failure` answer with exit code 2 and on a `Success` answer with
the flow id `F1`: in each the assertion that the status reaches succeeds. -/
theorem well_formed_status_never_panics_witness :
    ((jobStatus sampleLib (scenarioB.status w0.polls)).lookup "status"
          = some (.string "Failure")
        ∧ (jobStatus sampleLib (scenarioB.status w0.polls)).lookup "exitCode"
          = some (.number two)
        ∧ ∃ r s, createFlowPoll sampleLib scenarioB sampleConfig "J1" ("", w0) = .ret r s)
    ∧ ((jobStatus sampleLib (readUndecodable.status w0.polls)).lookup "status"
          = some (.string "Success")
        ∧ (jobStatus sampleLib (readUndecodable.status w0.polls)).lookup "flow"
          = some (.object [("id", .string "F1")])
        ∧ ∃ r s, createFlowPoll sampleLib readUndecodable sampleConfig "J1" ("", w0)
            = .ret r s) :=
  ⟨⟨rfl, rfl, well_formed_status_never_panics sampleLib scenarioB sampleConfig "J1" "" w0
      (fun _ => ⟨two, rfl⟩) (fun h => absurd h (by decide))⟩,
    ⟨rfl, rfl, well_formed_status_never_panics sampleLib readUndecodable sampleConfig "J1" "" w0
      (fun h => absurd h (by decide)) (fun _ => ⟨[("id", .string "F1")], "F1", rfl, rfl⟩)⟩⟩

/-! ## Journey settings -/

/-- C25.  For a `journey_events` block the settings that `readJourneySettings`
builds hold the `enabled` value of the block and nothing else: no other field
of the result is set, and two blocks that read the same `enabled` give equal
results whatever else they hold. -/
theorem journey_settings_depend_on_enabled_only (cfg1 cfg2 : List (String × Value))
    (rest1 rest2 : List Value)
    (henabled : boolOrZero (cfg1.lookup "enabled") = boolOrZero (cfg2.lookup "enabled")) :
    readJourneySettings (.list (.map cfg1 :: rest1))
        = .returns (some (onlyEnabled (boolOrZero (cfg1.lookup "enabled"))))
      ∧ readJourneySettings (.list (.map cfg1 :: rest1))
        = readJourneySettings (.list (.map cfg2 :: rest2)) := by
  have h : ∀ (cfg : List (String × Value)) (rest : List Value),
      readJourneySettings (.list (.map cfg :: rest))
        = .returns (some (onlyEnabled (boolOrZero (cfg.lookup "enabled")))) := by
    intro cfg rest
    rfl
  exact ⟨h cfg1 rest1, by rw [h cfg1 rest1, h cfg2 rest2, henabled]⟩

/-- C25 on two blocks that leave `enabled` at its default and differ in every
other attribute. -/
theorem journey_settings_depend_on_enabled_only_witness :
    readJourneySettings (journeyBlock none [] false [] "" [] [] [] [] [])
        = .returns (some (onlyEnabled true))
      ∧ readJourneySettings (journeyBlock none [] false [] "" [] [] [] [] [])
        = readJourneySettings (journeyBlock (some true) ["token"] true ["q"] "Once"
            [.map [("selector", .string "#buy"), ("event_name", .string "buy")]]
            [.map [("selector", .string "form")]]
            [.map [("event_name", .string "idle"), ("idle_after_seconds", .int 30)]]
            [.map [("selector", .string "#ad"), ("event_name", .string "ad")]]
            [.map [("event_name", .string "half"), ("percentage", .int 50)]]) :=
  journey_settings_depend_on_enabled_only _ _ [] [] rfl

/-! ## Messenger settings -/

theorem stringsOf_map (ss : List String) : stringsOf (ss.map Value.string) = .returns ss := by
  induction ss with
  | nil => rfl
  | cons s rest ih => simp [stringsOf, ih, Outcome.bind]

theorem readModes_well_formed (f : List Value → Outcome (List String))
    (hf : ∀ ss, f (ss.map Value.string) = .returns ss)
    (modesCfg : List Value) (specs : List (List String × Int))
    (hmodes : List.Forall₂ (fun v sp => WellFormedMode v sp.1 sp.2) modesCfg specs) :
    readModes f modesCfg = .returns (specs.map uploadMode) := by
  induction hmodes with
  | nil => rfl
  | cons h _ ih =>
    obtain ⟨mode, rfl, hsize, htypes⟩ := h
    simp [readModes, hsize, htypes, hf, ih, Outcome.bind, uploadMode]

theorem firstBlockString_returns (blocks : Option Value) (key : String)
    (h : ReadsAsBlock blocks) : ∃ r, firstBlockString blocks key = .returns r := by
  unfold firstBlockString
  split
  · split <;> exact ⟨_, rfl⟩
  · next first rest hnot =>
    obtain ⟨block, hb⟩ := h first rest rfl
    subst hb
    exact absurd rfl (hnot block)
  · exact ⟨_, rfl⟩

theorem firstBlockString_panics (blocks : Option Value) (key : String)
    (h : ¬ ReadsAsBlock blocks) : firstBlockString blocks key = .panics := by
  unfold ReadsAsBlock at h
  push_neg at h
  obtain ⟨first, rest, hb, hnot⟩ := h
  subst hb
  cases first with
  | map block => exact absurd rfl (hnot block)
  | nil => rfl
  | bool b => rfl
  | int n => rfl
  | string s => rfl
  | list xs => rfl

/-- C21, as the code has it.  For a messenger block whose `file_upload` block
holds a non-empty list of well-formed modes and whose `styles` and
`launcher_button` lists are empty or start with a map, `readMessengerSettings`
returns settings whose file upload has as many modes as configured, the i-th
with the file types, in their order, and the maximum size of the i-th
configured mode; the helper `interfaceListToStrings` is any function that
gives the texts of a list of strings.  For an absent or empty messenger it
returns nil.  A `styles` or `launcher_button` list whose first element is no
map, as an empty block gives, makes it panic, whatever the modes are. -/
theorem messenger_modes_follow_configuration (f : List Value → Outcome (List String))
    (hf : ∀ ss, f (ss.map Value.string) = .returns ss)
    (cfg fileUpload : List (String × Value)) (rest restUploads modesCfg : List Value)
    (specs : List (List String × Int))
    (hmodes : List.Forall₂ (fun v sp => WellFormedMode v sp.1 sp.2) modesCfg specs)
    (hne : modesCfg ≠ [])
    (hupload : cfg.lookup "file_upload" = some (.list (.map fileUpload :: restUploads)))
    (hcfg : fileUpload.lookup "modes" = some (.list modesCfg))
    (hstyles : ReadsAsBlock (cfg.lookup "styles"))
    (hlauncher : ReadsAsBlock (cfg.lookup "launcher_button")) :
    (∃ settings, readMessengerSettings f (.list (.map cfg :: rest)) = .returns (some settings)
        ∧ settings.FileUpload = some { Modes := some (specs.map uploadMode) }
        ∧ (specs.map uploadMode).length = modesCfg.length
        ∧ ∀ (i : Nat) (fileTypes : List String) (maxFileSizeKB : Int),
            specs[i]? = some (fileTypes, maxFileSizeKB) →
            (specs.map uploadMode)[i]? = some (uploadMode (fileTypes, maxFileSizeKB)))
      ∧ readMessengerSettings f .nil = .returns none
      ∧ readMessengerSettings f (.list []) = .returns none
      ∧ ∀ (cfg2 : List (String × Value)) (rest2 : List Value),
          ¬ ReadsAsBlock (cfg2.lookup "styles") ∨ ¬ ReadsAsBlock (cfg2.lookup "launcher_button") →
          readMessengerSettings f (.list (.map cfg2 :: rest2)) = .panics := by
  have hread := readModes_well_formed f hf modesCfg specs hmodes
  have hlen : specs.length = modesCfg.length := hmodes.length_eq.symm
  have hspecs : specs ≠ [] := by
    intro h
    rw [h] at hlen
    exact hne (List.length_eq_zero.mp hlen.symm)
  obtain ⟨primaryColor, hpc⟩ := firstBlockString_returns _ "primary_color" hstyles
  obtain ⟨visibility, hvis⟩ := firstBlockString_returns _ "visibility" hlauncher
  refine ⟨⟨⟨some (boolOrZero (cfg.lookup "enabled")), primaryColor.map fun c => ⟨some c⟩,
    visibility.map fun v => ⟨some v⟩, some ⟨some (specs.map uploadMode)⟩⟩,
    ?_, rfl, ?_, ?_⟩, rfl, rfl, ?_⟩
  · obtain ⟨m, ms, rfl⟩ := List.exists_cons_of_ne_nil hne
    obtain ⟨sp, sps, rfl⟩ := List.exists_cons_of_ne_nil hspecs
    have hfu : readFileUpload f (cfg.lookup "file_upload")
        = .returns (some { Modes := some ((sp :: sps).map uploadMode) }) := by
      simp [readFileUpload, hupload, hcfg, hread, Outcome.bind]
    show readMessengerSettings f (.list (.map cfg :: rest)) = _
    simp only [readMessengerSettings, GetOk, if_true, hpc, hvis, hfu, Outcome.bind]
  · rw [List.length_map, hlen]
  · intro i fileTypes maxFileSizeKB hi
    rw [List.getElem?_map, hi]
    rfl
  · intro cfg2 rest2 hbad
    by_cases hs : ReadsAsBlock (cfg2.lookup "styles")
    · have hl : ¬ ReadsAsBlock (cfg2.lookup "launcher_button") := by
        rcases hbad with h | h
        · exact absurd hs h
        · exact h
      obtain ⟨pc, hpc2⟩ := firstBlockString_returns _ "primary_color" hs
      have hv2 := firstBlockString_panics _ "visibility" hl
      simp only [readMessengerSettings, GetOk, if_true, hpc2, hv2, Outcome.bind]
    · have hp2 := firstBlockString_panics _ "primary_color" hs
      simp only [readMessengerSettings, GetOk, if_true, hp2, Outcome.bind]

/-- C21 on a messenger block with a styles block, a launcher button block and
two modes: the first element of each list is a map. -/
theorem messenger_modes_follow_configuration_witness :
    styledMessenger.lookup "styles" = some (.list [.map [("primary_color", .string "#112233")]])
      ∧ styledMessenger.lookup "launcher_button"
        = some (.list [.map [("visibility", .string "On")]])
      ∧ ∃ settings, readMessengerSettings stringsOf (.list [.map styledMessenger])
          = .returns (some settings)
        ∧ settings.FileUpload = some twoModesSettings :=
  have h := (messenger_modes_follow_configuration stringsOf stringsOf_map styledMessenger
    [("modes", .list twoModes)] [] [] twoModes
    [(["image/png", "image/gif"], 512), (["image/jpeg"], 10240)]
    (List.Forall₂.cons ⟨_, rfl, rfl, rfl⟩ (List.Forall₂.cons ⟨_, rfl, rfl, rfl⟩ List.Forall₂.nil))
    (by simp [twoModes]) rfl rfl
    (fun first rest h => ⟨[("primary_color", .string "#112233")], by
      have h2 : some (Value.list [.map [("primary_color", .string "#112233")]])
          = some (Value.list (first :: rest)) := h
      injection h2 with h3
      injection h3 with h4
      injection h4 with h5
      exact h5.symm⟩)
    (fun first rest h => ⟨[("visibility", .string "On")], by
      have h2 : some (Value.list [.map [("visibility", .string "On")]])
          = some (Value.list (first :: rest)) := h
      injection h2 with h3
      injection h3 with h4
      injection h4 with h5
      exact h5.symm⟩)).1
  ⟨rfl, rfl, h.elim fun settings hs => ⟨settings, hs.1, hs.2.1⟩⟩

/-- C21 as stated fails.  The two modes of the file upload are well-formed, and
with an empty `styles` block next to them `readMessengerSettings` returns no
settings: the assertion of line 405 on the first element of `styles` panics. -/
theorem empty_styles_block_panics :
    List.Forall₂ (fun v sp => WellFormedMode v sp.1 sp.2) twoModes
        [(["image/png", "image/gif"], 512), (["image/jpeg"], 10240)]
    ∧ readMessengerSettings stringsOf emptyStylesMessenger = .panics
    ∧ ¬ ∃ settings, readMessengerSettings stringsOf emptyStylesMessenger = .returns settings := by
  refine ⟨List.Forall₂.cons ⟨_, rfl, rfl, rfl⟩
    (List.Forall₂.cons ⟨_, rfl, rfl, rfl⟩ List.Forall₂.nil), rfl, ?_⟩
  rintro ⟨settings, h⟩
  have hp : readMessengerSettings stringsOf emptyStylesMessenger = .panics := rfl
  rw [hp] at h
  cases h

/-! ## The export of all flows -/

theorem addFlows_flowOf (flows : List (String × String)) :
    ∀ resources, addFlows (flows.map flowOf) resources = .returns (enterFlows resources flows) := by
  induction flows with
  | nil => intro resources; rfl
  | cons e rest ih =>
    intro resources
    simp only [List.map_cons, addFlows, flowOf, enterFlows, List.foldl_cons]
    exact ih _

theorem enterFlows_absent (id : String) (flows : List (String × String)) :
    ∀ resources, (∀ g, g ∈ flows → g.1 ≠ id) →
      (enterFlows resources flows).lookup id = resources.lookup id := by
  induction flows with
  | nil => intro resources _; rfl
  | cons e rest ih =>
    intro resources h
    show (enterFlows (mapSet resources e.1 e.2) rest).lookup id = _
    rw [ih _ (fun g hg => h g (List.mem_cons_of_mem _ hg)), lookup_mapSet,
      if_neg (fun heq => h e (List.mem_cons_self _ _) heq.symm)]

theorem enterFlows_last (pre post : List (String × String)) (f : String × String)
    (resources : List (String × String)) (h : ∀ g, g ∈ post → g.1 ≠ f.1) :
    (enterFlows resources (pre ++ f :: post)).lookup f.1 = some f.2 := by
  unfold enterFlows
  rw [List.foldl_append, List.foldl_cons]
  have := enterFlows_absent f.1 post
    (mapSet (List.foldl (fun m e => mapSet m e.1 e.2) resources pre) f.1 f.2) h
  unfold enterFlows at this
  rw [this, lookup_mapSet, if_pos rfl]

theorem getAllFlowsFrom_pages (api : Nat → FlowPage) :
    ∀ (pages : List (List (String × String))) (fuel pageNum : Nat)
      (resources : List (String × String)), ServesPages api pageNum pages →
      getAllFlowsFrom api (fuel + pages.length) pageNum resources
        = (getAllFlowsFrom api fuel (pageNum + pages.length)
            (enterFlows resources pages.flatten)).map
          fun r => { r with requested := List.range' pageNum pages.length ++ r.requested } := by
  intro pages
  induction pages with
  | nil =>
    intro fuel pageNum resources _
    simp [enterFlows]
  | cons page rest ih =>
    intro fuel pageNum resources hserve
    obtain ⟨hne, hpage⟩ := hserve 0 page (by simp)
    have hrest : ServesPages api (pageNum + 1) rest := by
      intro i p hp
      have := hserve (i + 1) p (by simpa using hp)
      rwa [show pageNum + (i + 1) = pageNum + 1 + i by omega] at this
    obtain ⟨e, es, rfl⟩ := List.exists_cons_of_ne_nil hne
    have hadd := addFlows_flowOf (e :: es) resources
    rw [List.map_cons] at hadd
    rw [Nat.add_zero, List.map_cons] at hpage
    rw [List.length_cons, ← Nat.add_assoc, getAllFlowsFrom, hpage]
    simp only [hadd]
    rw [ih fuel (pageNum + 1) _ hrest]
    have h1 : pageNum + 1 + rest.length = pageNum + (rest.length + 1) := by omega
    have h2 : enterFlows (enterFlows resources (e :: es)) rest.flatten
        = enterFlows resources (((e :: es) :: rest).flatten) := by
      simp [enterFlows, List.foldl_append]
    rw [h1, h2]
    generalize getAllFlowsFrom api fuel (pageNum + (rest.length + 1))
        (enterFlows resources (((e :: es) :: rest).flatten)) = x
    cases x with
    | none => rfl
    | some r => simp [List.range'_succ]

theorem getAllFlowsFrom_stop (api : Nat → FlowPage) :
    ∀ (fuel pageNum : Nat) (resources : List (String × String)) (r : FlowsExport),
      getAllFlowsFrom api fuel pageNum resources = some r →
      ∃ n, r.requested = List.range' pageNum (n + 1)
        ∧ (∀ i, i < n → (api (pageNum + i)).isFailed = false ∧ (api (pageNum + i)).isEmpty = false)
        ∧ ((api (pageNum + n)).isFailed = true ∨ (api (pageNum + n)).isEmpty = true
            ∨ r.outcome = .panics) := by
  intro fuel
  induction fuel with
  | zero => intro pageNum resources r h; simp [getAllFlowsFrom] at h
  | succ fuel ih =>
    intro pageNum resources r h
    rw [getAllFlowsFrom] at h
    cases hp : api pageNum with
    | failed err =>
      rw [hp] at h
      simp only [Option.some.injEq] at h
      subst h
      exact ⟨0, rfl, fun i hi => absurd hi (Nat.not_lt_zero i), Or.inl (by simp [hp, FlowPage.isFailed])⟩
    | listing entities =>
      rw [hp] at h
      cases entities with
      | none =>
        simp only [Option.some.injEq] at h
        subst h
        exact ⟨0, rfl, fun i hi => absurd hi (Nat.not_lt_zero i),
          Or.inr (Or.inl (by simp [hp, FlowPage.isEmpty]))⟩
      | some flows =>
        cases flows with
        | nil =>
          simp only [Option.some.injEq] at h
          subst h
          exact ⟨0, rfl, fun i hi => absurd hi (Nat.not_lt_zero i),
            Or.inr (Or.inl (by simp [hp, FlowPage.isEmpty]))⟩
        | cons flow flows =>
          simp only at h
          cases hadd : addFlows (flow :: flows) resources with
          | panics =>
            rw [hadd] at h
            simp only [Option.some.injEq] at h
            subst h
            exact ⟨0, rfl, fun i hi => absurd hi (Nat.not_lt_zero i), Or.inr (Or.inr rfl)⟩
          | returns resources1 =>
            rw [hadd] at h
            simp only at h
            cases hrec : getAllFlowsFrom api fuel (pageNum + 1) resources1 with
            | none => rw [hrec] at h; simp at h
            | some r1 =>
              rw [hrec] at h
              simp only [Option.map_some', Option.some.injEq] at h
              subst h
              obtain ⟨n, hreq, hbefore, hlast⟩ := ih (pageNum + 1) resources1 r1 hrec
              refine ⟨n + 1, ?_, ?_, ?_⟩
              · simp only [hreq]
                rfl
              · intro i hi
                cases i with
                | zero => simp [hp, FlowPage.isFailed, FlowPage.isEmpty]
                | succ i =>
                  have := hbefore i (by omega)
                  rwa [show pageNum + 1 + i = pageNum + (i + 1) by omega] at this
              · rwa [show pageNum + 1 + n = pageNum + (n + 1) by omega] at hlast

theorem getAllFlowsFrom_endless (api : Nat → FlowPage) :
    ∀ (fuel pageNum : Nat) (resources : List (String × String)),
      (∀ k, pageNum ≤ k → ∃ page, page ≠ [] ∧ api k = .listing (some (page.map flowOf))) →
      getAllFlowsFrom api fuel pageNum resources = none := by
  intro fuel
  induction fuel with
  | zero => intro pageNum resources _; rfl
  | succ fuel ih =>
    intro pageNum resources h
    obtain ⟨page, hne, hpage⟩ := h pageNum (Nat.le_refl _)
    obtain ⟨e, es, rfl⟩ := List.exists_cons_of_ne_nil hne
    have hadd := addFlows_flowOf (e :: es) resources
    rw [List.map_cons] at hadd hpage
    rw [getAllFlowsFrom, hpage]
    simp only [hadd]
    rw [ih (pageNum + 1) _ (fun k hk => h k (by omega))]
    rfl

/-- C22.  The function `getAllFlows` requests the pages 1, 2, 3, ... in order
and stops at the first page without entities or the first failed request.
When the pages before page k all have flows and page k is the first empty
one, it returns the map in which every id on these pages has the name of its
last occurrence and no other id occurs; when request k fails it returns the
error and a nil map.  Whenever it ends, the pages requested are 1 to some k,
the ones before k had entities, and page k is empty or failed (or a flow of it
lacks its id or name, which is a panic); and when every page has flows it never
returns, whatever the fuel. -/
theorem getAllFlows_pages_in_order (api : Nat → FlowPage) :
    (∀ (pages : List (List (String × String))) (fuel : Nat), ServesPages api 1 pages →
        (api (1 + pages.length)).isEmpty = true → pages.length < fuel →
        getAllFlows api fuel
            = some { requested := List.range' 1 (pages.length + 1),
                     outcome := .returns (some (enterFlows [] pages.flatten), []) }
          ∧ (∀ pre f post, pages.flatten = pre ++ f :: post → (∀ g, g ∈ post → g.1 ≠ f.1) →
              (enterFlows [] pages.flatten).lookup f.1 = some f.2)
          ∧ (∀ id, (∀ g, g ∈ pages.flatten → g.1 ≠ id) →
              (enterFlows [] pages.flatten).lookup id = none))
      ∧ (∀ (pages : List (List (String × String))) (fuel : Nat) (err : String),
          ServesPages api 1 pages → api (1 + pages.length) = .failed err → pages.length < fuel →
          getAllFlows api fuel
            = some { requested := List.range' 1 (pages.length + 1),
                     outcome := .returns
                       (none, diagErrorf ("Failed to get page of flows: " ++ err)) })
      ∧ (∀ (fuel : Nat) (r : FlowsExport), getAllFlows api fuel = some r →
          ∃ n, r.requested = List.range' 1 (n + 1)
            ∧ (∀ i, i < n → (api (1 + i)).isFailed = false ∧ (api (1 + i)).isEmpty = false)
            ∧ ((api (1 + n)).isFailed = true ∨ (api (1 + n)).isEmpty = true
                ∨ r.outcome = .panics))
      ∧ ((∀ k, 1 ≤ k → ∃ page, page ≠ [] ∧ api k = .listing (some (page.map flowOf))) →
          ∀ fuel, getAllFlows api fuel = none) := by
  have hsplit : ∀ (pages : List (List (String × String))) (fuel : Nat),
      ServesPages api 1 pages → pages.length < fuel →
      ∃ m, getAllFlows api fuel
        = (getAllFlowsFrom api (m + 1) (1 + pages.length) (enterFlows [] pages.flatten)).map
            fun r => { r with requested := List.range' 1 pages.length ++ r.requested } := by
    intro pages fuel hserve hfuel
    refine ⟨fuel - pages.length - 1, ?_⟩
    have := getAllFlowsFrom_pages api pages (fuel - pages.length - 1 + 1) 1 [] hserve
    rw [← this]
    unfold getAllFlows
    congr 1
    omega
  refine ⟨?_, ?_, ?_, ?_⟩
  · intro pages fuel hserve hempty hfuel
    refine ⟨?_, ?_, ?_⟩
    · obtain ⟨m, hm⟩ := hsplit pages fuel hserve hfuel
      rw [hm, getAllFlowsFrom]
      cases hp : api (1 + pages.length) with
      | failed err => rw [hp] at hempty; simp [FlowPage.isEmpty] at hempty
      | listing entities =>
        cases entities with
        | none => simp [List.range'_concat]
        | some flows =>
          cases flows with
          | nil => simp [List.range'_concat]
          | cons flow flows => rw [hp] at hempty; simp [FlowPage.isEmpty] at hempty
    · intro pre f post hflat hlast
      rw [hflat]
      exact enterFlows_last pre post f [] hlast
    · intro id habsent
      rw [enterFlows_absent id _ [] habsent]
      rfl
  · intro pages fuel err hserve hfailed hfuel
    obtain ⟨m, hm⟩ := hsplit pages fuel hserve hfuel
    rw [hm, getAllFlowsFrom, hfailed]
    simp [List.range'_concat]
  · intro fuel r h
    exact getAllFlowsFrom_stop api fuel 1 [] r h
  · intro h fuel
    exact getAllFlowsFrom_endless api fuel 1 [] h

/-- C22 on an API with two pages of flows and an empty third page. -/
theorem getAllFlows_pages_in_order_witness :
    getAllFlows twoPages 3
        = some { requested := [1, 2, 3],
                 outcome := .returns (some [("a", "Alpha2"), ("b", "Beta")], []) }
      ∧ ([("a", "Alpha2"), ("b", "Beta")] : List (String × String)).lookup "a" = some "Alpha2" :=
  have h := (getAllFlows_pages_in_order twoPages).1
    [[("a", "Alpha"), ("b", "Beta")], [("a", "Alpha2")]] 3
    (by
      intro i page hp
      match i, hp with
      | 0, hp => cases hp; exact ⟨by simp, rfl⟩
      | 1, hp => cases hp; exact ⟨by simp, rfl⟩
      | i + 2, hp => simp at hp)
    rfl (by decide)
  ⟨h.1, rfl⟩

/-! ## Create and update of a web deployment configuration -/

theorem publishes_append (xs ys : List ConfigurationEvent) :
    publishes (xs ++ ys) = publishes xs ++ publishes ys := by
  induction xs with
  | nil => rfl
  | cons e es ih => cases e <;> simp [publishes, ih]

theorem draftStep_state (api : ConfigurationAPI) (id : String) (w : ConfigurationWorld) :
    (draftStep api id w).state.d = w.d
      ∧ publishes (draftStep api id w).state.trace = publishes w.trace := by
  unfold draftStep
  simp only
  repeat' split
  all_goals
    refine ⟨rfl, ?_⟩
    simp [Run.state, ConfigurationWorld.readDraft, publishes_append, publishes]

theorem draftStep_nil (api : ConfigurationAPI) (id : String) (w w1 : ConfigurationWorld)
    (h : draftStep api id w = .ret none w1) : EndsInActiveRead w1.trace id := by
  unfold draftStep at h
  cases hd : api.draft w.reads with
  | failed err => simp [hd, NonRetryableError] at h
  | answered configuration =>
    simp only [hd] at h
    cases hs : configuration.Status with
    | none => simp [hs] at h
    | some status =>
      simp only [hs] at h
      by_cases hact : (status == "Active") = true
      · rw [if_pos hact] at h
        simp only [Run.ret.injEq, true_and] at h
        subst h
        refine ⟨w.trace, configuration, ?_, ?_⟩
        · simp [ConfigurationWorld.readDraft, hd]
        · rw [hs]
          simpa using hact
      · rw [if_neg hact] at h
        simp [RetryableError] at h

theorem retryLoop_draftStep (api : ConfigurationAPI) (id : String) (deadline : Nat) :
    ∀ (fuel : Nat) (w : ConfigurationWorld) (r : Run ConfigurationWorld Diagnostics),
      retryLoop (fun s => s.now) deadline (draftStep api id) fuel w = some r →
      r.state.d = w.d ∧ publishes r.state.trace = publishes w.trace
        ∧ ∀ w1, r = .ret [] w1 → EndsInActiveRead w1.trace id := by
  intro fuel
  induction fuel with
  | zero => intro w r h; simp [retryLoop] at h
  | succ fuel ih =>
    intro w r h
    have hs := draftStep_state api id w
    unfold retryLoop at h
    cases hstep : draftStep api id w with
    | panic s1 =>
      rw [hstep] at h hs
      simp only [Option.some.injEq] at h
      subst h
      exact ⟨hs.1, hs.2, fun w1 hw => by cases hw⟩
    | ret v s1 =>
      rw [hstep] at h hs
      simp only [Run.state] at hs
      cases v with
      | none =>
        simp only [Option.some.injEq] at h
        subst h
        refine ⟨hs.1, hs.2, ?_⟩
        intro w1 hw
        cases hw
        exact draftStep_nil api id w s1 hstep
      | some e =>
        simp only at h
        by_cases hr : e.Retryable = true
        · rw [if_pos hr] at h
          by_cases hd : deadline ≤ s1.now
          · rw [if_pos hd] at h
            simp only [Option.some.injEq] at h
            subst h
            exact ⟨hs.1, hs.2, fun w1 hw => by cases hw⟩
          · rw [if_neg hd] at h
            obtain ⟨h1, h2, h3⟩ := ih s1 r h
            exact ⟨h1.trans hs.1, h2.trans hs.2, h3⟩
        · rw [if_neg hr] at h
          simp only [Option.some.injEq] at h
          subst h
          exact ⟨hs.1, hs.2, fun w1 hw => by cases hw⟩

theorem wait_facts (api : ConfigurationAPI) (id : String) (fuel : Nat)
    (w : ConfigurationWorld) (r : Run ConfigurationWorld Diagnostics)
    (h : waitForConfigurationDraftToBeActive api id fuel w = some r) :
    r.state.d = w.d ∧ publishes r.state.trace = publishes w.trace
      ∧ ∀ w1, r = .ret [] w1 → EndsInActiveRead w1.trace id :=
  retryLoop_draftStep api id _ fuel w r h

theorem create_publishes_after_active
    (f : List Value → Outcome (List String)) (api : ConfigurationAPI)
    (read : ConfigurationWorld → Run ConfigurationWorld Diagnostics) (fuel : Nat)
    (w : ConfigurationWorld) (r : Run ConfigurationWorld Diagnostics)
    (h : createWebDeploymentConfiguration f api read fuel w = some r) :
    PublishedOnceAfterActive read w r := by
  unfold createWebDeploymentConfiguration at h
  cases hin : readWebDeploymentConfigurationFromResourceData f w.d with
  | panics =>
    simp only [hin, Option.some.injEq] at h
    subst h
    exact Or.inl ⟨trivial, rfl⟩
  | returns v =>
    obtain ⟨name, inputCfg⟩ := v
    simp only [hin] at h
    have hpost : publishes (w.emit (ConfigurationEvent.postConfiguration inputCfg)).trace
        = publishes w.trace := by
      simp [ConfigurationWorld.emit, publishes_append, publishes]
    cases hp : api.post with
    | failed err =>
      simp only [hp, Option.some.injEq] at h
      subst h
      exact Or.inl ⟨by simp [Run.Failed, diagErrorf], hpost⟩
    | answered configuration =>
      simp only [hp] at h
      cases hid : configuration.Id with
      | none =>
        simp only [hid, Option.some.injEq] at h
        subst h
        exact Or.inl ⟨trivial, hpost⟩
      | some id =>
        simp only [hid] at h
        generalize hw3 : ((w.emit (ConfigurationEvent.postConfiguration inputCfg)).SetId
          id).SetStatus configuration.Status = w3 at h
        have h3 : publishes w3.trace = publishes w.trace := by
          rw [← hw3]
          simp [ConfigurationWorld.emit, ConfigurationWorld.SetId, ConfigurationWorld.SetStatus,
            publishes_append, publishes]
        cases hwait : waitForConfigurationDraftToBeActive api w3.d.id fuel w3 with
        | none => simp [hwait] at h
        | some rw4 =>
          obtain ⟨hd4, hp4, hact⟩ := wait_facts api w3.d.id fuel w3 rw4 hwait
          simp only [hwait] at h
          cases rw4 with
          | panic w4 =>
            simp only [Option.some.injEq] at h
            subst h
            exact Or.inl ⟨trivial, hp4.trans h3⟩
          | ret ds w4 =>
            simp only [Run.state] at hd4 hp4
            cases ds with
            | cons e es =>
              simp only [Option.some.injEq] at h
              subst h
              exact Or.inl ⟨by simp [Run.Failed, diagErrorf], hp4.trans h3⟩
            | nil =>
              simp only at h
              have hends : EndsInActiveRead w4.trace w4.d.id := by
                rw [hd4]; exact hact w4 rfl
              cases hpub : api.publish with
              | failed err =>
                simp only [hpub, Option.some.injEq] at h
                subst h
                exact Or.inr ⟨w4, w4.emit (ConfigurationEvent.publish w4.d.id), [], hends,
                  hp4.trans h3, rfl, rfl, Or.inl ⟨by simp [Run.Failed, diagErrorf], rfl⟩⟩
              | answered published =>
                simp only [hpub] at h
                cases hpid : published.Id with
                | none =>
                  simp only [hpid, Option.some.injEq] at h
                  subst h
                  exact Or.inr ⟨w4, (w4.emit (ConfigurationEvent.publish w4.d.id)).SetVersionStatus
                    published, [], hends, hp4.trans h3, rfl, rfl, Or.inl ⟨trivial, rfl⟩⟩
                | some pid =>
                  simp only [hpid, Option.some.injEq] at h
                  exact Or.inr ⟨w4, (w4.emit (ConfigurationEvent.publish w4.d.id)).SetVersionStatus
                    published, [], hends, hp4.trans h3, rfl, rfl, Or.inr h.symm⟩

theorem update_publishes_after_active
    (f : List Value → Outcome (List String)) (api : ConfigurationAPI)
    (read : ConfigurationWorld → Run ConfigurationWorld Diagnostics) (fuel : Nat)
    (w : ConfigurationWorld) (r : Run ConfigurationWorld Diagnostics)
    (h : updateWebDeploymentConfiguration f api read fuel w = some r) :
    PublishedOnceAfterActive read w r := by
  unfold updateWebDeploymentConfiguration at h
  cases hin : readWebDeploymentConfigurationFromResourceData f w.d with
  | panics =>
    simp only [hin, Option.some.injEq] at h
    subst h
    exact Or.inl ⟨trivial, rfl⟩
  | returns v =>
    obtain ⟨name, inputCfg⟩ := v
    simp only [hin] at h
    generalize hw1 : w.emit (ConfigurationEvent.putDraft w.d.id inputCfg) = w1 at h
    have h1 : publishes w1.trace = publishes w.trace := by
      rw [← hw1]
      simp [ConfigurationWorld.emit, publishes_append, publishes]
    cases hp : api.putDraft with
    | failed err =>
      simp only [hp, Option.some.injEq] at h
      subst h
      exact Or.inl ⟨by simp [Run.Failed, diagErrorf], h1⟩
    | answered configuration =>
      simp only [hp] at h
      cases hwait : waitForConfigurationDraftToBeActive api w1.d.id fuel w1 with
      | none => simp [hwait] at h
      | some rw2 =>
        obtain ⟨hd2, hp2, hact⟩ := wait_facts api w1.d.id fuel w1 rw2 hwait
        simp only [hwait] at h
        cases rw2 with
        | panic w2 =>
          simp only [Option.some.injEq] at h
          subst h
          exact Or.inl ⟨trivial, hp2.trans h1⟩
        | ret ds w2 =>
          simp only [Run.state] at hd2 hp2
          cases ds with
          | cons e es =>
            simp only [Option.some.injEq] at h
            subst h
            exact Or.inl ⟨by simp [Run.Failed, diagErrorf], hp2.trans h1⟩
          | nil =>
            simp only at h
            have hends : EndsInActiveRead w2.trace w2.d.id := by
              rw [hd2]; exact hact w2 rfl
            cases hpub : api.publish with
            | failed err =>
              simp only [hpub, Option.some.injEq] at h
              subst h
              exact Or.inr ⟨w2, w2.emit (ConfigurationEvent.publish w2.d.id), [], hends,
                hp2.trans h1, rfl, rfl, Or.inl ⟨by simp [Run.Failed, diagErrorf], rfl⟩⟩
            | answered published =>
              simp only [hpub, Option.some.injEq] at h
              refine Or.inr ⟨w2, _, [ConfigurationEvent.sleep 5], hends, hp2.trans h1, ?_, rfl,
                Or.inr h.symm⟩
              simp [ConfigurationWorld.emit, ConfigurationWorld.SetVersionStatus]

/-- C24.  In every execution of `createWebDeploymentConfiguration` and of
`updateWebDeploymentConfiguration` that ends, either nothing was published and
the operation failed, or the publish call was issued once, for the draft of the
resource, right after a read of that draft that was answered with status
`Active` and that ended the wait.  One step of the wait returns a
non-retryable error when the read fails, a retryable one for any status but
`Active`, and nil for `Active`; a failed read ends the wait with its error; and
when the wait returns an error, each operation returns the error of lines 472
and 537 and has published nothing. -/
theorem publish_only_after_active_draft :
    (∀ (f : List Value → Outcome (List String)) (api : ConfigurationAPI)
        (read : ConfigurationWorld → Run ConfigurationWorld Diagnostics) (fuel : Nat)
        (w : ConfigurationWorld) (r : Run ConfigurationWorld Diagnostics),
        createWebDeploymentConfiguration f api read fuel w = some r →
        PublishedOnceAfterActive read w r)
    ∧ (∀ (f : List Value → Outcome (List String)) (api : ConfigurationAPI)
        (read : ConfigurationWorld → Run ConfigurationWorld Diagnostics) (fuel : Nat)
        (w : ConfigurationWorld) (r : Run ConfigurationWorld Diagnostics),
        updateWebDeploymentConfiguration f api read fuel w = some r →
        PublishedOnceAfterActive read w r)
    ∧ (∀ (api : ConfigurationAPI) (id err : String) (w : ConfigurationWorld),
        api.draft w.reads = .failed err →
        ∃ e w1, draftStep api id w = .ret (some e) w1 ∧ e.Retryable = false
          ∧ ∀ fuel, waitForConfigurationDraftToBeActive api id (fuel + 1) w
              = some (.ret [{ Summary := e.Err, Timeout := false }] w1))
    ∧ (∀ (api : ConfigurationAPI) (id status : String) (w : ConfigurationWorld)
        (configuration : Webdeploymentconfigurationversion),
        api.draft w.reads = .answered configuration → configuration.Status = some status →
        (status ≠ "Active" → ∃ e w1, draftStep api id w = .ret (some e) w1 ∧ e.Retryable = true)
          ∧ (status = "Active" → ∃ w1, draftStep api id w = .ret none w1))
    ∧ (∀ (f : List Value → Outcome (List String)) (api : ConfigurationAPI)
        (read : ConfigurationWorld → Run ConfigurationWorld Diagnostics) (fuel : Nat)
        (w w4 : ConfigurationWorld) (name id : String)
        (inputCfg configuration : Webdeploymentconfigurationversion) (e : Diagnostic)
        (es : Diagnostics),
        readWebDeploymentConfigurationFromResourceData f w.d = .returns (name, inputCfg) →
        api.post = .answered configuration → configuration.Id = some id →
        waitForConfigurationDraftToBeActive api id fuel
          (((w.emit (ConfigurationEvent.postConfiguration inputCfg)).SetId id).SetStatus
            configuration.Status) = some (.ret (e :: es) w4) →
        createWebDeploymentConfiguration f api read fuel w
            = some (.ret (diagErrorf ("Web deployment configuration " ++ name
                ++ " did not become active and could not be published")) w4)
          ∧ publishes w4.trace = publishes w.trace)
    ∧ (∀ (f : List Value → Outcome (List String)) (api : ConfigurationAPI)
        (read : ConfigurationWorld → Run ConfigurationWorld Diagnostics) (fuel : Nat)
        (w w2 : ConfigurationWorld) (name : String)
        (inputCfg configuration : Webdeploymentconfigurationversion) (e : Diagnostic)
        (es : Diagnostics),
        readWebDeploymentConfigurationFromResourceData f w.d = .returns (name, inputCfg) →
        api.putDraft = .answered configuration →
        waitForConfigurationDraftToBeActive api w.d.id fuel
          (w.emit (ConfigurationEvent.putDraft w.d.id inputCfg)) = some (.ret (e :: es) w2) →
        updateWebDeploymentConfiguration f api read fuel w
            = some (.ret (diagErrorf ("Web deployment configuration " ++ name
                ++ " did not become active and could not be published")) w2)
          ∧ publishes w2.trace = publishes w.trace) := by
  refine ⟨create_publishes_after_active, update_publishes_after_active, ?_, ?_, ?_, ?_⟩
  · intro api id err w hd
    refine ⟨NonRetryableError
      ("Error verifying active status for new web deployment configuration " ++ id ++ ": "
        ++ err), w.readDraft api id, ?_, rfl, ?_⟩
    · simp only [draftStep, hd]
    · intro fuel
      simp only [waitForConfigurationDraftToBeActive, withRetries, retryLoop, draftStep, hd]
      rfl
  · intro api id status w configuration hd hs
    constructor
    · intro hne
      have hb : (status == "Active") = false := by simpa using hne
      exact ⟨RetryableError ("Web deployment configuration " ++ id
        ++ " not active yet. Status: " ++ status), w.readDraft api id,
        by simp [draftStep, hd, hs, hb], rfl⟩
    · intro heq
      subst heq
      exact ⟨w.readDraft api id, by simp [draftStep, hd, hs]⟩
  · intro f api read fuel w w4 name id inputCfg configuration e es hin hp hid hwait
    have hfacts := wait_facts api id fuel _ _ hwait
    refine ⟨?_, ?_⟩
    · simp only [createWebDeploymentConfiguration, hin, hp, hid]
      have hid3 : (((w.emit (ConfigurationEvent.postConfiguration inputCfg)).SetId
          id).SetStatus configuration.Status).d.id = id := rfl
      rw [hid3, hwait]
    · have h2 := hfacts.2.1
      simp only [Run.state] at h2
      rw [h2]
      simp [ConfigurationWorld.emit, ConfigurationWorld.SetId,
        ConfigurationWorld.SetStatus, publishes_append, publishes]
  · intro f api read fuel w w2 name inputCfg configuration e es hin hp hwait
    have hfacts := wait_facts api w.d.id fuel _ _ hwait
    refine ⟨?_, ?_⟩
    · simp only [updateWebDeploymentConfiguration, hin, hp]
      have hid1 : (w.emit (ConfigurationEvent.putDraft w.d.id inputCfg)).d.id = w.d.id := rfl
      rw [hid1, hwait]
    · have h2 := hfacts.2.1
      simp only [Run.state] at h2
      rw [h2]
      simp [ConfigurationWorld.emit, publishes_append, publishes]

/-- C24 on a draft that is `Pending` at the first read and `Active` at the
second, and on a draft that cannot be read. -/
theorem publish_only_after_active_draft_witness :
    (∃ r, createWebDeploymentConfiguration stringsOf sampleConfigurationAPI sampleRead 2 c0
          = some r
        ∧ PublishedOnceAfterActive sampleRead c0 r
        ∧ publishes r.state.trace = ["c1"])
    ∧ (∃ r, updateWebDeploymentConfiguration stringsOf draftUnreadable sampleRead 1 c0 = some r
        ∧ PublishedOnceAfterActive sampleRead c0 r
        ∧ r.Failed ∧ publishes r.state.trace = []) :=
  ⟨⟨_, rfl, publish_only_after_active_draft.1 stringsOf sampleConfigurationAPI sampleRead 2 c0
      _ rfl, rfl⟩,
    ⟨_, rfl, publish_only_after_active_draft.2.1 stringsOf draftUnreadable sampleRead 1 c0 _ rfl,
      by simp [Run.Failed, diagErrorf], rfl⟩⟩

end Genesyscloud
